import Mathlib

/-!
# NewOS kernel ports (`kernel/port.c`)

A sequential model of the port table of `kernel/port.c`: every port call runs
to completion before the next one starts.  The statics `ports`,
`ports_active` and `next_port` become the fields of `port_state`; the
semaphore subsystem the ports are built on is carried in the same state.

Conventions of the embedding

* `int`, `port_id`, `proc_id`, `sem_id` are `Int`; 32-bit arithmetic that can
  overflow goes through `wrap32`; C's `%` is `Int.tmod`.
* The error constants of `newos/errors.h` stay symbolic (`errcode`): the header
  is not among the sources, the code only relies on them being negative and
  pairwise distinct.  A result word is a `retval`.
* The table `ports[MAX_PORTS]` is a function on slot indices, only the indices
  below `MAX_PORTS` are ever touched.  `msg_queue` is the list of its cells.
* A cbuf chain is the list of bytes it holds; `data_cbuf = NULL` is `none`.
* The spin locks and the interrupt flag are not part of the state.  Where the
  order of the interrupt and lock calls matters, a call is given a second
  reading: the sequence of `lock_event`s, or of `port_event`s when the blocking
  calls matter as well, along the path it takes.
* A call that stops in `panic`, or that touches memory outside the ring or an
  indeterminate value, has no result (`none`).
-/

namespace NewOS

set_option linter.unusedVariables false

/-! ## Constants and result words -/

/-- MAX_PORTS must be power of 2 -/
abbrev MAX_PORTS : Nat := 4096

abbrev MAX_QUEUE_LENGTH : Int := 4096

abbrev PORT_MAX_MESSAGE_SIZE : Nat := 65536

/-- The error constants used by `port.c`.  `ERR_OTHER n` stands for any further
error constant of the system (for instance the failure codes of
`sem_create_etc` or of a faulting copy). -/
inductive errcode where
  | ERR_NO_MEMORY
  | ERR_INVALID_ARGS
  | ERR_INVALID_HANDLE
  | ERR_INTERRUPTED
  | ERR_SEM_DELETED
  | ERR_SEM_TIMED_OUT
  | ERR_PORT_NOT_ACTIVE
  | ERR_PORT_OUT_OF_SLOTS
  | ERR_PORT_CLOSED
  | ERR_PORT_DELETED
  | ERR_PORT_TIMED_OUT
  | ERR_PORT_NOT_FOUND
  | ERR_VM_BAD_USER_MEMORY
  | ERR_OTHER (n : Nat)
  deriving DecidableEq

/-- A result word: an integer value, or one of the (negative) error
constants. -/
inductive retval where
  | val (n : Int)
  | err (e : errcode)
  deriving DecidableEq

abbrev NO_ERROR : retval := retval.val 0

/-- The C test `r < 0` on a result word. -/
def retval.neg : retval → Bool
  | retval.val n => decide (n < 0)
  | retval.err _ => true

/-- Two's complement wrap-around of a 32-bit signed `int`. -/
def wrap32 (x : Int) : Int := (x + 2147483648) % 4294967296 - 2147483648

/-! ## Data model -/

/-- The bytes held by a cbuf chain. -/
abbrev cbuf := List Nat

/-- Mirror of `struct port_msg`. -/
structure port_msg where
  msg_code : Int
  data_cbuf : Option cbuf
  data_len : Nat
  deriving DecidableEq

/-- Mirror of `struct port_entry` (without the spin lock word). -/
structure port_entry where
  id : Int
  owner : Int
  capacity : Int
  name : Option (List Char)
  read_sem : Int
  write_sem : Int
  head : Int
  tail : Int
  total_count : Int
  closed : Bool
  msg_queue : List port_msg
  deriving DecidableEq

/-- Mirror of `struct port_info`; `name` is the raw character buffer. -/
structure port_info where
  id : Int
  owner : Int
  name : List Char
  capacity : Int
  queue_count : Int
  total_count : Int
  deriving DecidableEq

/-- The three flag bits the port calls look at (all other bits are masked
off on entry). -/
structure port_flags where
  use_user_memcpy : Bool
  interruptable : Bool
  timeout : Bool
  deriving DecidableEq

/-- Modelled from the spec: the counting semaphores of `kernel/sem.c`, which is
not among the sources.  `count h` is the count of the semaphore with handle
`h`, `none` when there is no such semaphore; `next_sem` is the handle the next
`create` hands out. -/
structure sem_table where
  count : Int → Option Int
  next_sem : Int

/-- The statics of `port.c` together with the semaphore subsystem. -/
structure port_state where
  ports : Nat → port_entry
  ports_active : Bool
  next_port : Int
  sems : sem_table

/-! ## Semaphores -/

/-- Modelled from the spec: `create(initial, name, owner) → handle` of the
semaphore subsystem (`kernel/sem.c` is not among the sources).  `fail` is the
error the subsystem reports when it cannot create a semaphore. -/
def sem_create_etc (t : sem_table) (count : Int) (fail : Option errcode) :
    sem_table × retval :=
  match fail with
  | some e => (t, retval.err e)
  | none =>
    ({ count := Function.update t.count t.next_sem (some count),
       next_sem := t.next_sem + 1 }, retval.val t.next_sem)

/-- Modelled from the spec: `destroy(handle)` of the semaphore subsystem
(`kernel/sem.c` is not among the sources). -/
def sem_delete (t : sem_table) (id : Int) : sem_table :=
  { t with count := Function.update t.count id none }

/-- Modelled from the spec: `acquire(handle, 1, flags, timeout)` of the
semaphore subsystem (`kernel/sem.c` is not among the sources), returning one
of `Ok | Deleted | TimedOut | Interrupted`.  A token that is available is
taken at once.  Otherwise the caller would have to wait; in the sequential
model no other task can release a token, and `wait` is the error with which
the wait ends (it covers every choice of flags and timeout).  A failed acquire
leaves the count as it was. -/
def sem_acquire_etc (t : sem_table) (id : Int) (wait : errcode) :
    sem_table × retval :=
  match t.count id with
  | none => (t, retval.err errcode.ERR_SEM_DELETED)
  | some c =>
    if 1 ≤ c then
      ({ t with count := Function.update t.count id (some (c - 1)) }, NO_ERROR)
    else (t, retval.err wait)

/-- Modelled from the spec: `release(handle, n)` of the semaphore subsystem
(`kernel/sem.c` is not among the sources). -/
def sem_release (t : sem_table) (id : Int) (n : Int) : sem_table :=
  match t.count id with
  | none => t
  | some c => { t with count := Function.update t.count id (some (c + n)) }

/-- Modelled from the spec: `get_count(handle) → int` of the semaphore
subsystem (`kernel/sem.c` is not among the sources); `none` when the handle
names no semaphore and the caller's variable is left as it was. -/
def sem_get_count (t : sem_table) (id : Int) : Option Int :=
  t.count id

/-! ## Port table -/

/-- One slot after `memset(ports, 0, sz)` and `ports[i].id = -1`. -/
def free_entry : port_entry :=
  { id := -1, owner := 0, capacity := 0, name := none, read_sem := 0,
    write_sem := 0, head := 0, tail := 0, total_count := 0, closed := false,
    msg_queue := [] }

/-- The statics before `port_init` has run: `ports = NULL`,
`ports_active = false`, `next_port = 0`; `sems` is the state of the semaphore
subsystem at that time. -/
def port_statics (sems : sem_table) : port_state :=
  { ports := fun _ => free_entry, ports_active := false, next_port := 0,
    sems := sems }

/-- An empty semaphore subsystem. -/
def sem_empty : sem_table := { count := fun _ => none, next_sem := 0 }

def port_init (s : port_state) : port_state :=
  { s with ports := fun _ => free_entry, ports_active := true }

/-- The slot index `id % MAX_PORTS` of a non-negative id. -/
def slot_of (id : Int) : Nat := (Int.tmod id MAX_PORTS).toNat

/-- What the environment of `port_create` answers: whether `kmalloc` of the
name succeeds, the memory `kmalloc` returns for the queue (`none` for `NULL`,
else the indeterminate content of its cells), the failure of either
`sem_create_etc`, and `proc_get_current_proc_id()`. -/
structure create_env where
  name_mem : Bool
  queue_mem : Option (Nat → port_msg)
  sem_r_fail : Option errcode
  sem_w_fail : Option errcode
  owner : Int

/-- The string left in `dst` by `strlcpy(dst, src, size)`. -/
def strlcpy (src : List Char) (size : Nat) : List Char := src.take (size - 1)

/-- The body of the slot search of `port_create` at the first free slot `i`. -/
def port_create_at (s : port_state) (i : Nat) (queue_length : Int)
    (temp_name : List Char) (sem_r sem_w : Int) (q : List port_msg) (owner : Int) :
    port_state × retval :=
  -- make the port_id be a multiple of the slot it's in
  let next_port :=
    if (i : Int) ≥ Int.tmod s.next_port MAX_PORTS then
      wrap32 (s.next_port + ((i : Int) - Int.tmod s.next_port MAX_PORTS))
    else
      wrap32 (s.next_port + (MAX_PORTS - (Int.tmod s.next_port MAX_PORTS - (i : Int))))
  let e : port_entry :=
    { s.ports i with
      id := next_port
      capacity := queue_length
      name := some temp_name
      read_sem := sem_r
      write_sem := sem_w
      msg_queue := q
      head := 0
      tail := 0
      total_count := 0
      owner := owner }
  ({ s with ports := Function.update s.ports i e, next_port := wrap32 (next_port + 1) },
   retval.val next_port)

/-- The loop `for(i=0; i<MAX_PORTS; i++)` of `port_create`, entered at `i` with
`fuel` iterations left; `none` when it runs off the table. -/
def port_create_loop (s : port_state) (queue_length : Int) (temp_name : List Char)
    (sem_r sem_w : Int) (q : List port_msg) (owner : Int) :
    Nat → Nat → Option (port_state × retval)
  | 0, _ => none
  | fuel + 1, i =>
    if (s.ports i).id = -1 then
      some (port_create_at s i queue_length temp_name sem_r sem_w q owner)
    else port_create_loop s queue_length temp_name sem_r sem_w q owner fuel (i + 1)

/-- Model of `port_create(queue_length, name)`; `name = none` is the `NULL` pointer and
`SYS_MAX_OS_NAME_LEN` the system's name bound. -/
def port_create (SYS_MAX_OS_NAME_LEN : Nat) (s : port_state) (queue_length : Int)
    (name : Option (List Char)) (env : create_env) : port_state × retval :=
  if s.ports_active = false then (s, retval.err errcode.ERR_PORT_NOT_ACTIVE) else
  let name := name.getD "unnamed port".toList
  let name_len := min (name.length + 1) SYS_MAX_OS_NAME_LEN
  if env.name_mem = false then (s, retval.err errcode.ERR_NO_MEMORY) else
  let temp_name := strlcpy name name_len
  -- check queue length
  if queue_length < 1 ∨ queue_length > MAX_QUEUE_LENGTH then
    (s, retval.err errcode.ERR_INVALID_ARGS)
  else
  -- alloc a queue
  match env.queue_mem with
  | none => (s, retval.err errcode.ERR_NO_MEMORY)
  | some mem =>
    let q := (List.range queue_length.toNat).map mem
    -- create sem_r
    match sem_create_etc s.sems 0 env.sem_r_fail with
    | (sems1, retval.err e) => ({ s with sems := sems1 }, retval.err e)
    | (sems1, retval.val sem_r) =>
      if sem_r < 0 then ({ s with sems := sems1 }, retval.val sem_r) else
      -- create sem_w
      match sem_create_etc sems1 queue_length env.sem_w_fail with
      | (sems2, retval.err e) => ({ s with sems := sem_delete sems2 sem_r }, retval.err e)
      | (sems2, retval.val sem_w) =>
        if sem_w < 0 then ({ s with sems := sem_delete sems2 sem_r }, retval.val sem_w) else
        let s2 := { s with sems := sems2 }
        -- find the first empty spot
        match port_create_loop s2 queue_length temp_name sem_r sem_w q env.owner MAX_PORTS 0 with
        | some r => r
        | none =>
          -- not enough ports...
          ({ s2 with sems := sem_delete (sem_delete sems2 sem_w) sem_r },
           retval.err errcode.ERR_PORT_OUT_OF_SLOTS)

def port_close (s : port_state) (id : Int) : port_state × retval :=
  if s.ports_active = false then (s, retval.err errcode.ERR_PORT_NOT_ACTIVE) else
  if id < 0 then (s, retval.err errcode.ERR_INVALID_HANDLE) else
  let slot := slot_of id
  if (s.ports slot).id ≠ id then (s, retval.err errcode.ERR_INVALID_HANDLE) else
  -- mark port to disable writing
  ({ s with ports := Function.update s.ports slot { s.ports slot with closed := true } },
   NO_ERROR)

/-- Model of `port_delete(id)`.  The chains left in the queue, the queue and the name
are freed; the slot keeps its stale `msg_queue`, which nothing reads while
`id = -1`. -/
def port_delete (s : port_state) (id : Int) : port_state × retval :=
  if s.ports_active = false then (s, retval.err errcode.ERR_PORT_NOT_ACTIVE) else
  if id < 0 then (s, retval.err errcode.ERR_INVALID_HANDLE) else
  let slot := slot_of id
  if (s.ports slot).id ≠ id then (s, retval.err errcode.ERR_INVALID_HANDLE) else
  -- mark port as invalid
  let r_sem := (s.ports slot).read_sem
  let w_sem := (s.ports slot).write_sem
  let e := { s.ports slot with id := -1, name := none }
  -- release the threads that were blocking on this port by deleting the sem
  ({ s with ports := Function.update s.ports slot e,
            sems := sem_delete (sem_delete s.sems r_sem) w_sem },
   NO_ERROR)

/-- The content of the buffer `dst` after `strncpy(dst, src, n)`. -/
def strncpy (dst src : List Char) (n : Nat) : List Char :=
  src.take n ++ List.replicate (n - src.length) (Char.ofNat 0) ++ dst.drop n

/-- The block "fill a port_info struct with info" shared by `port_get_info`
and `port_get_next_port_info`. -/
def fill_port_info (SYS_MAX_OS_NAME_LEN : Nat) (sems : sem_table) (p : port_entry)
    (info : port_info) : port_info :=
  let name := p.name.getD []
  { id := p.id
    owner := p.owner
    name := strncpy info.name name (min name.length (SYS_MAX_OS_NAME_LEN - 1))
    capacity := p.capacity
    queue_count := (sem_get_count sems p.read_sem).getD info.queue_count
    total_count := p.total_count }

/-- Model of `port_get_info(id, info)`; `info = none` is the `NULL` pointer, otherwise
the content of the caller's struct before the call.  The result carries the
content after the call. -/
def port_get_info (SYS_MAX_OS_NAME_LEN : Nat) (s : port_state) (id : Int)
    (info : Option port_info) : port_state × retval × Option port_info :=
  if s.ports_active = false then (s, retval.err errcode.ERR_PORT_NOT_ACTIVE, info) else
  match info with
  | none => (s, retval.err errcode.ERR_INVALID_ARGS, none)
  | some i =>
    if id < 0 then (s, retval.err errcode.ERR_INVALID_HANDLE, info) else
    let slot := slot_of id
    if (s.ports slot).id ≠ id then (s, retval.err errcode.ERR_INVALID_HANDLE, info) else
    (s, NO_ERROR, some (fill_port_info SYS_MAX_OS_NAME_LEN s.sems (s.ports slot) i))

/-- Model of `port_count(id)`.  The local `count` is indeterminate when `sem_get_count`
does not set it. -/
def port_count (s : port_state) (id : Int) : Option (port_state × retval) :=
  if s.ports_active = false then some (s, retval.err errcode.ERR_PORT_NOT_ACTIVE) else
  if id < 0 then some (s, retval.err errcode.ERR_INVALID_HANDLE) else
  let slot := slot_of id
  if (s.ports slot).id ≠ id then some (s, retval.err errcode.ERR_INVALID_HANDLE) else
  match sem_get_count s.sems (s.ports slot).read_sem with
  | none => none
  | some count =>
    -- do not return negative numbers
    let count := if count < 0 then 0 else count
    some (s, retval.val count)

def port_set_owner (s : port_state) (id : Int) (proc : Int) : port_state × retval :=
  if s.ports_active = false then (s, retval.err errcode.ERR_PORT_NOT_ACTIVE) else
  if id < 0 then (s, retval.err errcode.ERR_INVALID_HANDLE) else
  let slot := slot_of id
  if (s.ports slot).id ≠ id then (s, retval.err errcode.ERR_INVALID_HANDLE) else
  -- transfer ownership to other process
  ({ s with ports := Function.update s.ports slot { s.ports slot with owner := proc } },
   NO_ERROR)

/-! ## Lookup by name and iteration by owner -/

/-- The sign of `strcmp(s1, s2)` on two strings given by their characters
before the terminating NUL: zero exactly when they are equal. -/
def strcmp : List Char → List Char → Int
  | [], [] => 0
  | [], _ :: _ => -1
  | _ :: _, [] => 1
  | a :: s1, b :: s2 => if a = b then strcmp s1 s2 else if a < b then -1 else 1

/-- The loop `for(i=0; i<MAX_PORTS; i++)` of `port_find`, entered at `i` with
`fuel` iterations left.  `strcmp` on the `NULL` name of a slot has no
result. -/
def port_find_loop (s : port_state) (port_name : List Char) : Nat → Nat → Option retval
  | 0, _ => some (retval.err errcode.ERR_INVALID_HANDLE)
  | fuel + 1, i =>
    if (s.ports i).id ≥ 0 then
      match (s.ports i).name with
      | none => none
      | some name =>
        if strcmp port_name name = 0 then some (retval.val (s.ports i).id)
        else port_find_loop s port_name fuel (i + 1)
    else port_find_loop s port_name fuel (i + 1)

/-- Model of `port_find(port_name)`; `port_name = none` is the `NULL` pointer.  The
call leaves the table as it is. -/
def port_find (s : port_state) (port_name : Option (List Char)) : Option retval :=
  if s.ports_active = false then some (retval.err errcode.ERR_PORT_NOT_ACTIVE) else
  match port_name with
  | none => some (retval.err errcode.ERR_INVALID_HANDLE)
  | some name =>
    -- loop over list
    port_find_loop s name MAX_PORTS 0

/-- The result of `port_get_next_port_info`: the returned word and the
content of `*cookie` and `*info` after the call. -/
structure next_info_result where
  ret : retval
  cookie : Option Nat
  info : Option port_info
  deriving DecidableEq

/-- The loop `while (slot < MAX_PORTS)` of `port_get_next_port_info`, entered at
`slot` with `fuel = MAX_PORTS - slot` iterations left: the value of `slot`
and the content of `*info` when the loop is left. -/
def port_get_next_loop (SYS_MAX_OS_NAME_LEN : Nat) (s : port_state) (proc : Int) :
    Nat → Nat → port_info → Nat × port_info
  | 0, slot, info => (slot, info)
  | fuel + 1, slot, info =>
    if (s.ports slot).id ≠ -1 ∧ (s.ports slot).owner = proc then
      -- found one! copy the info
      (slot + 1, fill_port_info SYS_MAX_OS_NAME_LEN s.sems (s.ports slot) info)
    else port_get_next_loop SYS_MAX_OS_NAME_LEN s proc fuel (slot + 1) info

/-- Model of `port_get_next_port_info(proc, cookie, info)`.  `cookie` and `info` are
`none` for `NULL` and otherwise hold what the pointers point to before the
call; `*cookie` is a `uint32`.  A store through the `NULL` `info`, or an access
to `ports[slot]` with a negative `slot`, has no result.  The call leaves the
table as it is. -/
def port_get_next_port_info (SYS_MAX_OS_NAME_LEN : Nat) (s : port_state) (proc : Int)
    (cookie : Option Nat) (info : Option port_info) : Option next_info_result :=
  if s.ports_active = false then some ⟨retval.err errcode.ERR_PORT_NOT_ACTIVE, cookie, info⟩ else
  match cookie with
  | none => some ⟨retval.err errcode.ERR_INVALID_ARGS, cookie, info⟩
  | some c =>
    -- start at index cookie, but check cookie against MAX_PORTS
    let slot : Int := if c = 0 then 0 else wrap32 c
    if c ≠ 0 ∧ slot ≥ MAX_PORTS then
      some ⟨retval.err errcode.ERR_INVALID_HANDLE, cookie, info⟩ else
    match info with
    | none => none
    | some i0 =>
      if slot < 0 then none else
      -- used as found flag
      let i1 : port_info := { i0 with id := -1 }
      let r := port_get_next_loop SYS_MAX_OS_NAME_LEN s proc (MAX_PORTS - slot.toNat) slot.toNat i1
      if r.2.id = -1 then some ⟨retval.err errcode.ERR_PORT_NOT_FOUND, cookie, some r.2⟩
      else some ⟨NO_ERROR, some r.1, some r.2⟩

/-! ## User-level calls -/

/-- Modelled from the spec: the first `uint32` of a `struct port_info`.  The
declaration of the struct (`kernel/port.h`) is not among the sources; the
snapshot is "(id, owner, name, capacity, current queue depth, lifetime
total)", filled in that order, so the struct starts with `id`. -/
def port_info_word0 (info : port_info) : Nat := (info.id % 4294967296).toNat

/-- What the environment of `user_port_get_next_port_info` answers: whether
`ucookie` and `uinfo` are kernel addresses, the results of the three
`user_memcpy` calls, and the indeterminate content of the local `info`. -/
structure user_next_env where
  ucookie_kernel : Bool
  uinfo_kernel : Bool
  copy_in : retval
  copy_cookie : retval
  copy_info : retval
  info : port_info

/-- Model of `user_port_get_next_port_info(uproc, ucookie, uinfo)`.  `ucookie` and
`uinfo` are `none` for `NULL` and otherwise hold what the user pointers point
to before the call; the result carries the returned word and the content of
`*ucookie` and `*uinfo` after the call. -/
def user_port_get_next_port_info (SYS_MAX_OS_NAME_LEN : Nat) (s : port_state) (uproc : Int)
    (ucookie : Option Nat) (uinfo : Option port_info) (env : user_next_env) :
    Option next_info_result :=
  match ucookie with
  | none => some ⟨retval.err errcode.ERR_INVALID_ARGS, ucookie, uinfo⟩
  | some c =>
    match uinfo with
    | none => some ⟨retval.err errcode.ERR_INVALID_ARGS, ucookie, uinfo⟩
    | some _ =>
      if env.ucookie_kernel then
        some ⟨retval.err errcode.ERR_VM_BAD_USER_MEMORY, ucookie, uinfo⟩ else
      if env.uinfo_kernel then
        some ⟨retval.err errcode.ERR_VM_BAD_USER_MEMORY, ucookie, uinfo⟩ else
      -- copy from userspace
      if env.copy_in.neg then some ⟨env.copy_in, ucookie, uinfo⟩ else
      let cookie := c
      match port_get_next_port_info SYS_MAX_OS_NAME_LEN s uproc (some cookie) (some env.info) with
      | none => none
      | some r =>
        let res := r.ret
        let info := r.info.getD env.info
        -- copy to userspace
        if env.copy_cookie.neg then some ⟨env.copy_cookie, ucookie, uinfo⟩ else
        let ucookie1 := some (port_info_word0 info)
        if env.copy_info.neg then some ⟨env.copy_info, ucookie1, uinfo⟩ else
        some ⟨res, ucookie1, some info⟩

/-! ## Message queue engine -/

/-- What the environment of `port_read_etc` answers: the error that ends a
wait on the semaphore, and the result of `cbuf_user_memcpy_from_chain`. -/
structure read_env where
  wait : errcode
  copy : retval

/-- What the environment of `port_write_etc` answers: the error that ends a
wait on the semaphore, whether `cbuf_get_chain` succeeds, and the result of
`cbuf_memcpy_to_chain` / `cbuf_user_memcpy_to_chain`. -/
structure write_env where
  wait : errcode
  chain_mem : Bool
  copy : retval

/-- The result of `port_read_etc`: the new state, the returned word, and the
content of `*msg_code` and of the receive buffer after the call. -/
structure read_result where
  state : port_state
  ret : retval
  msg_code : Option Int
  msg_buffer : Option (List Nat)

/-- The bytes of the receive buffer after `siz` bytes of `chain` have been
copied to its start. -/
def memcpy_from_chain (msg_buffer : List Nat) (chain : cbuf) (siz : Nat) : List Nat :=
  chain.take siz ++ msg_buffer.drop siz

/-- The second half of `port_read_etc`, entered once a token of `read_sem` has
been taken: the critical section that dequeues the cell at `tail`, the copy
to the caller's buffer and the release of `write_sem`.  A copy of `siz > 0`
bytes out of a `NULL` chain has no result. -/
def port_read_dequeue (s : port_state) (slot : Nat) (msg_buffer : Option (List Nat))
    (buffer_size : Nat) (flags : port_flags) (env : read_env) : Option read_result :=
  let p := s.ports slot
  let t := p.tail
  if t < 0 then none else
  if t > p.capacity then none else
  match p.msg_queue.get? t.toNat with
  | none => none
  | some m =>
    let msg_store := m.data_cbuf
    let code := m.msg_code
    -- check output buffer size
    let siz := min buffer_size m.data_len
    let p1 : port_entry :=
      { p with
        tail := Int.tmod (wrap32 (p.tail + 1)) p.capacity
        -- mark queue entry unused
        msg_queue := p.msg_queue.set t.toNat { m with data_cbuf := none } }
    let cached_semid := p.write_sem
    -- make one spot in queue available again for write
    let s2 : port_state :=
      { s with ports := Function.update s.ports slot p1,
               sems := sem_release s.sems cached_semid 1 }
    -- copy message
    if siz > 0 then
      if flags.use_user_memcpy then
        let err : Int := if env.copy.neg then 1 else 0
        if err ≠ 0 then
          -- leave the port intact, for other threads that might not crash
          some ⟨s2, retval.val err, some code, msg_buffer⟩
        else
          match msg_store with
          | none => none
          | some chain =>
            some ⟨s2, retval.val siz, some code,
              some (memcpy_from_chain (msg_buffer.getD []) chain siz)⟩
      else
        match msg_store with
        | none => none
        | some chain =>
          some ⟨s2, retval.val siz, some code,
            some (memcpy_from_chain (msg_buffer.getD []) chain siz)⟩
    else
      some ⟨s2, retval.val siz, some code, msg_buffer⟩

/-- Model of `port_read_etc(id, msg_code, msg_buffer, buffer_size, flags, timeout)`.
`msg_code` and `msg_buffer` are `none` for `NULL` and otherwise hold what the
pointers point to before the call. -/
def port_read_etc (s : port_state) (id : Int) (msg_code : Option Int)
    (msg_buffer : Option (List Nat)) (buffer_size : Nat) (flags : port_flags)
    (timeout : Int) (env : read_env) : Option read_result :=
  if s.ports_active = false then
    some ⟨s, retval.err errcode.ERR_PORT_NOT_ACTIVE, msg_code, msg_buffer⟩ else
  if id < 0 then some ⟨s, retval.err errcode.ERR_INVALID_HANDLE, msg_code, msg_buffer⟩ else
  if msg_code = none then some ⟨s, retval.err errcode.ERR_INVALID_ARGS, msg_code, msg_buffer⟩ else
  if msg_buffer = none ∧ buffer_size > 0 then
    some ⟨s, retval.err errcode.ERR_INVALID_ARGS, msg_code, msg_buffer⟩ else
  if timeout < 0 then some ⟨s, retval.err errcode.ERR_INVALID_ARGS, msg_code, msg_buffer⟩ else
  let slot := slot_of id
  if (s.ports slot).id ≠ id then
    some ⟨s, retval.err errcode.ERR_INVALID_HANDLE, msg_code, msg_buffer⟩ else
  -- store sem_id in local variable
  let cached_semid := (s.ports slot).read_sem
  -- get 1 entry from the queue, block if needed
  let acq := sem_acquire_etc s.sems cached_semid env.wait
  let s1 : port_state := { s with sems := acq.1 }
  let res := acq.2
  if res = retval.err errcode.ERR_SEM_DELETED then
    some ⟨s1, retval.err errcode.ERR_PORT_DELETED, msg_code, msg_buffer⟩
  else if res = retval.err errcode.ERR_INTERRUPTED then
    some ⟨s1, retval.err errcode.ERR_INTERRUPTED, msg_code, msg_buffer⟩
  else if res = retval.err errcode.ERR_SEM_TIMED_OUT then
    some ⟨s1, retval.err errcode.ERR_PORT_TIMED_OUT, msg_code, msg_buffer⟩
  else if res ≠ NO_ERROR then
    some ⟨s1, res, msg_code, msg_buffer⟩
  else port_read_dequeue s1 slot msg_buffer buffer_size flags env

def port_read (s : port_state) (port : Int) (msg_code : Option Int)
    (msg_buffer : Option (List Nat)) (buffer_size : Nat) (env : read_env) :
    Option read_result :=
  port_read_etc s port msg_code msg_buffer buffer_size ⟨false, false, false⟩ 0 env

/-- The second half of `port_write_etc`, entered with the copied payload
`msg_store`: the critical section "attach copied message to queue" and the
release of `read_sem`. -/
def port_write_attach (s : port_state) (slot : Nat) (msg_code : Int)
    (msg_store : Option cbuf) (buffer_size : Nat) : Option (port_state × retval) :=
  let p := s.ports slot
  let h := p.head
  if h < 0 then none else
  if h ≥ p.capacity then none else
  if p.msg_queue.length ≤ h.toNat then none else
  let p1 : port_entry :=
    { p with
      msg_queue := p.msg_queue.set h.toNat
        { msg_code := msg_code, data_cbuf := msg_store, data_len := buffer_size }
      head := Int.tmod (wrap32 (p.head + 1)) p.capacity
      total_count := wrap32 (p.total_count + 1) }
  -- store sem_id in local variable
  let cached_semid := p1.read_sem
  -- release sem, allowing read (might reschedule)
  some ({ s with ports := Function.update s.ports slot p1,
                 sems := sem_release s.sems cached_semid 1 }, NO_ERROR)

/-- Model of `port_write_etc(id, msg_code, msg_buffer, buffer_size, flags, timeout)`.
`msg` is the `buffer_size` bytes at `msg_buffer`. -/
def port_write_etc (s : port_state) (id : Int) (msg_code : Int) (msg : List Nat)
    (flags : port_flags) (timeout : Int) (env : write_env) :
    Option (port_state × retval) :=
  let buffer_size := msg.length
  if s.ports_active = false then some (s, retval.err errcode.ERR_PORT_NOT_ACTIVE) else
  if id < 0 then some (s, retval.err errcode.ERR_INVALID_HANDLE) else
  let slot := slot_of id
  -- check buffer_size
  if buffer_size > PORT_MAX_MESSAGE_SIZE then some (s, retval.err errcode.ERR_INVALID_ARGS) else
  if (s.ports slot).id ≠ id then some (s, retval.err errcode.ERR_INVALID_HANDLE) else
  if (s.ports slot).closed then some (s, retval.err errcode.ERR_PORT_CLOSED) else
  -- store sem_id in local variable
  let cached_semid := (s.ports slot).write_sem
  -- get 1 entry from the queue, block if needed
  let acq := sem_acquire_etc s.sems cached_semid env.wait
  let s1 : port_state := { s with sems := acq.1 }
  let res := acq.2
  if res = retval.err errcode.ERR_SEM_DELETED then
    some (s1, retval.err errcode.ERR_PORT_DELETED)
  else if res = retval.err errcode.ERR_SEM_TIMED_OUT then
    some (s1, retval.err errcode.ERR_PORT_TIMED_OUT)
  else if res ≠ NO_ERROR then
    some (s1, res)
  else
  if buffer_size > 0 ∧ env.chain_mem = false then
    some (s1, retval.err errcode.ERR_NO_MEMORY)
  else if buffer_size > 0 ∧ env.copy.neg then
    some (s1, env.copy)
  else
  let msg_store : Option cbuf := if buffer_size > 0 then some msg else none
  -- attach copied message to queue
  port_write_attach s1 slot msg_code msg_store buffer_size

def port_write (s : port_state) (id : Int) (msg_code : Int) (msg : List Nat)
    (env : write_env) : Option (port_state × retval) :=
  port_write_etc s id msg_code msg ⟨false, false, false⟩ 0 env

/-- The second half of `port_buffer_size_etc`, run after the acquire: read
the length of the cell at `head` and release `read_sem`. -/
def port_buffer_size_peek (s : port_state) (slot : Nat) : Option (port_state × retval) :=
  let p := s.ports slot
  -- determine tail
  -- read data's head length
  let t := p.head
  if t < 0 then none else
  if t > p.capacity then none else
  match p.msg_queue.get? t.toNat with
  | none => none
  | some m =>
    let len : Int := wrap32 m.data_len
    -- restore readsem
    some ({ s with sems := sem_release s.sems p.read_sem 1 }, retval.val len)

/-- Model of `port_buffer_size_etc(id, flags, timeout)`; `wait` is the error that ends
a wait on the semaphore. -/
def port_buffer_size_etc (s : port_state) (id : Int) (flags : port_flags)
    (timeout : Int) (wait : errcode) : Option (port_state × retval) :=
  if s.ports_active = false then some (s, retval.err errcode.ERR_PORT_NOT_ACTIVE) else
  if id < 0 then some (s, retval.err errcode.ERR_INVALID_HANDLE) else
  let slot := slot_of id
  if (s.ports slot).id ≠ id then some (s, retval.err errcode.ERR_INVALID_HANDLE) else
  -- block if no message, if TIMEOUT flag set, block with timeout
  let acq := sem_acquire_etc s.sems (s.ports slot).read_sem wait
  let s1 : port_state := { s with sems := acq.1 }
  let res := acq.2
  if res = retval.err errcode.ERR_SEM_DELETED then
    -- somebody deleted the port
    some (s1, retval.err errcode.ERR_PORT_DELETED)
  else if res = retval.err errcode.ERR_SEM_TIMED_OUT then
    some (s1, retval.err errcode.ERR_PORT_TIMED_OUT)
  else
  -- once message arrived, read data's length
  port_buffer_size_peek s1 slot

def port_buffer_size (s : port_state) (id : Int) (wait : errcode) :
    Option (port_state × retval) :=
  port_buffer_size_etc s id ⟨false, false, false⟩ 0 wait

/-! ## Ownership -/

/-- The loop `for(i=0; i<MAX_PORTS; i++)` of `port_delete_owned_ports`, entered
at `i` with `fuel` iterations left and `count` ports deleted so far. -/
def port_delete_owned_loop (owner : Int) : Nat → Nat → port_state → Int → port_state × Int
  | 0, _, s, count => (s, count)
  | fuel + 1, i, s, count =>
    if (s.ports i).id ≠ -1 ∧ (s.ports i).owner = owner then
      let id := (s.ports i).id
      port_delete_owned_loop owner fuel (i + 1) (port_delete s id).1 (count + 1)
    else port_delete_owned_loop owner fuel (i + 1) s count

/-- this function cycles through the ports table, deleting all the ports that
are owned by the passed proc_id -/
def port_delete_owned_ports (s : port_state) (owner : Int) : port_state × retval :=
  if s.ports_active = false then (s, retval.err errcode.ERR_PORT_NOT_ACTIVE) else
  let r := port_delete_owned_loop owner MAX_PORTS 0 s 0
  (r.1, retval.val r.2)

/-! ## Interrupts and spin locks -/

/-- The interrupt and spin-lock calls of `port.c`. -/
inductive lock_event where
  | int_disable_interrupts
  | int_restore_interrupts
  | GRAB_PORT_LIST_LOCK
  | RELEASE_PORT_LIST_LOCK
  | GRAB_PORT_LOCK (slot : Nat)
  | RELEASE_PORT_LOCK (slot : Nat)
  deriving DecidableEq

/-- The interrupt and spin-lock calls `port_buffer_size_etc(id, flags, timeout)`
makes, in program order, on the path it takes from the state `s`; `wait` is
the error that ends a wait on the semaphore.  A path that stops in `panic`
ends with the lock still held. -/
def port_buffer_size_etc_locks (s : port_state) (id : Int) (wait : errcode) :
    List lock_event :=
  if s.ports_active = false then [] else
  if id < 0 then [] else
  let slot := slot_of id
  if (s.ports slot).id ≠ id then
    [lock_event.int_disable_interrupts, lock_event.GRAB_PORT_LOCK slot,
     lock_event.RELEASE_PORT_LOCK slot, lock_event.int_restore_interrupts]
  else
  let res := (sem_acquire_etc s.sems (s.ports slot).read_sem wait).2
  [lock_event.int_disable_interrupts, lock_event.GRAB_PORT_LOCK slot,
   lock_event.RELEASE_PORT_LOCK slot, lock_event.int_restore_interrupts] ++
  (if res = retval.err errcode.ERR_SEM_DELETED then
    [lock_event.GRAB_PORT_LOCK slot, lock_event.RELEASE_PORT_LOCK slot]
  else if res = retval.err errcode.ERR_SEM_TIMED_OUT then
    [lock_event.GRAB_PORT_LOCK slot, lock_event.RELEASE_PORT_LOCK slot]
  else
    let t := (s.ports slot).head
    if t < 0 ∨ t > (s.ports slot).capacity then [lock_event.GRAB_PORT_LOCK slot]
    else [lock_event.GRAB_PORT_LOCK slot, lock_event.RELEASE_PORT_LOCK slot])

/-- The calls the locking rules of `port.c` speak about: the interrupt and
spin-lock calls, `sem_acquire_etc`, the allocations `kmalloc` and `cbuf_get_chain`,
and `cbuf_memcpy`, which stands for any of the copies between a cbuf chain and
the caller's buffer (`cbuf_memcpy_to_chain`, `cbuf_user_memcpy_to_chain`,
`cbuf_memcpy_from_chain`, `cbuf_user_memcpy_from_chain`). -/
inductive port_event where
  | lock (e : lock_event)
  | sem_acquire_etc
  | kmalloc
  | cbuf_get_chain
  | cbuf_memcpy
  deriving DecidableEq

/-- The call `int_disable_interrupts()`. -/
abbrev ev_int_disable : port_event := port_event.lock lock_event.int_disable_interrupts

/-- The call `int_restore_interrupts()`. -/
abbrev ev_int_restore : port_event := port_event.lock lock_event.int_restore_interrupts

/-- The call `GRAB_PORT_LIST_LOCK()`. -/
abbrev ev_grab_list : port_event := port_event.lock lock_event.GRAB_PORT_LIST_LOCK

/-- The call `RELEASE_PORT_LIST_LOCK()`. -/
abbrev ev_release_list : port_event := port_event.lock lock_event.RELEASE_PORT_LIST_LOCK

/-- The call `GRAB_PORT_LOCK(ports[slot])`. -/
abbrev ev_grab (slot : Nat) : port_event := port_event.lock (lock_event.GRAB_PORT_LOCK slot)

/-- The call `RELEASE_PORT_LOCK(ports[slot])`. -/
abbrev ev_release (slot : Nat) : port_event :=
  port_event.lock (lock_event.RELEASE_PORT_LOCK slot)

/-- The events of the slot search of `port_create`, entered at `i` with `fuel`
iterations left, up to the return of the call. -/
def port_create_loop_events (s : port_state) : Nat → Nat → List port_event
  | 0, _ => [ev_release_list, ev_int_restore]
  | fuel + 1, i =>
    if (s.ports i).id = -1 then
      [ev_grab i, ev_release_list, ev_release i, ev_int_restore]
    else port_create_loop_events s fuel (i + 1)

/-- The events of `port_create(queue_length, name)`, in program order, on the path
the call takes from the state `s` in the environment `env`. -/
def port_create_events (s : port_state) (queue_length : Int) (env : create_env) :
    List port_event :=
  if s.ports_active = false then [] else
  if env.name_mem = false then [port_event.kmalloc] else
  -- check queue length
  if queue_length < 1 ∨ queue_length > MAX_QUEUE_LENGTH then [port_event.kmalloc] else
  -- alloc a queue
  match env.queue_mem with
  | none => [port_event.kmalloc, port_event.kmalloc]
  | some _ =>
    match sem_create_etc s.sems 0 env.sem_r_fail with
    | (_, retval.err _) => [port_event.kmalloc, port_event.kmalloc]
    | (sems1, retval.val sem_r) =>
      if sem_r < 0 then [port_event.kmalloc, port_event.kmalloc] else
      match sem_create_etc sems1 queue_length env.sem_w_fail with
      | (_, retval.err _) => [port_event.kmalloc, port_event.kmalloc]
      | (_, retval.val sem_w) =>
        if sem_w < 0 then [port_event.kmalloc, port_event.kmalloc] else
        [port_event.kmalloc, port_event.kmalloc, ev_int_disable, ev_grab_list] ++
          port_create_loop_events s MAX_PORTS 0

/-- The events of `port_close(id)`. -/
def port_close_events (s : port_state) (id : Int) : List port_event :=
  if s.ports_active = false then [] else
  if id < 0 then [] else
  [ev_int_disable, ev_grab (slot_of id), ev_release (slot_of id), ev_int_restore]

/-- The events of `port_delete(id)`; the chains, the queue, the name and the
semaphores are freed after the slot lock has been released. -/
def port_delete_events (s : port_state) (id : Int) : List port_event :=
  if s.ports_active = false then [] else
  if id < 0 then [] else
  [ev_int_disable, ev_grab (slot_of id), ev_release (slot_of id), ev_int_restore]

/-- The events of the loop of `port_find`, entered at `i` with `fuel` iterations
left, up to the return of the call.  A `strcmp` on the `NULL` name of a slot
ends the sequence. -/
def port_find_loop_events (s : port_state) (port_name : List Char) :
    Nat → Nat → List port_event
  | 0, _ => [ev_release_list, ev_int_restore]
  | fuel + 1, i =>
    ev_grab i ::
      (if (s.ports i).id ≥ 0 then
        match (s.ports i).name with
        | none => []
        | some name =>
          if strcmp port_name name = 0 then [ev_release i, ev_release_list, ev_int_restore]
          else ev_release i :: port_find_loop_events s port_name fuel (i + 1)
      else ev_release i :: port_find_loop_events s port_name fuel (i + 1))

/-- The events of `port_find(port_name)`. -/
def port_find_events (s : port_state) (port_name : Option (List Char)) : List port_event :=
  if s.ports_active = false then [] else
  match port_name with
  | none => []
  | some name =>
    -- lock list of ports
    [ev_int_disable, ev_grab_list] ++ port_find_loop_events s name MAX_PORTS 0

/-- The events of `port_get_info(id, info)`. -/
def port_get_info_events (s : port_state) (id : Int) (info : Option port_info) :
    List port_event :=
  if s.ports_active = false then [] else
  if info = none then [] else
  if id < 0 then [] else
  [ev_int_disable, ev_grab (slot_of id), ev_release (slot_of id), ev_int_restore]

/-- The events of the loop of `port_get_next_port_info`, entered at `slot` with
`fuel = MAX_PORTS - slot` iterations left, up to the return of the call. -/
def port_get_next_loop_events (s : port_state) (proc : Int) : Nat → Nat → List port_event
  | 0, _ => [ev_release_list, ev_int_restore]
  | fuel + 1, slot =>
    ev_grab slot :: ev_release slot ::
      (if (s.ports slot).id ≠ -1 ∧ (s.ports slot).owner = proc then
        [ev_release_list, ev_int_restore]
      else port_get_next_loop_events s proc fuel (slot + 1))

/-- The events of `port_get_next_port_info(proc, cookie, info)`.  A store through
the `NULL` `info`, or an access to `ports[slot]` with a negative `slot`, ends
the sequence. -/
def port_get_next_port_info_events (s : port_state) (proc : Int) (cookie : Option Nat)
    (info : Option port_info) : List port_event :=
  if s.ports_active = false then [] else
  match cookie with
  | none => []
  | some c =>
    let slot : Int := if c = 0 then 0 else wrap32 c
    if c ≠ 0 ∧ slot ≥ MAX_PORTS then [] else
    -- spinlock
    [ev_int_disable, ev_grab_list] ++
      (match info with
      | none => []
      | some _ =>
        if slot < 0 then [] else
        port_get_next_loop_events s proc (MAX_PORTS - slot.toNat) slot.toNat)

/-- The events of `port_buffer_size_etc(id, flags, timeout)`; `wait` is the error
that ends a wait on the semaphore.  A `panic` ends the sequence. -/
def port_buffer_size_etc_events (s : port_state) (id : Int) (wait : errcode) :
    List port_event :=
  if s.ports_active = false then [] else
  if id < 0 then [] else
  let slot := slot_of id
  if (s.ports slot).id ≠ id then
    [ev_int_disable, ev_grab slot, ev_release slot, ev_int_restore]
  else
  let res := (sem_acquire_etc s.sems (s.ports slot).read_sem wait).2
  [ev_int_disable, ev_grab slot, ev_release slot, ev_int_restore,
   port_event.sem_acquire_etc] ++
  (if res = retval.err errcode.ERR_SEM_DELETED then [ev_grab slot, ev_release slot]
  else if res = retval.err errcode.ERR_SEM_TIMED_OUT then [ev_grab slot, ev_release slot]
  else
    let t := (s.ports slot).head
    if t < 0 ∨ t > (s.ports slot).capacity then [ev_grab slot]
    else [ev_grab slot, ev_release slot])

/-- The events of `port_count(id)`. -/
def port_count_events (s : port_state) (id : Int) : List port_event :=
  if s.ports_active = false then [] else
  if id < 0 then [] else
  [ev_int_disable, ev_grab (slot_of id), ev_release (slot_of id), ev_int_restore]

/-- The events of `port_read_etc(id, msg_code, msg_buffer, buffer_size, flags,
timeout)`.  A `panic`, or a read of a cell outside the queue, ends the
sequence. -/
def port_read_etc_events (s : port_state) (id : Int) (msg_code : Option Int)
    (msg_buffer : Option (List Nat)) (buffer_size : Nat) (timeout : Int) (env : read_env) :
    List port_event :=
  if s.ports_active = false then [] else
  if id < 0 then [] else
  if msg_code = none then [] else
  if msg_buffer = none ∧ buffer_size > 0 then [] else
  if timeout < 0 then [] else
  let slot := slot_of id
  if (s.ports slot).id ≠ id then
    [ev_int_disable, ev_grab slot, ev_release slot, ev_int_restore]
  else
  let res := (sem_acquire_etc s.sems (s.ports slot).read_sem env.wait).2
  [ev_int_disable, ev_grab slot, ev_release slot, ev_int_restore,
   port_event.sem_acquire_etc] ++
  (if res ≠ NO_ERROR then [] else
    let p := s.ports slot
    let t := p.tail
    [ev_int_disable, ev_grab slot] ++
    (if t < 0 ∨ t > p.capacity then [] else
      match p.msg_queue.get? t.toNat with
      | none => []
      | some m =>
        [ev_release slot, ev_int_restore] ++
        -- copy message
        (if min buffer_size m.data_len > 0 then [port_event.cbuf_memcpy] else [])))

/-- The events of `port_set_owner(id, proc)`. -/
def port_set_owner_events (s : port_state) (id : Int) : List port_event :=
  if s.ports_active = false then [] else
  if id < 0 then [] else
  [ev_int_disable, ev_grab (slot_of id), ev_release (slot_of id), ev_int_restore]

/-- The events of `port_write_etc(id, msg_code, msg_buffer, buffer_size, flags,
timeout)`, where `msg` is the `buffer_size` bytes at `msg_buffer`.  A `panic`
ends the sequence. -/
def port_write_etc_events (s : port_state) (id : Int) (msg : List Nat) (env : write_env) :
    List port_event :=
  let buffer_size := msg.length
  if s.ports_active = false then [] else
  if id < 0 then [] else
  let slot := slot_of id
  -- check buffer_size
  if buffer_size > PORT_MAX_MESSAGE_SIZE then [] else
  if (s.ports slot).id ≠ id then
    [ev_int_disable, ev_grab slot, ev_release slot, ev_int_restore]
  else if (s.ports slot).closed then
    [ev_int_disable, ev_grab slot, ev_release slot, ev_int_restore]
  else
  let res := (sem_acquire_etc s.sems (s.ports slot).write_sem env.wait).2
  -- attach copied message to queue
  let attach : List port_event :=
    [ev_int_disable, ev_grab slot] ++
    (if (s.ports slot).head < 0 ∨ (s.ports slot).head ≥ (s.ports slot).capacity then []
     else [ev_release slot, ev_int_restore])
  [ev_int_disable, ev_grab slot, ev_release slot, ev_int_restore,
   port_event.sem_acquire_etc] ++
  (if res ≠ NO_ERROR then [] else
    if buffer_size > 0 then
      if env.chain_mem = false then [port_event.cbuf_get_chain]
      else if env.copy.neg then [port_event.cbuf_get_chain, port_event.cbuf_memcpy]
      else [port_event.cbuf_get_chain, port_event.cbuf_memcpy] ++ attach
    else attach)

/-- The events of the loop of `port_delete_owned_ports`, entered at `i` with
`fuel` iterations left, up to the return of the call. -/
def port_delete_owned_loop_events (owner : Int) : Nat → Nat → port_state → List port_event
  | 0, _, _ => [ev_release_list, ev_int_restore]
  | fuel + 1, i, s =>
    if (s.ports i).id ≠ -1 ∧ (s.ports i).owner = owner then
      let id := (s.ports i).id
      [ev_release_list, ev_int_restore] ++ port_delete_events s id ++
        [ev_int_disable, ev_grab_list] ++
        port_delete_owned_loop_events owner fuel (i + 1) (port_delete s id).1
    else port_delete_owned_loop_events owner fuel (i + 1) s

/-- The events of `port_delete_owned_ports(owner)`. -/
def port_delete_owned_ports_events (s : port_state) (owner : Int) : List port_event :=
  if s.ports_active = false then [] else
  [ev_int_disable, ev_grab_list] ++ port_delete_owned_loop_events owner MAX_PORTS 0 s

/-! ## Sequences of port calls -/

/-- One call of the state-changing kernel interface with its arguments and the
answers of its environment. -/
inductive port_op where
  | create (queue_length : Int) (name : Option (List Char)) (env : create_env)
  | close (id : Int)
  | delete (id : Int)
  | set_owner (id : Int) (proc : Int)
  | read (id : Int) (msg_code : Option Int) (msg_buffer : Option (List Nat))
      (buffer_size : Nat) (flags : port_flags) (timeout : Int) (env : read_env)
  | write (id : Int) (msg_code : Int) (msg : List Nat) (flags : port_flags)
      (timeout : Int) (env : write_env)
  | buffer_size (id : Int) (flags : port_flags) (timeout : Int) (wait : errcode)
  | delete_owned_ports (owner : Int)

/-- Run one call: the state it leaves and the word it returns. -/
def port_step (SYS_MAX_OS_NAME_LEN : Nat) (s : port_state) : port_op → Option (port_state × retval)
  | port_op.create queue_length name env =>
    some (port_create SYS_MAX_OS_NAME_LEN s queue_length name env)
  | port_op.close id => some (port_close s id)
  | port_op.delete id => some (port_delete s id)
  | port_op.set_owner id proc => some (port_set_owner s id proc)
  | port_op.read id msg_code msg_buffer buffer_size flags timeout env =>
    (port_read_etc s id msg_code msg_buffer buffer_size flags timeout env).map
      (fun r => (r.state, r.ret))
  | port_op.write id msg_code msg flags timeout env =>
    port_write_etc s id msg_code msg flags timeout env
  | port_op.buffer_size id flags timeout wait => port_buffer_size_etc s id flags timeout wait
  | port_op.delete_owned_ports owner => some (port_delete_owned_ports s owner)

/-- Run a sequence of calls one after the other: the final state and the words
returned, in order; `none` as soon as one call has no result. -/
def port_run (SYS_MAX_OS_NAME_LEN : Nat) : port_state → List port_op → Option (port_state × List retval)
  | s, [] => some (s, [])
  | s, op :: ops =>
    match port_step SYS_MAX_OS_NAME_LEN s op with
    | none => none
    | some (s1, r) =>
      match port_run SYS_MAX_OS_NAME_LEN s1 ops with
      | none => none
      | some (s2, rs) => some (s2, r :: rs)

/-! ## Vocabulary of the statements and proofs

Post-states, invariants and runs used to state and prove the properties. -/

/-- The id `port_create` mints for slot `i` when the counter is `next_port`. -/
def fresh_id (next_port : Int) (i : Nat) : Int :=
  if (i : Int) ≥ Int.tmod next_port MAX_PORTS then
    wrap32 (next_port + ((i : Int) - Int.tmod next_port MAX_PORTS))
  else
    wrap32 (next_port + (MAX_PORTS - (Int.tmod next_port MAX_PORTS - (i : Int))))

/-- How a semaphore table may differ after a failed `port_create`: handles
below the old `next_sem` and from the new `next_sem` on are untouched. -/
def sem_grow (t t1 : sem_table) : Prop :=
  t.next_sem ≤ t1.next_sem ∧
    ∀ h, (h < t.next_sem ∨ t1.next_sem ≤ h) → t1.count h = t.count h

/-- The two semaphores of a successful `port_create`. -/
def sems_created (t : sem_table) (queue_length : Int) : sem_table :=
  { count := Function.update (Function.update t.count t.next_sem (some 0))
      (t.next_sem + 1) (some queue_length),
    next_sem := t.next_sem + 1 + 1 }

/-- What every call other than a successful `port_create` preserves: the
counter, the active flag, and in every slot the id (unless the slot is
freed) and a set `closed` flag. -/
def port_frame (s s1 : port_state) : Prop :=
  s1.next_port = s.next_port ∧ s1.ports_active = s.ports_active ∧
    ∀ i, ((s1.ports i).id = (s.ports i).id ∨ (s1.ports i).id = -1) ∧
      ((s.ports i).closed = true → (s1.ports i).closed = true)

/-- The table after a token of semaphore `id` holding `c` tokens is taken. -/
def sem_taken (t : sem_table) (id : Int) (c : Int) : sem_table :=
  { t with count := Function.update t.count id (some (c - 1)) }

/-- The entry of a port after the cell `m` at `tail` has been dequeued. -/
def dequeued (p : port_entry) (m : port_msg) : port_entry :=
  { p with
    tail := Int.tmod (wrap32 (p.tail + 1)) p.capacity
    msg_queue := p.msg_queue.set p.tail.toNat { m with data_cbuf := none } }

/-- The entry of a port after a message has been attached at `head`. -/
def enqueued (p : port_entry) (msg_code : Int) (msg_store : Option cbuf) (buffer_size : Nat) :
    port_entry :=
  { p with
    msg_queue := p.msg_queue.set p.head.toNat
      { msg_code := msg_code, data_cbuf := msg_store, data_len := buffer_size }
    head := Int.tmod (wrap32 (p.head + 1)) p.capacity
    total_count := wrap32 (p.total_count + 1) }

/-- The id of a successful `port_create`, if the call is one. -/
def created_id : port_op → retval → Option Int
  | port_op.create _ _ _, retval.val n => if 0 ≤ n then some n else none
  | _, _ => none

/-- The ids handed out by the successful `port_create` calls of a run, in the
order of the calls. -/
def created_ids : List port_op → List retval → List Int
  | op :: ops, r :: rs => (created_id op r).toList ++ created_ids ops rs
  | _, _ => []

/-- The counter `next_port` does not wrap around during the run: it never
decreases from one call to the next. -/
def port_run_no_wrap (SYS_MAX_OS_NAME_LEN : Nat) : port_state → List port_op → Bool
  | _, [] => true
  | s, op :: ops =>
    match port_step SYS_MAX_OS_NAME_LEN s op with
    | none => true
    | some (s1, _) =>
      decide (s.next_port ≤ s1.next_port) && port_run_no_wrap SYS_MAX_OS_NAME_LEN s1 ops

/-- The invariant of the id allocator: the counter is non-negative, and every
slot is free or holds a non-negative id below the counter that is congruent
to the slot index. -/
def id_inv (s : port_state) : Prop :=
  0 ≤ s.next_port ∧
    ∀ i, i < MAX_PORTS →
      (s.ports i).id = -1 ∨
        (0 ≤ (s.ports i).id ∧ (s.ports i).id % (MAX_PORTS : Int) = (i : Int) ∧
          (s.ports i).id < s.next_port)

/-- No slot of the table holds `id`. -/
def stale (s : port_state) (id : Int) : Prop :=
  ∀ i, i < MAX_PORTS → (s.ports i).id ≠ id

/-- The state in which slot `k` has its `closed` flag set. -/
def with_closed (s : port_state) (k : Nat) : port_state :=
  { s with ports := Function.update s.ports k { s.ports k with closed := true } }

/-- The queue cell `port_write_etc` stores for a message. -/
def msg_cell (msg_code : Int) (msg : List Nat) : port_msg :=
  { msg_code := msg_code, data_cbuf := if msg.length > 0 then some msg else none,
    data_len := msg.length }

/-- The ring of slot `k` holds exactly the messages `pend`, oldest first:
the cells from `tail` on carry them, `head` lies `pend.length` cells after
`tail`, and `read_sem` counts them. -/
def ring_holds (s : port_state) (k : Nat) (pend : List (Int × List Nat)) : Prop :=
  (s.ports k).capacity ≤ MAX_QUEUE_LENGTH ∧
  0 ≤ (s.ports k).tail ∧ (s.ports k).tail < (s.ports k).capacity ∧
  (s.ports k).head = ((s.ports k).tail + pend.length) % (s.ports k).capacity ∧
  (s.ports k).read_sem ≠ (s.ports k).write_sem ∧
  s.sems.count (s.ports k).read_sem = some (pend.length : Int) ∧
  (pend.length : Int) ≤ (s.ports k).capacity ∧
  ∀ (j : Nat) (x : Int × List Nat), pend.get? j = some x →
    (s.ports k).msg_queue.get? (((s.ports k).tail + j) % (s.ports k).capacity).toNat
      = some (msg_cell x.1 x.2)

/-- The arguments of one `port_write` call and the answers of its environment. -/
structure write_call where
  msg_code : Int
  msg : List Nat
  env : write_env

/-- The arguments of one `port_read` call: what `*msg_code` and the receive
buffer hold before the call, the buffer size, and the answers of the
environment. -/
structure read_call where
  msg_code : Int
  msg_buffer : List Nat
  buffer_size : Nat
  env : read_env

/-- Issue the writes one after the other on port `id`; `none` unless every
one of them returns `NO_ERROR`. -/
def port_write_all (s : port_state) (id : Int) : List write_call → Option port_state
  | [] => some s
  | w :: ws =>
    match port_write s id w.msg_code w.msg w.env with
    | some (s1, r) => if r = NO_ERROR then port_write_all s1 id ws else none
    | none => none

/-- Issue the reads one after the other on port `id` and collect, for each,
the returned word and the content of `*msg_code` and of the buffer after the
call. -/
def port_read_all (s : port_state) (id : Int) :
    List read_call → Option (port_state × List (retval × Option Int × Option (List Nat)))
  | [] => some (s, [])
  | c :: cs =>
    match port_read s id (some c.msg_code) (some c.msg_buffer) c.buffer_size c.env with
    | none => none
    | some r =>
      match port_read_all r.state id cs with
      | none => none
      | some (s2, ds) => some (s2, (r.ret, r.msg_code, r.msg_buffer) :: ds)

/-- What the read `c` must deliver for the message written by `w`: the
number of bytes copied, the code, and the buffer with the prefix of the
payload at its start. -/
def delivered (w : write_call) (c : read_call) : retval × Option Int × Option (List Nat) :=
  (retval.val (min c.buffer_size w.msg.length : Nat), some w.msg_code,
   some (w.msg.take (min c.buffer_size w.msg.length) ++
     c.msg_buffer.drop (min c.buffer_size w.msg.length)))

/-- The semaphore table is well formed: handles from `next_sem` on are not in
use. -/
def sems_fresh (t : sem_table) : Prop :=
  0 ≤ t.next_sem ∧ ∀ h, t.next_sem ≤ h → t.count h = none

/-- The entry of a live port is consistent with the semaphore table: its two
semaphores are distinct and exist, the ring indices are in range, the queue
has `capacity` cells, the counts add up to the capacity and `read_sem` counts
the occupied cells between `tail` and `head`. -/
def entry_ok (t : sem_table) (p : port_entry) : Prop :=
  p.read_sem < t.next_sem ∧ p.write_sem < t.next_sem ∧ p.read_sem ≠ p.write_sem ∧
  1 ≤ p.capacity ∧ p.capacity ≤ MAX_QUEUE_LENGTH ∧
  p.msg_queue.length = p.capacity.toNat ∧
  0 ≤ p.head ∧ p.head < p.capacity ∧ 0 ≤ p.tail ∧ p.tail < p.capacity ∧
  ∃ r w, t.count p.read_sem = some r ∧ t.count p.write_sem = some w ∧ 0 ≤ r ∧ 0 ≤ w ∧
    r + w = p.capacity ∧ (p.head - p.tail) % p.capacity = r % p.capacity

/-- The conservation invariant of the table: the semaphore table is well
formed, every live slot is consistent with it, and no semaphore is shared
between two live slots. -/
def cons_inv (s : port_state) : Prop :=
  sems_fresh s.sems ∧
  (∀ i, i < MAX_PORTS → (s.ports i).id ≠ -1 → entry_ok s.sems (s.ports i)) ∧
  (∀ i j, i < MAX_PORTS → j < MAX_PORTS → i ≠ j →
    (s.ports i).id ≠ -1 → (s.ports j).id ≠ -1 →
    (s.ports i).read_sem ≠ (s.ports j).read_sem ∧
    (s.ports i).read_sem ≠ (s.ports j).write_sem ∧
    (s.ports i).write_sem ≠ (s.ports j).read_sem ∧
    (s.ports i).write_sem ≠ (s.ports j).write_sem)

/-- The call has conserved the tokens: a write that did not return
`NO_ERROR` has left the count of `write_sem` as it was (it has not kept a
token), and a buffer-size peek has left the count of `read_sem` as it was
(it has given back exactly what it took). -/
def step_conserving (s : port_state) (op : port_op) (s1 : port_state) (r : retval) : Bool :=
  match op with
  | port_op.write id _ _ _ _ _ =>
    decide (r = NO_ERROR) ||
      decide (s1.sems.count (s.ports (slot_of id)).write_sem
        = s.sems.count (s.ports (slot_of id)).write_sem)
  | port_op.buffer_size id _ _ _ =>
    decide (s1.sems.count (s.ports (slot_of id)).read_sem
      = s.sems.count (s.ports (slot_of id)).read_sem)
  | _ => true

/-- Every call of the run has conserved the tokens. -/
def port_run_conserving (SYS_MAX_OS_NAME_LEN : Nat) : port_state → List port_op → Bool
  | _, [] => true
  | s, op :: ops =>
    match port_step SYS_MAX_OS_NAME_LEN s op with
    | none => true
    | some (s1, r) =>
      step_conserving s op s1 r && port_run_conserving SYS_MAX_OS_NAME_LEN s1 ops

/-- The discipline "interrupts are disabled for the whole of every spin-lock
hold" on a sequence of calls, scanned with the interrupt flag `off` (true
when interrupts are disabled) and the number `held` of spin locks held: a
lock is only taken while interrupts are disabled, and interrupts are only
restored while no lock is held. -/
def locks_disciplined : Bool → Nat → List lock_event → Bool
  | _, _, [] => true
  | _, held, lock_event.int_disable_interrupts :: es => locks_disciplined true held es
  | _, held, lock_event.int_restore_interrupts :: es =>
    decide (held = 0) && locks_disciplined false held es
  | off, held, lock_event.GRAB_PORT_LIST_LOCK :: es =>
    off && locks_disciplined off (held + 1) es
  | off, held, lock_event.GRAB_PORT_LOCK _ :: es =>
    off && locks_disciplined off (held + 1) es
  | off, held, lock_event.RELEASE_PORT_LIST_LOCK :: es => locks_disciplined off (held - 1) es
  | off, held, lock_event.RELEASE_PORT_LOCK _ :: es => locks_disciplined off (held - 1) es

/-- Slot `i` holds a port of `owner`: the test of the loop of
`port_delete_owned_ports`. -/
def owned_by (s : port_state) (owner : Int) (i : Nat) : Bool :=
  decide ((s.ports i).id ≠ -1 ∧ (s.ports i).owner = owner)

/-- The entry of a slot after `port_delete` has freed it. -/
def freed (p : port_entry) : port_entry := { p with id := -1, name := none }

/-- The ring of a port entry is well formed: the capacity is within
`1..MAX_QUEUE_LENGTH`, the queue has `capacity` cells, and `head` and `tail`
index cells of the queue. -/
def ring_ok (p : port_entry) : Prop :=
  1 ≤ p.capacity ∧ p.capacity ≤ MAX_QUEUE_LENGTH ∧ p.msg_queue.length = p.capacity.toNat ∧
  0 ≤ p.head ∧ p.head < p.capacity ∧ 0 ≤ p.tail ∧ p.tail < p.capacity

/-- The ring invariant of the table: the ring of every live slot is well
formed. -/
def ring_inv (s : port_state) : Prop :=
  ∀ i, i < MAX_PORTS → (s.ports i).id ≠ -1 → ring_ok (s.ports i)

/-- The property `P` holds of the entry of every live slot. -/
def slot_inv (P : port_entry → Prop) (s : port_state) : Prop :=
  ∀ i, i < MAX_PORTS → (s.ports i).id ≠ -1 → P (s.ports i)

/-- The property `P` of port entries survives every change the port calls make
to a live entry, and holds of the entry `port_create` installs. -/
def entry_stable (P : port_entry → Prop) : Prop :=
  (∀ p, P p → P { p with closed := true }) ∧
  (∀ p proc, P p → P { p with owner := proc }) ∧
  (∀ p m, P p → P (dequeued p m)) ∧
  (∀ p msg_code msg_store buffer_size, P p → P (enqueued p msg_code msg_store buffer_size)) ∧
  (∀ (p : port_entry) (id ql : Int) (tn : List Char) (sr sw : Int) (mem : Nat → port_msg)
      (ow : Int), 1 ≤ ql → ql ≤ MAX_QUEUE_LENGTH →
    P { p with
        id := id
        capacity := ql
        name := some tn
        read_sem := sr
        write_sem := sw
        msg_queue := (List.range ql.toNat).map mem
        head := 0
        tail := 0
        total_count := 0
        owner := ow })

/-- Every live slot of the table has a name. -/
def names_inv (s : port_state) : Prop :=
  ∀ i, i < MAX_PORTS → (s.ports i).id ≠ -1 → (s.ports i).name ≠ none

/-- The string a character buffer holds when it is read as a NUL-terminated
string: the characters before the first NUL; `none` when the buffer holds no
NUL and the read runs past its end. -/
def cstring (buf : List Char) : Option (List Char) :=
  if Char.ofNat 0 ∈ buf then some (buf.takeWhile (fun c => c ≠ Char.ofNat 0)) else none

/-- Scan a sequence of events with the numbers of port-list locks and of
port-slot locks held: the numbers at the end, or `none` when the sequence
breaks a rule of the lock protocol: a `sem_acquire_etc`, an allocation or a
cbuf copy is made while a spin lock is held, or the port-list lock is taken
while a port-slot lock is held. -/
def held_after : List port_event → Nat × Nat → Option (Nat × Nat)
  | [], st => some st
  | port_event.lock lock_event.int_disable_interrupts :: es, st => held_after es st
  | port_event.lock lock_event.int_restore_interrupts :: es, st => held_after es st
  | port_event.lock lock_event.GRAB_PORT_LIST_LOCK :: es, (l, p) =>
    if p = 0 then held_after es (l + 1, p) else none
  | port_event.lock lock_event.RELEASE_PORT_LIST_LOCK :: es, (l, p) => held_after es (l - 1, p)
  | port_event.lock (lock_event.GRAB_PORT_LOCK _) :: es, (l, p) => held_after es (l, p + 1)
  | port_event.lock (lock_event.RELEASE_PORT_LOCK _) :: es, (l, p) => held_after es (l, p - 1)
  | _ :: es, (l, p) => if l = 0 ∧ p = 0 then held_after es (l, p) else none

/-- The rule "release before block" on a sequence of events that starts with
no lock held. -/
def release_before_block (es : List port_event) : Bool := (held_after es (0, 0)).isSome

/-- The interrupt and spin-lock calls among a sequence of events. -/
def lock_events (es : List port_event) : List lock_event :=
  es.filterMap (fun e => match e with
    | port_event.lock l => some l
    | _ => none)

/-! ## Scenario states

Concrete states and calls of the test scenario of `port_test`, used to evaluate
the model. -/

/-- An environment in which every allocation of `port_create` succeeds; the
fresh queue memory holds zeroes and the caller is process 7. -/
def env_ok : create_env :=
  { name_mem := true, queue_mem := some (fun _ => ⟨0, none, 0⟩),
    sem_r_fail := none, sem_w_fail := none, owner := 7 }

/-- An environment in which the allocation and the copy of `port_write_etc`
succeed and a wait on the semaphore times out. -/
def wenv_ok : write_env :=
  { wait := errcode.ERR_SEM_TIMED_OUT, chain_mem := true, copy := NO_ERROR }

/-- An environment of `port_read_etc` in which a wait on the semaphore times
out. -/
def renv_ok : read_env := { wait := errcode.ERR_SEM_TIMED_OUT, copy := NO_ERROR }

/-- The table right after `port_init`. -/
def st_init : port_state := port_init (port_statics sem_empty)

/-- The byte string `testdata` of `port_test`. -/
def testdata : List Nat := [97, 98, 99, 100, 0]

/-- After `port_create(1, "test port #1")`: port 0 in slot 0. -/
def st_p1 : port_state := (port_create 32 st_init 1 (some "test port #1".toList) env_ok).1

/-- After `port_write(test_p1, 1, &testdata, sizeof(testdata))`: port 0 is full. -/
def st_p1_full : port_state := ((port_write st_p1 0 1 testdata wenv_ok).map Prod.fst).getD st_p1

/-- After `port_close(test_p1)` on the fresh port. -/
def st_p1_closed : port_state := (port_close st_p1 0).1

/-- After `port_delete(test_p1)` on the closed port. -/
def st_p1_deleted : port_state := (port_delete st_p1_closed 0).1

/-- After a second `port_create`, which reuses slot 0 for port 4096. -/
def st_p1_again : port_state :=
  (port_create 32 st_p1_deleted 1 (some "test port #2".toList) env_ok).1

/-- The calls of the scenario: two creates, close and delete of the first
port, and a create that reuses its slot. -/
def ops_reuse : List port_op :=
  [port_op.create 1 (some "test port #1".toList) env_ok,
   port_op.create 10 (some "test port #2".toList) env_ok,
   port_op.close 0,
   port_op.delete 0,
   port_op.create 1 (some "test port #3".toList) env_ok]

/-- The state the calls `ops_reuse` lead to from `st_init`. -/
def st_reuse : port_state :=
  (port_create 32
    (port_delete
      (port_close
        (port_create 32
          (port_create 32 st_init 1 (some "test port #1".toList) env_ok).1
          10 (some "test port #2".toList) env_ok).1
        0).1
      0).1
    1 (some "test port #3".toList) env_ok).1

/-- The first four calls of `ops_reuse`, after which port 0 is gone. -/
def ops_reuse_a : List port_op :=
  [port_op.create 1 (some "test port #1".toList) env_ok,
   port_op.create 10 (some "test port #2".toList) env_ok,
   port_op.close 0,
   port_op.delete 0]

/-- The last call of `ops_reuse`. -/
def ops_reuse_b : List port_op :=
  [port_op.create 1 (some "test port #3".toList) env_ok]

/-- The state the calls `ops_reuse_a` lead to from `st_init`. -/
def st_reuse_a : port_state :=
  (port_delete
    (port_close
      (port_create 32
        (port_create 32 st_init 1 (some "test port #1".toList) env_ok).1
        10 (some "test port #2".toList) env_ok).1
      0).1
    0).1

/-- After `port_create(10, "test port #2")` on the fresh table: port 0 with
ten cells. -/
def st_p2 : port_state := (port_create 32 st_init 10 (some "test port #2".toList) env_ok).1

/-- Three writes with codes 1, 2, 3 as in `port_test`. -/
def three_writes : List write_call :=
  [⟨1, testdata, wenv_ok⟩, ⟨2, [], wenv_ok⟩, ⟨3, testdata, wenv_ok⟩]

/-- Three reads with buffer sizes 3, 4, 5 as in `port_test_thread_func`. -/
def three_reads : List read_call :=
  [⟨0, [7, 7, 7, 7, 7, 7], 3, renv_ok⟩, ⟨0, [7, 7, 7, 7, 7, 7], 4, renv_ok⟩,
   ⟨0, [7, 7, 7, 7, 7, 7], 5, renv_ok⟩]

/-- The table after the three writes on port 0 of `st_p2`. -/
def st_p2_written : port_state := (port_write_all st_p2 0 three_writes).getD st_p2

/-- An environment in which `cbuf_get_chain` fails. -/
def wenv_no_mem : write_env :=
  { wait := errcode.ERR_SEM_TIMED_OUT, chain_mem := false, copy := NO_ERROR }

/-- The table after a write to the fresh port 0 that fails in
`cbuf_get_chain`. -/
def st_p1_no_mem : port_state :=
  ((port_write st_p1 0 1 testdata wenv_no_mem).map Prod.fst).getD st_p1

/-- The calls of `port_test` on its first port: create it with one cell, fill
it, peek at the length, read the message back, write again and close. -/
def ops_p1 : List port_op :=
  [port_op.create 1 (some "test port #1".toList) env_ok,
   port_op.write 0 1 testdata ⟨false, false, false⟩ 0 wenv_ok,
   port_op.write 0 1 testdata ⟨false, false, true⟩ 1000000 wenv_ok,
   port_op.buffer_size 0 ⟨false, false, false⟩ 0 errcode.ERR_SEM_TIMED_OUT,
   port_op.read 0 (some 0) (some [0, 0, 0]) 3 ⟨false, false, false⟩ 0 renv_ok,
   port_op.write 0 2 testdata ⟨false, false, false⟩ 0 wenv_ok,
   port_op.close 0]

/-- The state the calls `ops_p1` lead to from `st_init`. -/
def st_ops_p1 : port_state := ((port_run 32 st_init ops_p1).map Prod.fst).getD st_init

/-- The calls that leave one message queued behind a consumed one: a port
with two cells is created, a message of 5 bytes and one of 3 bytes are
written, and the first is read. -/
def ops_peek : List port_op :=
  [port_op.create 2 (some "test port #2".toList) env_ok,
   port_op.write 0 1 testdata ⟨false, false, false⟩ 0 wenv_ok,
   port_op.write 0 2 [120, 121, 0] ⟨false, false, false⟩ 0 wenv_ok,
   port_op.read 0 (some 0) (some [0, 0, 0, 0, 0, 0]) 6 ⟨false, false, false⟩ 0 renv_ok]

/-- The state the calls `ops_peek` lead to from `st_init`. -/
def st_peek : port_state := ((port_run 32 st_init ops_peek).map Prod.fst).getD st_init

/-- The fresh port 0 of `st_p1` with one reader parked on its empty queue: the
count of `read_sem` is -1. -/
def st_p1_parked : port_state :=
  { st_p1 with
    sems := { st_p1.sems with
      count := Function.update st_p1.sems.count (st_p1.ports 0).read_sem (some (-1)) } }

/-- The full table: the state after 4096 calls `port_create(1, NULL)` by process
7 on the fresh table, in which slot `i` holds port `i`. -/
def st_full : port_state :=
  { ports := fun i =>
      if i < MAX_PORTS then
        { id := i, owner := 7, capacity := 1, name := some "unnamed port".toList,
          read_sem := 2 * i, write_sem := 2 * i + 1, head := 0, tail := 0,
          total_count := 0, closed := false, msg_queue := [⟨0, none, 0⟩] }
      else free_entry
    ports_active := true
    next_port := 4096
    sems :=
      { count := fun h =>
          if 0 ≤ h ∧ h < 8192 then some (if h % 2 = 0 then 0 else 1) else none
        next_sem := 8192 } }

/-- An environment of `port_create` in which `kmalloc` of the name fails. -/
def env_no_name : create_env := { env_ok with name_mem := false }

/-- An environment of `port_create` in which `kmalloc` of the queue fails. -/
def env_no_queue : create_env := { env_ok with queue_mem := none }

/-- The empty table after 524288 rounds of `port_create` and `port_delete` in
slot 0: the last id handed out is 2147479552. -/
def st_last_round : port_state := { st_init with next_port := 2147479553 }

/-- A name of 40 characters, longer than the name bound 32 of the scenario. -/
def long_name : List Char := "a port name that is longer than 32 bytes".toList

/-- After `port_create(1, long_name)` on the fresh table: port 0 in slot 0. -/
def st_long : port_state := (port_create 32 st_init 1 (some long_name) env_ok).1

/-- The calls of the owner-reaping scenario: process 7 creates the ports A, B
and C, and B is handed over to process 9. -/
def ops_abc : List port_op :=
  [port_op.create 1 (some "A".toList) env_ok,
   port_op.create 1 (some "B".toList) env_ok,
   port_op.create 1 (some "C".toList) env_ok,
   port_op.set_owner 1 9]

/-- The state the calls `ops_abc` lead to from `st_init`: ports 0, 1, 2 in the
slots 0, 1, 2. -/
def st_abc : port_state := ((port_run 32 st_init ops_abc).map Prod.fst).getD st_init

/-- The table after `k` calls `port_create(1, NULL)` by process 7 on the fresh
table: the slots below `k` hold the ports `0 .. k - 1`. -/
def st_filled (k : Nat) : port_state :=
  { ports := fun i =>
      if i < k then
        { id := i, owner := 7, capacity := 1, name := some "unnamed port".toList,
          read_sem := 2 * i, write_sem := 2 * i + 1, head := 0, tail := 0,
          total_count := 0, closed := false, msg_queue := [⟨0, none, 0⟩] }
      else free_entry
    ports_active := true
    next_port := k
    sems :=
      { count := fun h =>
          if 0 ≤ h ∧ h < 2 * k then some (if h % 2 = 0 then 0 else 1) else none
        next_sem := 2 * k } }

/-- The calls that create a port with a long and one with a short name. -/
def ops_names : List port_op :=
  [port_op.create 1 (some "a longer port name".toList) env_ok,
   port_op.create 1 (some "short".toList) env_ok]

/-- The state the calls `ops_names` lead to from `st_init`: port 0 is named
"a longer port name", port 1 is named "short". -/
def st_names : port_state := ((port_run 32 st_init ops_names).map Prod.fst).getD st_init

/-- A `struct port_info` after `memset(&info, 0, sizeof(info))`. -/
def info_zero : port_info :=
  { id := 0, owner := 0, name := List.replicate 32 (Char.ofNat 0), capacity := 0,
    queue_count := 0, total_count := 0 }

/-- The content of `info_zero` after `port_get_info(0, &info)` on `st_names`. -/
def info_first : port_info :=
  ((port_get_info 32 st_names 0 (some info_zero)).2.2).getD info_zero

/-- An environment of `port_read_etc` in which the copy to the user buffer
faults. -/
def renv_fault : read_env :=
  { wait := errcode.ERR_SEM_TIMED_OUT, copy := retval.err errcode.ERR_VM_BAD_USER_MEMORY }

/-- The table after an interrupted `port_buffer_size_etc` on the empty port 0 of
`st_p1`. -/
def st_p1_peeked : port_state :=
  ((port_buffer_size_etc st_p1 0 ⟨false, true, false⟩ 0 errcode.ERR_INTERRUPTED).map
    Prod.fst).getD st_p1

/-- An environment of `user_port_get_next_port_info` in which both pointers are
user addresses and every `user_memcpy` succeeds; the local `info` holds
zeroes. -/
def uenv_ok : user_next_env :=
  { ucookie_kernel := false, uinfo_kernel := false, copy_in := NO_ERROR,
    copy_cookie := NO_ERROR, copy_info := NO_ERROR, info := info_zero }

/-! ## Basic lemmas -/

theorem sem_acquire_etc_err (t : sem_table) (id : Int) (w e : errcode)
    (h : (sem_acquire_etc t id w).2 = retval.err e) :
    sem_acquire_etc t id w = (t, retval.err e) := by
  unfold sem_acquire_etc at h ⊢
  cases hc : t.count id with
  | none => simp [hc] at h ⊢; exact h
  | some c =>
    simp only [hc] at h ⊢
    by_cases h1 : 1 ≤ c
    · simp [h1] at h
    · simp [h1] at h ⊢; exact h

theorem wrap32_eq_self (x : Int) (h1 : -2147483648 ≤ x) (h2 : x ≤ 2147483647) : wrap32 x = x := by
  unfold wrap32; omega

theorem wrap32_range (x : Int) : -2147483648 ≤ wrap32 x ∧ wrap32 x ≤ 2147483647 := by
  unfold wrap32; omega

theorem slot_of_lt (id : Int) (h : 0 ≤ id) : slot_of id < MAX_PORTS := by
  unfold slot_of
  rw [Int.tmod_eq_emod h (by decide)]
  have : id % (MAX_PORTS : Int) < MAX_PORTS := Int.emod_lt_of_pos _ (by decide)
  have h2 : 0 ≤ id % (MAX_PORTS : Int) := Int.emod_nonneg _ (by decide)
  simp only [MAX_PORTS] at *
  omega

theorem slot_of_cast (id : Int) (h : 0 ≤ id) : ((slot_of id : Nat) : Int) = id % 4096 := by
  unfold slot_of
  rw [Int.tmod_eq_emod h (by decide)]
  have h2 : 0 ≤ id % (MAX_PORTS : Int) := Int.emod_nonneg _ (by decide)
  simp only [MAX_PORTS] at *
  omega

theorem fresh_id_spec (np : Int) (i : Nat) (h0 : 0 ≤ np) (hi : i < MAX_PORTS)
    (hnw : np ≤ wrap32 (fresh_id np i + 1)) :
    np ≤ fresh_id np i ∧ fresh_id np i % 4096 = i ∧
      wrap32 (fresh_id np i + 1) = fresh_id np i + 1 := by
  unfold fresh_id at *
  rw [Int.tmod_eq_emod h0 (by decide)] at *
  simp only [MAX_PORTS] at *
  unfold wrap32 at *
  push_cast at *
  split_ifs at * <;> omega

theorem port_create_at_eq (s : port_state) (i : Nat) (queue_length : Int)
    (temp_name : List Char) (sem_r sem_w : Int) (q : List port_msg) (owner : Int) :
    port_create_at s i queue_length temp_name sem_r sem_w q owner =
      ({ s with
          ports := Function.update s.ports i
            { s.ports i with
              id := fresh_id s.next_port i
              capacity := queue_length
              name := some temp_name
              read_sem := sem_r
              write_sem := sem_w
              msg_queue := q
              head := 0
              tail := 0
              total_count := 0
              owner := owner }
          next_port := wrap32 (fresh_id s.next_port i + 1) },
       retval.val (fresh_id s.next_port i)) := rfl

theorem port_create_loop_some (s : port_state) (ql : Int) (tn : List Char) (sr sw : Int)
    (q : List port_msg) (ow : Int) (fuel i0 : Nat) (r : port_state × retval)
    (h : port_create_loop s ql tn sr sw q ow fuel i0 = some r) :
    ∃ i, i0 ≤ i ∧ i < i0 + fuel ∧ (s.ports i).id = -1 ∧
      (∀ j, i0 ≤ j → j < i → (s.ports j).id ≠ -1) ∧
      r = port_create_at s i ql tn sr sw q ow := by
  induction fuel generalizing i0 with
  | zero => simp [port_create_loop] at h
  | succ n ih =>
    unfold port_create_loop at h
    by_cases hf : (s.ports i0).id = -1
    · simp only [hf, if_true, Option.some.injEq] at h
      exact ⟨i0, le_refl _, by omega, hf, fun j h1 h2 => by omega, h.symm⟩
    · simp only [hf, if_false] at h
      obtain ⟨i, h1, h2, h3, h4, h5⟩ := ih (i0 + 1) h
      refine ⟨i, by omega, by omega, h3, ?_, h5⟩
      intro j hj1 hj2
      by_cases hj : j = i0
      · subst hj; exact hf
      · exact h4 j (by omega) hj2

theorem port_create_loop_none (s : port_state) (ql : Int) (tn : List Char) (sr sw : Int)
    (q : List port_msg) (ow : Int) (fuel i0 : Nat)
    (h : port_create_loop s ql tn sr sw q ow fuel i0 = none) :
    ∀ j, i0 ≤ j → j < i0 + fuel → (s.ports j).id ≠ -1 := by
  induction fuel generalizing i0 with
  | zero => intro j h1 h2; omega
  | succ n ih =>
    unfold port_create_loop at h
    by_cases hf : (s.ports i0).id = -1
    · simp [hf] at h
    · simp only [hf, if_false] at h
      intro j hj1 hj2
      by_cases hj : j = i0
      · subst hj; exact hf
      · exact ih (i0 + 1) h j (by omega) (by omega)

theorem sem_grow_refl (t : sem_table) : sem_grow t t := ⟨le_refl _, fun _ _ => rfl⟩

theorem port_create_cases_name (N : Nat) (s : port_state) (ql : Int) (name : Option (List Char))
    (env : create_env) :
    (∃ sems1, (port_create N s ql name env).1 = { s with sems := sems1 } ∧
        sem_grow s.sems sems1 ∧
        ∀ n, (port_create N s ql name env).2 = retval.val n → n < 0) ∨
    (∃ i mem, i < MAX_PORTS ∧ (s.ports i).id = -1 ∧ (∀ j, j < i → (s.ports j).id ≠ -1) ∧
        s.ports_active = true ∧ 1 ≤ ql ∧ ql ≤ MAX_QUEUE_LENGTH ∧
        env.queue_mem = some mem ∧ 0 ≤ s.sems.next_sem ∧
        port_create N s ql name env =
          port_create_at { s with sems := sems_created s.sems ql } i ql
            (strlcpy (name.getD "unnamed port".toList)
              (min ((name.getD "unnamed port".toList).length + 1) N))
            s.sems.next_sem (s.sems.next_sem + 1) ((List.range ql.toNat).map mem) env.owner) := by
  unfold port_create
  by_cases hact : s.ports_active = false
  · left; rw [if_pos hact]; exact ⟨s.sems, rfl, sem_grow_refl _, by simp⟩
  rw [if_neg hact]
  by_cases hnm : env.name_mem = false
  · left; simp only [if_pos hnm]; exact ⟨s.sems, rfl, sem_grow_refl _, by simp⟩
  simp only [if_neg hnm]
  by_cases hql : ql < 1 ∨ ql > MAX_QUEUE_LENGTH
  · left; rw [if_pos hql]; exact ⟨s.sems, rfl, sem_grow_refl _, by simp⟩
  rw [if_neg hql]
  cases hq : env.queue_mem with
  | none => left; exact ⟨s.sems, rfl, sem_grow_refl _, by simp⟩
  | some mem =>
    simp only []
    cases hr : env.sem_r_fail with
    | some e => left; exact ⟨s.sems, rfl, sem_grow_refl _, by simp [sem_create_etc]⟩
    | none =>
      simp only [sem_create_etc]
      by_cases hn : s.sems.next_sem < 0
      · left
        rw [if_pos hn]
        refine ⟨_, rfl, ⟨by simp, ?_⟩, fun n h => by simp at h; omega⟩
        intro h hh
        simp only at hh ⊢
        rw [Function.update_noteq]
        rcases hh with hh | hh <;> omega
      · rw [if_neg hn]
        cases hw : env.sem_w_fail with
        | some e =>
          left
          refine ⟨_, rfl, ⟨by simp [sem_delete], ?_⟩, by simp⟩
          intro h hh
          simp only [sem_delete] at hh ⊢
          rw [Function.update_noteq (by rcases hh with hh | hh <;> omega),
            Function.update_noteq (by rcases hh with hh | hh <;> omega)]
        | none =>
          simp only []
          have hn2 : ¬ (s.sems.next_sem + 1 < 0) := by omega
          rw [if_neg hn2]
          split
          · rename_i r hl
            right
            obtain ⟨i, h1, h2, h3, h4, h5⟩ := port_create_loop_some _ _ _ _ _ _ _ _ _ _ hl
            refine ⟨i, mem, by omega, h3,
              fun j hj => h4 j (by omega) hj, ?_, ?_, ?_, rfl,
              by omega, ?_⟩
            · simpa using hact
            · omega
            · omega
            · rw [h5]; rfl
          · left
            refine ⟨_, rfl, ⟨by simp [sem_delete]; omega, ?_⟩, by simp⟩
            intro h hh
            simp only [sem_delete] at hh ⊢
            rw [Function.update_noteq (by rcases hh with hh | hh <;> omega),
              Function.update_noteq (by rcases hh with hh | hh <;> omega),
              Function.update_noteq (by rcases hh with hh | hh <;> omega),
              Function.update_noteq (by rcases hh with hh | hh <;> omega)]

theorem port_create_cases (N : Nat) (s : port_state) (ql : Int) (name : Option (List Char))
    (env : create_env) :
    (∃ sems1, (port_create N s ql name env).1 = { s with sems := sems1 } ∧
        sem_grow s.sems sems1 ∧
        ∀ n, (port_create N s ql name env).2 = retval.val n → n < 0) ∨
    (∃ i tn mem, i < MAX_PORTS ∧ (s.ports i).id = -1 ∧ (∀ j, j < i → (s.ports j).id ≠ -1) ∧
        s.ports_active = true ∧ 1 ≤ ql ∧ ql ≤ MAX_QUEUE_LENGTH ∧
        env.queue_mem = some mem ∧ 0 ≤ s.sems.next_sem ∧
        port_create N s ql name env =
          port_create_at { s with sems := sems_created s.sems ql } i ql tn
            s.sems.next_sem (s.sems.next_sem + 1) ((List.range ql.toNat).map mem) env.owner) := by
  rcases port_create_cases_name N s ql name env with h | ⟨i, mem, h⟩
  · exact Or.inl h
  · exact Or.inr ⟨i, _, mem, h⟩

theorem port_frame_refl (s : port_state) : port_frame s s :=
  ⟨rfl, rfl, fun _ => ⟨Or.inl rfl, fun h => h⟩⟩

theorem port_frame_trans {s s1 s2 : port_state} (h1 : port_frame s s1) (h2 : port_frame s1 s2) :
    port_frame s s2 := by
  refine ⟨h2.1.trans h1.1, h2.2.1.trans h1.2.1, fun i => ⟨?_, fun h => (h2.2.2 i).2 ((h1.2.2 i).2 h)⟩⟩
  rcases (h2.2.2 i).1 with h | h
  · rw [h]; exact (h1.2.2 i).1
  · exact Or.inr h

theorem port_frame_sems (s : port_state) (t : sem_table) : port_frame s { s with sems := t } :=
  ⟨rfl, rfl, fun _ => ⟨Or.inl rfl, fun h => h⟩⟩

/-- Replacing one slot by an entry with the same id (or the free id) that
keeps a set `closed` flag stays within the frame. -/
theorem port_frame_update (s : port_state) (t : sem_table) (k : Nat) (e : port_entry)
    (hid : e.id = (s.ports k).id ∨ e.id = -1)
    (hcl : (s.ports k).closed = true → e.closed = true) :
    port_frame s { s with ports := Function.update s.ports k e, sems := t } := by
  refine ⟨rfl, rfl, fun i => ?_⟩
  by_cases hi : i = k
  · subst hi; simp only [Function.update_same]; exact ⟨hid, hcl⟩
  · simp only [Function.update_noteq hi]; exact ⟨Or.inl trivial, fun h => h⟩

theorem port_close_frame (s : port_state) (id : Int) : port_frame s (port_close s id).1 := by
  unfold port_close
  dsimp only
  split_ifs
  · exact port_frame_refl s
  · exact port_frame_refl s
  · exact port_frame_refl s
  · exact port_frame_update s s.sems _ _ (Or.inl rfl) (fun _ => rfl)

theorem port_set_owner_frame (s : port_state) (id proc : Int) :
    port_frame s (port_set_owner s id proc).1 := by
  unfold port_set_owner
  dsimp only
  split_ifs
  · exact port_frame_refl s
  · exact port_frame_refl s
  · exact port_frame_refl s
  · exact port_frame_update s s.sems _ _ (Or.inl rfl) (fun h => h)

theorem port_delete_frame (s : port_state) (id : Int) : port_frame s (port_delete s id).1 := by
  unfold port_delete
  dsimp only
  split_ifs
  · exact port_frame_refl s
  · exact port_frame_refl s
  · exact port_frame_refl s
  · exact port_frame_update s _ _ _ (Or.inr rfl) (fun h => h)

theorem port_delete_owned_loop_frame (owner : Int) (fuel i : Nat) (s : port_state) (count : Int) :
    port_frame s (port_delete_owned_loop owner fuel i s count).1 := by
  induction fuel generalizing i s count with
  | zero => exact port_frame_refl s
  | succ n ih =>
    unfold port_delete_owned_loop
    split_ifs
    · exact port_frame_trans (port_delete_frame s _) (ih _ _ _)
    · exact ih _ _ _

theorem port_delete_owned_ports_frame (s : port_state) (owner : Int) :
    port_frame s (port_delete_owned_ports s owner).1 := by
  unfold port_delete_owned_ports
  split_ifs
  · exact port_frame_refl s
  · exact port_delete_owned_loop_frame _ _ _ _ _

theorem sem_acquire_etc_cases (t : sem_table) (id : Int) (w : errcode) :
    (∃ c, t.count id = some c ∧ 1 ≤ c ∧ sem_acquire_etc t id w = (sem_taken t id c, NO_ERROR)) ∨
    (∃ e, (∀ c, t.count id = some c → c < 1) ∧ sem_acquire_etc t id w = (t, retval.err e)) := by
  unfold sem_acquire_etc
  cases hc : t.count id with
  | none => right; exact ⟨_, by simp, rfl⟩
  | some c =>
    by_cases h1 : 1 ≤ c
    · left; exact ⟨c, rfl, h1, by simp [h1, sem_taken]⟩
    · right; exact ⟨w, by simp; omega, by simp [h1]⟩

theorem port_read_dequeue_cases (s : port_state) (slot : Nat)
    (msg_buffer : Option (List Nat)) (buffer_size : Nat) (flags : port_flags)
    (env : read_env) (r : read_result)
    (h : port_read_dequeue s slot msg_buffer buffer_size flags env = some r) :
    ∃ m, 0 ≤ (s.ports slot).tail ∧ (s.ports slot).tail ≤ (s.ports slot).capacity ∧
      (s.ports slot).msg_queue.get? (s.ports slot).tail.toNat = some m ∧
      r.state = { s with ports := Function.update s.ports slot (dequeued (s.ports slot) m),
                         sems := sem_release s.sems (s.ports slot).write_sem 1 } ∧
      r.msg_code = some m.msg_code ∧
      ((r.ret = retval.val 1 ∧ r.msg_buffer = msg_buffer ∧ 0 < min buffer_size m.data_len ∧
          flags.use_user_memcpy = true ∧ env.copy.neg = true) ∨
       (r.ret = retval.val (min buffer_size m.data_len : Nat) ∧
          ((min buffer_size m.data_len = 0 ∧ r.msg_buffer = msg_buffer) ∨
           (∃ chain, 0 < min buffer_size m.data_len ∧ m.data_cbuf = some chain ∧
              r.msg_buffer = some (memcpy_from_chain (msg_buffer.getD []) chain
                (min buffer_size m.data_len)))))) := by
  unfold port_read_dequeue at h
  dsimp only at h
  by_cases h1 : (s.ports slot).tail < 0
  · rw [if_pos h1] at h; cases h
  rw [if_neg h1] at h
  by_cases h2 : (s.ports slot).tail > (s.ports slot).capacity
  · rw [if_pos h2] at h; cases h
  rw [if_neg h2] at h
  cases hm : (s.ports slot).msg_queue.get? (s.ports slot).tail.toNat with
  | none => rw [hm] at h; cases h
  | some m =>
    rw [hm] at h
    dsimp only at h
    refine ⟨m, by omega, by omega, rfl, ?_⟩
    by_cases h3 : min buffer_size m.data_len > 0
    · rw [if_pos h3] at h
      by_cases h4 : flags.use_user_memcpy = true
      · rw [if_pos h4] at h
        by_cases h5 : env.copy.neg = true
        · simp only [h5, if_true] at h
          rw [if_pos (by decide)] at h
          cases h
          exact ⟨rfl, rfl, Or.inl ⟨rfl, rfl, h3, h4, h5⟩⟩
        · simp only [h5] at h
          rw [if_neg (by decide)] at h
          cases hc : m.data_cbuf with
          | none => rw [hc] at h; cases h
          | some chain =>
            rw [hc] at h
            cases h
            exact ⟨rfl, rfl, Or.inr ⟨rfl, Or.inr ⟨chain, h3, rfl, rfl⟩⟩⟩
      · rw [if_neg h4] at h
        cases hc : m.data_cbuf with
        | none => rw [hc] at h; cases h
        | some chain =>
          rw [hc] at h
          cases h
          exact ⟨rfl, rfl, Or.inr ⟨rfl, Or.inr ⟨chain, h3, rfl, rfl⟩⟩⟩
    · rw [if_neg h3] at h
      cases h
      exact ⟨rfl, rfl, Or.inr ⟨rfl, Or.inl ⟨by omega, rfl⟩⟩⟩

theorem port_read_etc_cases (s : port_state) (id : Int) (msg_code : Option Int)
    (msg_buffer : Option (List Nat)) (buffer_size : Nat) (flags : port_flags)
    (timeout : Int) (env : read_env) (r : read_result)
    (h : port_read_etc s id msg_code msg_buffer buffer_size flags timeout env = some r) :
    (∃ e, r = ⟨s, retval.err e, msg_code, msg_buffer⟩) ∨
    (∃ c, s.ports_active = true ∧ 0 ≤ id ∧ (s.ports (slot_of id)).id = id ∧
      msg_code ≠ none ∧ (msg_buffer = none → buffer_size = 0) ∧ 0 ≤ timeout ∧
      s.sems.count (s.ports (slot_of id)).read_sem = some c ∧ 1 ≤ c ∧
      port_read_dequeue { s with sems := sem_taken s.sems (s.ports (slot_of id)).read_sem c }
        (slot_of id) msg_buffer buffer_size flags env = some r) := by
  unfold port_read_etc at h
  dsimp only at h
  by_cases h1 : s.ports_active = false
  · rw [if_pos h1] at h; cases h; exact Or.inl ⟨_, rfl⟩
  rw [if_neg h1] at h
  by_cases h2 : id < 0
  · rw [if_pos h2] at h; cases h; exact Or.inl ⟨_, rfl⟩
  rw [if_neg h2] at h
  by_cases h3 : msg_code = none
  · rw [if_pos h3] at h; cases h; exact Or.inl ⟨_, rfl⟩
  rw [if_neg h3] at h
  by_cases h4 : msg_buffer = none ∧ buffer_size > 0
  · rw [if_pos h4] at h; cases h; exact Or.inl ⟨_, rfl⟩
  rw [if_neg h4] at h
  by_cases h5 : timeout < 0
  · rw [if_pos h5] at h; cases h; exact Or.inl ⟨_, rfl⟩
  rw [if_neg h5] at h
  by_cases h6 : (s.ports (slot_of id)).id ≠ id
  · rw [if_pos h6] at h; cases h; exact Or.inl ⟨_, rfl⟩
  rw [if_neg h6] at h
  rcases sem_acquire_etc_cases s.sems (s.ports (slot_of id)).read_sem env.wait with
    ⟨c, hc, hc1, hacq⟩ | ⟨e, -, hacq⟩
  · rw [hacq] at h
    dsimp only at h
    rw [if_neg (by decide), if_neg (by decide), if_neg (by decide), if_neg (by decide)] at h
    refine Or.inr ⟨c, by simpa using h1, by omega, not_not.mp h6, h3, ?_, by omega, hc, hc1, h⟩
    intro hb
    by_contra hn
    exact h4 ⟨hb, Nat.pos_of_ne_zero hn⟩
  · rw [hacq] at h
    dsimp only at h
    left
    by_cases g1 : retval.err e = retval.err errcode.ERR_SEM_DELETED
    · rw [if_pos g1] at h; cases h; exact ⟨_, rfl⟩
    rw [if_neg g1] at h
    by_cases g2 : retval.err e = retval.err errcode.ERR_INTERRUPTED
    · rw [if_pos g2] at h; cases h; exact ⟨_, rfl⟩
    rw [if_neg g2] at h
    by_cases g3 : retval.err e = retval.err errcode.ERR_SEM_TIMED_OUT
    · rw [if_pos g3] at h; cases h; exact ⟨_, rfl⟩
    rw [if_neg g3, if_pos (by simp)] at h
    cases h; exact ⟨_, rfl⟩

theorem port_write_attach_cases (s : port_state) (slot : Nat) (msg_code : Int)
    (msg_store : Option cbuf) (buffer_size : Nat) (r : port_state × retval)
    (h : port_write_attach s slot msg_code msg_store buffer_size = some r) :
    0 ≤ (s.ports slot).head ∧ (s.ports slot).head < (s.ports slot).capacity ∧
      (s.ports slot).head.toNat < (s.ports slot).msg_queue.length ∧
      r = ({ s with
              ports := Function.update s.ports slot
                (enqueued (s.ports slot) msg_code msg_store buffer_size),
              sems := sem_release s.sems (s.ports slot).read_sem 1 }, NO_ERROR) := by
  unfold port_write_attach at h
  dsimp only at h
  by_cases h1 : (s.ports slot).head < 0
  · rw [if_pos h1] at h; cases h
  rw [if_neg h1] at h
  by_cases h2 : (s.ports slot).head ≥ (s.ports slot).capacity
  · rw [if_pos h2] at h; cases h
  rw [if_neg h2] at h
  by_cases h3 : (s.ports slot).msg_queue.length ≤ (s.ports slot).head.toNat
  · rw [if_pos h3] at h; cases h
  rw [if_neg h3] at h
  cases h
  exact ⟨by omega, by omega, by omega, rfl⟩

theorem port_write_etc_cases (s : port_state) (id : Int) (msg_code : Int) (msg : List Nat)
    (flags : port_flags) (timeout : Int) (env : write_env) (r : port_state × retval)
    (h : port_write_etc s id msg_code msg flags timeout env = some r) :
    (∃ e, r = (s, retval.err e)) ∨
    (∃ c, s.ports_active = true ∧ 0 ≤ id ∧ (s.ports (slot_of id)).id = id ∧
      msg.length ≤ PORT_MAX_MESSAGE_SIZE ∧ (s.ports (slot_of id)).closed = false ∧
      s.sems.count (s.ports (slot_of id)).write_sem = some c ∧ 1 ≤ c ∧
      ((0 < msg.length ∧ (env.chain_mem = false ∨ env.copy.neg = true) ∧ r.2 ≠ NO_ERROR ∧
          r.1 = { s with sems := sem_taken s.sems (s.ports (slot_of id)).write_sem c }) ∨
       ((msg.length = 0 ∨ (env.chain_mem = true ∧ env.copy.neg = false)) ∧
          port_write_attach { s with sems := sem_taken s.sems (s.ports (slot_of id)).write_sem c }
            (slot_of id) msg_code (if msg.length > 0 then some msg else none) msg.length
            = some r))) := by
  unfold port_write_etc at h
  dsimp only at h
  by_cases h1 : s.ports_active = false
  · rw [if_pos h1] at h; cases h; exact Or.inl ⟨_, rfl⟩
  rw [if_neg h1] at h
  by_cases h2 : id < 0
  · rw [if_pos h2] at h; cases h; exact Or.inl ⟨_, rfl⟩
  rw [if_neg h2] at h
  by_cases h3 : msg.length > PORT_MAX_MESSAGE_SIZE
  · rw [if_pos h3] at h; cases h; exact Or.inl ⟨_, rfl⟩
  rw [if_neg h3] at h
  by_cases h4 : (s.ports (slot_of id)).id ≠ id
  · rw [if_pos h4] at h; cases h; exact Or.inl ⟨_, rfl⟩
  rw [if_neg h4] at h
  by_cases h5 : (s.ports (slot_of id)).closed = true
  · rw [if_pos h5] at h; cases h; exact Or.inl ⟨_, rfl⟩
  rw [if_neg h5] at h
  rcases sem_acquire_etc_cases s.sems (s.ports (slot_of id)).write_sem env.wait with
    ⟨c, hc, hc1, hacq⟩ | ⟨e, -, hacq⟩
  · rw [hacq] at h
    dsimp only at h
    rw [if_neg (by decide), if_neg (by decide), if_neg (by decide)] at h
    refine Or.inr ⟨c, by simpa using h1, by omega, not_not.mp h4, by omega, by simpa using h5,
      hc, hc1, ?_⟩
    by_cases h6 : msg.length > 0 ∧ env.chain_mem = false
    · rw [if_pos h6] at h; cases h
      exact Or.inl ⟨h6.1, Or.inl h6.2, by simp, rfl⟩
    rw [if_neg h6] at h
    by_cases h7 : msg.length > 0 ∧ env.copy.neg = true
    · rw [if_pos h7] at h; cases h
      refine Or.inl ⟨h7.1, Or.inr h7.2, ?_, rfl⟩
      intro hne
      have := h7.2
      rw [show env.copy = NO_ERROR from hne] at this
      exact absurd this (by decide)
    rw [if_neg h7] at h
    refine Or.inr ⟨?_, h⟩
    by_cases h8 : msg.length = 0
    · exact Or.inl h8
    · right
      have h9 : msg.length > 0 := Nat.pos_of_ne_zero h8
      constructor
      · by_contra hc2; exact h6 ⟨h9, by simpa using hc2⟩
      · by_contra hc2; exact h7 ⟨h9, by simpa using hc2⟩
  · rw [hacq] at h
    dsimp only at h
    left
    by_cases g1 : retval.err e = retval.err errcode.ERR_SEM_DELETED
    · rw [if_pos g1] at h; cases h; exact ⟨_, rfl⟩
    rw [if_neg g1] at h
    by_cases g3 : retval.err e = retval.err errcode.ERR_SEM_TIMED_OUT
    · rw [if_pos g3] at h; cases h; exact ⟨_, rfl⟩
    rw [if_neg g3, if_pos (by simp)] at h
    cases h; exact ⟨_, rfl⟩

theorem port_buffer_size_peek_cases (s : port_state) (slot : Nat) (r : port_state × retval)
    (h : port_buffer_size_peek s slot = some r) :
    ∃ m, 0 ≤ (s.ports slot).head ∧ (s.ports slot).head ≤ (s.ports slot).capacity ∧
      (s.ports slot).msg_queue.get? (s.ports slot).head.toNat = some m ∧
      r = ({ s with sems := sem_release s.sems (s.ports slot).read_sem 1 },
           retval.val (wrap32 m.data_len)) := by
  unfold port_buffer_size_peek at h
  dsimp only at h
  by_cases h1 : (s.ports slot).head < 0
  · rw [if_pos h1] at h; cases h
  rw [if_neg h1] at h
  by_cases h2 : (s.ports slot).head > (s.ports slot).capacity
  · rw [if_pos h2] at h; cases h
  rw [if_neg h2] at h
  cases hm : (s.ports slot).msg_queue.get? (s.ports slot).head.toNat with
  | none => rw [hm] at h; cases h
  | some m =>
    rw [hm] at h
    dsimp only at h
    cases h
    exact ⟨m, by omega, by omega, rfl, rfl⟩

theorem port_buffer_size_etc_cases (s : port_state) (id : Int) (flags : port_flags)
    (timeout : Int) (wait : errcode) (r : port_state × retval)
    (h : port_buffer_size_etc s id flags timeout wait = some r) :
    (∃ e, r = (s, retval.err e)) ∨
    (s.ports_active = true ∧ 0 ≤ id ∧ (s.ports (slot_of id)).id = id ∧
      ((∃ c, s.sems.count (s.ports (slot_of id)).read_sem = some c ∧ 1 ≤ c ∧
          port_buffer_size_peek
            { s with sems := sem_taken s.sems (s.ports (slot_of id)).read_sem c } (slot_of id)
            = some r) ∨
       ((∀ c, s.sems.count (s.ports (slot_of id)).read_sem = some c → c < 1) ∧
          wait ≠ errcode.ERR_SEM_DELETED ∧ wait ≠ errcode.ERR_SEM_TIMED_OUT ∧
          port_buffer_size_peek s (slot_of id) = some r))) := by
  unfold port_buffer_size_etc at h
  dsimp only at h
  by_cases h1 : s.ports_active = false
  · rw [if_pos h1] at h; cases h; exact Or.inl ⟨_, rfl⟩
  rw [if_neg h1] at h
  by_cases h2 : id < 0
  · rw [if_pos h2] at h; cases h; exact Or.inl ⟨_, rfl⟩
  rw [if_neg h2] at h
  by_cases h4 : (s.ports (slot_of id)).id ≠ id
  · rw [if_pos h4] at h; cases h; exact Or.inl ⟨_, rfl⟩
  rw [if_neg h4] at h
  unfold sem_acquire_etc at h
  cases hc : s.sems.count (s.ports (slot_of id)).read_sem with
  | none =>
    rw [hc] at h
    dsimp only at h
    rw [if_pos rfl] at h
    cases h; exact Or.inl ⟨_, rfl⟩
  | some c =>
    rw [hc] at h
    dsimp only at h
    by_cases hc1 : 1 ≤ c
    · simp only [if_pos hc1] at h
      rw [if_neg (by decide), if_neg (by decide)] at h
      exact Or.inr ⟨by simpa using h1, by omega, not_not.mp h4, Or.inl ⟨c, rfl, hc1, h⟩⟩
    · simp only [if_neg hc1] at h
      by_cases g1 : retval.err wait = retval.err errcode.ERR_SEM_DELETED
      · rw [if_pos g1] at h; cases h; exact Or.inl ⟨_, rfl⟩
      rw [if_neg g1] at h
      by_cases g3 : retval.err wait = retval.err errcode.ERR_SEM_TIMED_OUT
      · rw [if_pos g3] at h; cases h; exact Or.inl ⟨_, rfl⟩
      rw [if_neg g3] at h
      refine Or.inr ⟨by simpa using h1, by omega, not_not.mp h4, Or.inr ⟨?_, ?_, ?_, h⟩⟩
      · intro c2 hc2; cases hc2; omega
      · intro hw; exact g1 (by rw [hw])
      · intro hw; exact g3 (by rw [hw])

theorem port_read_etc_frame (s : port_state) (id : Int) (msg_code : Option Int)
    (msg_buffer : Option (List Nat)) (buffer_size : Nat) (flags : port_flags)
    (timeout : Int) (env : read_env) (r : read_result)
    (h : port_read_etc s id msg_code msg_buffer buffer_size flags timeout env = some r) :
    port_frame s r.state := by
  rcases port_read_etc_cases _ _ _ _ _ _ _ _ _ h with ⟨e, rfl⟩ | ⟨c, -, -, -, -, -, -, -, -, hd⟩
  · exact port_frame_refl s
  · obtain ⟨m, -, -, -, hst, -⟩ := port_read_dequeue_cases _ _ _ _ _ _ _ hd
    rw [hst]
    exact port_frame_update s _ _ _ (Or.inl rfl) (fun h => h)

theorem port_write_etc_frame (s : port_state) (id : Int) (msg_code : Int) (msg : List Nat)
    (flags : port_flags) (timeout : Int) (env : write_env) (r : port_state × retval)
    (h : port_write_etc s id msg_code msg flags timeout env = some r) :
    port_frame s r.1 := by
  rcases port_write_etc_cases _ _ _ _ _ _ _ _ h with
    ⟨e, rfl⟩ | ⟨c, -, -, -, -, -, -, -, ⟨-, -, -, hst⟩ | ⟨-, ha⟩⟩
  · exact port_frame_refl s
  · rw [hst]; exact port_frame_sems s _
  · obtain ⟨-, -, -, rfl⟩ := port_write_attach_cases _ _ _ _ _ _ ha
    exact port_frame_update s _ _ _ (Or.inl rfl) (fun h => h)

theorem port_buffer_size_etc_frame (s : port_state) (id : Int) (flags : port_flags)
    (timeout : Int) (wait : errcode) (r : port_state × retval)
    (h : port_buffer_size_etc s id flags timeout wait = some r) :
    port_frame s r.1 := by
  rcases port_buffer_size_etc_cases _ _ _ _ _ _ h with
    ⟨e, rfl⟩ | ⟨-, -, -, ⟨c, -, -, hp⟩ | ⟨-, -, -, hp⟩⟩
  · exact port_frame_refl s
  · obtain ⟨m, -, -, -, rfl⟩ := port_buffer_size_peek_cases _ _ _ hp
    exact port_frame_sems s _
  · obtain ⟨m, -, -, -, rfl⟩ := port_buffer_size_peek_cases _ _ _ hp
    exact port_frame_sems s _

/-- One call either stays within the frame and creates no port, or is a
`port_create` that fills the lowest free slot `i` with the id minted from
the counter. -/
theorem port_step_cases (N : Nat) (s s1 : port_state) (op : port_op) (r : retval)
    (h : port_step N s op = some (s1, r)) :
    (port_frame s s1 ∧ created_id op r = none) ∨
    (∃ i, i < MAX_PORTS ∧ (s.ports i).id = -1 ∧
      r = retval.val (fresh_id s.next_port i) ∧
      (∃ ql nm env, op = port_op.create ql nm env) ∧
      s1.next_port = wrap32 (fresh_id s.next_port i + 1) ∧
      s1.ports_active = s.ports_active ∧
      (s1.ports i).id = fresh_id s.next_port i ∧
      ((s.ports i).closed = true → (s1.ports i).closed = true) ∧
      ∀ j, j ≠ i → s1.ports j = s.ports j) := by
  cases op with
  | create ql nm env =>
    simp only [port_step, Option.some.injEq] at h
    rcases port_create_cases N s ql nm env with ⟨sems1, h1, -, h3⟩ | ⟨i, tn, mem, hi, hfree, -, -, -, -, -, -, hc⟩
    · left
      rw [h] at h1 h3
      simp only at h1 h3
      rw [h1]
      refine ⟨port_frame_sems s _, ?_⟩
      cases r with
      | err e => rfl
      | val n =>
        have := h3 n rfl
        simp only [created_id]
        rw [if_neg (by omega)]
    · right
      rw [h, port_create_at_eq] at hc
      simp only [Prod.mk.injEq] at hc
      obtain ⟨hs, hr⟩ := hc
      refine ⟨i, hi, hfree, hr, ⟨ql, nm, env, rfl⟩, ?_, ?_, ?_, ?_, ?_⟩
      · rw [hs]
      · rw [hs]
      · rw [hs]; simp
      · rw [hs]; simp
      · intro j hj; rw [hs]; simp [Function.update_noteq hj]
  | close id =>
    simp only [port_step, Option.some.injEq] at h
    left; exact ⟨by have := port_close_frame s id; rw [h] at this; exact this, rfl⟩
  | delete id =>
    simp only [port_step, Option.some.injEq] at h
    left; exact ⟨by have := port_delete_frame s id; rw [h] at this; exact this, rfl⟩
  | set_owner id proc =>
    simp only [port_step, Option.some.injEq] at h
    left; exact ⟨by have := port_set_owner_frame s id proc; rw [h] at this; exact this, rfl⟩
  | read id mc mb bs fl tmo env =>
    simp only [port_step, Option.map_eq_some'] at h
    obtain ⟨rr, h1, h2⟩ := h
    left
    have := port_read_etc_frame _ _ _ _ _ _ _ _ _ h1
    simp only [Prod.mk.injEq] at h2
    rw [h2.1] at this
    exact ⟨this, rfl⟩
  | write id mc msg fl tmo env =>
    simp only [port_step] at h
    left; exact ⟨port_write_etc_frame _ _ _ _ _ _ _ _ h, rfl⟩
  | buffer_size id fl tmo w =>
    simp only [port_step] at h
    left; exact ⟨port_buffer_size_etc_frame _ _ _ _ _ _ h, rfl⟩
  | delete_owned_ports owner =>
    simp only [port_step, Option.some.injEq] at h
    left
    exact ⟨by have := port_delete_owned_ports_frame s owner; rw [h] at this; exact this, rfl⟩

theorem id_inv_init (sems : sem_table) : id_inv (port_init (port_statics sems)) :=
  ⟨le_refl _, fun _ _ => Or.inl rfl⟩

theorem port_step_id_inv (N : Nat) (s s1 : port_state) (op : port_op) (r : retval)
    (hinv : id_inv s) (h : port_step N s op = some (s1, r))
    (hnw : s.next_port ≤ s1.next_port) :
    id_inv s1 ∧
      (∀ id, created_id op r = some id → s.next_port ≤ id ∧ id < s1.next_port) ∧
      (∀ id, 0 ≤ id → id < s.next_port → stale s id → stale s1 id) := by
  rcases port_step_cases N s s1 op r h with
    ⟨⟨hnp, -, hf⟩, hcr⟩ | ⟨i, hi, hfree, hr, ⟨ql, nm, env, hop⟩, hnp, -, hid, -, hoth⟩
  · refine ⟨⟨by rw [hnp]; exact hinv.1, fun i hi => ?_⟩, ?_, ?_⟩
    · rcases (hf i).1 with h1 | h1
      · rw [h1, hnp]; exact hinv.2 i hi
      · exact Or.inl h1
    · intro id hid; rw [hcr] at hid; cases hid
    · intro id h0 _ hst i hi
      rcases (hf i).1 with h1 | h1
      · rw [h1]; exact hst i hi
      · rw [h1]; omega
  · rw [hnp] at hnw
    obtain ⟨f1, f2, f3⟩ := fresh_id_spec s.next_port i hinv.1 hi hnw
    have h0 : 0 ≤ s.next_port := hinv.1
    refine ⟨⟨by rw [hnp, f3]; omega, fun j hj => ?_⟩, ?_, ?_⟩
    · by_cases hji : j = i
      · subst hji
        right
        rw [hid, hnp, f3]
        refine ⟨by omega, ?_, by omega⟩
        simpa [MAX_PORTS] using f2
      · rw [hoth j hji, hnp, f3]
        rcases hinv.2 j hj with h1 | ⟨h1, h2, h3⟩
        · exact Or.inl h1
        · exact Or.inr ⟨h1, h2, by omega⟩
    · intro id hcid
      rw [hop, hr] at hcid
      simp only [created_id] at hcid
      split_ifs at hcid
      cases hcid
      rw [hnp, f3]
      exact ⟨f1, by omega⟩
    · intro id h0 hlt hst j hj
      by_cases hji : j = i
      · subst hji; rw [hid]; omega
      · rw [hoth j hji]; exact hst j hj

theorem port_run_length (N : Nat) (s s1 : port_state) (ops : List port_op) (rs : List retval)
    (h : port_run N s ops = some (s1, rs)) : rs.length = ops.length := by
  induction ops generalizing s rs with
  | nil => simp [port_run] at h; rw [h.2]; rfl
  | cons op ops ih =>
    unfold port_run at h
    cases hs : port_step N s op with
    | none => rw [hs] at h; cases h
    | some x =>
      obtain ⟨sa, ra⟩ := x
      rw [hs] at h
      dsimp only at h
      cases hr : port_run N sa ops with
      | none => rw [hr] at h; cases h
      | some y =>
        obtain ⟨sb, rb⟩ := y
        rw [hr] at h
        dsimp only at h
        cases h
        simp [ih sa rb hr]

theorem port_run_cons (N : Nat) (s s2 : port_state) (op : port_op) (ops : List port_op)
    (rs : List retval) (h : port_run N s (op :: ops) = some (s2, rs)) :
    ∃ s1 r rs1, port_step N s op = some (s1, r) ∧ port_run N s1 ops = some (s2, rs1) ∧
      rs = r :: rs1 := by
  unfold port_run at h
  cases hs : port_step N s op with
  | none => rw [hs] at h; cases h
  | some x =>
    obtain ⟨sa, ra⟩ := x
    rw [hs] at h
    dsimp only at h
    cases hr : port_run N sa ops with
    | none => rw [hr] at h; cases h
    | some y =>
      obtain ⟨sb, rb⟩ := y
      rw [hr] at h
      dsimp only at h
      cases h
      exact ⟨sa, ra, rb, rfl, hr, rfl⟩

theorem port_run_no_wrap_cons (N : Nat) (s s1 : port_state) (op : port_op) (ops : List port_op)
    (r : retval) (hs : port_step N s op = some (s1, r))
    (h : port_run_no_wrap N s (op :: ops) = true) :
    s.next_port ≤ s1.next_port ∧ port_run_no_wrap N s1 ops = true := by
  unfold port_run_no_wrap at h
  rw [hs] at h
  simpa using h

theorem port_run_append (N : Nat) (s s1 s2 : port_state) (ops1 ops2 : List port_op)
    (rs1 rs2 : List retval) (h1 : port_run N s ops1 = some (s1, rs1))
    (h2 : port_run N s1 ops2 = some (s2, rs2)) :
    port_run N s (ops1 ++ ops2) = some (s2, rs1 ++ rs2) := by
  induction ops1 generalizing s rs1 with
  | nil =>
    simp only [port_run, Option.some.injEq, Prod.mk.injEq] at h1
    obtain ⟨rfl, rfl⟩ := h1
    simpa using h2
  | cons op ops ih =>
    obtain ⟨sa, ra, rb, hs, hr, rfl⟩ := port_run_cons N s s1 op ops rs1 h1
    have := ih sa rb hr
    rw [List.cons_append]
    unfold port_run
    rw [hs]
    dsimp only
    rw [this]
    rfl

theorem port_run_no_wrap_append (N : Nat) (s s1 : port_state) (ops1 ops2 : List port_op)
    (rs1 : List retval) (h1 : port_run N s ops1 = some (s1, rs1))
    (h : port_run_no_wrap N s (ops1 ++ ops2) = true) :
    port_run_no_wrap N s ops1 = true ∧ port_run_no_wrap N s1 ops2 = true := by
  induction ops1 generalizing s rs1 with
  | nil =>
    simp only [port_run, Option.some.injEq, Prod.mk.injEq] at h1
    obtain ⟨rfl, rfl⟩ := h1
    exact ⟨rfl, by simpa using h⟩
  | cons op ops ih =>
    obtain ⟨sa, ra, rb, hs, hr, rfl⟩ := port_run_cons N s s1 op ops rs1 h1
    obtain ⟨g1, g2⟩ := port_run_no_wrap_cons N s sa op (ops ++ ops2) ra hs h
    obtain ⟨k1, k2⟩ := ih sa rb hr g2
    refine ⟨?_, k2⟩
    unfold port_run_no_wrap
    rw [hs]
    simp [g1, k1]

theorem created_ids_append (ops1 ops2 : List port_op) (rs1 rs2 : List retval)
    (h : rs1.length = ops1.length) :
    created_ids (ops1 ++ ops2) (rs1 ++ rs2) = created_ids ops1 rs1 ++ created_ids ops2 rs2 := by
  induction ops1 generalizing rs1 with
  | nil =>
    cases rs1 with
    | nil => simp [created_ids]
    | cons r rs => simp at h
  | cons op ops ih =>
    cases rs1 with
    | nil => simp at h
    | cons r rs =>
      simp only [List.length_cons, add_left_inj] at h
      simp [created_ids, ih rs h]

/-- Along a run without wrap-around the allocator invariant is kept, the
counter grows, the ids created lie between the old and the new counter and
come out in increasing order, and a stale id below the counter stays stale. -/
theorem port_run_id_inv (N : Nat) (s s1 : port_state) (ops : List port_op) (rs : List retval)
    (hinv : id_inv s) (h : port_run N s ops = some (s1, rs))
    (hnw : port_run_no_wrap N s ops = true) :
    id_inv s1 ∧ s.next_port ≤ s1.next_port ∧
      (∀ id ∈ created_ids ops rs, s.next_port ≤ id ∧ id < s1.next_port) ∧
      (created_ids ops rs).Pairwise (· < ·) ∧
      (∀ id, 0 ≤ id → id < s.next_port → stale s id → stale s1 id) := by
  induction ops generalizing s rs with
  | nil =>
    simp only [port_run, Option.some.injEq, Prod.mk.injEq] at h
    obtain ⟨rfl, rfl⟩ := h
    exact ⟨hinv, le_refl _, by simp [created_ids], by simp [created_ids], fun _ _ _ h => h⟩
  | cons op ops ih =>
    obtain ⟨sa, ra, rb, hs, hr, rfl⟩ := port_run_cons N s s1 op ops rs h
    obtain ⟨g1, g2⟩ := port_run_no_wrap_cons N s sa op ops ra hs hnw
    obtain ⟨i1, i2, i3⟩ := port_step_id_inv N s sa op ra hinv hs g1
    obtain ⟨j1, j2, j3, j4, j5⟩ := ih sa rb i1 hr g2
    refine ⟨j1, by omega, ?_, ?_, ?_⟩
    · intro id hid
      simp only [created_ids, List.mem_append, Option.mem_toList, Option.mem_def] at hid
      rcases hid with hid | hid
      · have := i2 id hid; omega
      · have := j3 id hid; omega
    · simp only [created_ids]
      rw [List.pairwise_append]
      refine ⟨?_, j4, ?_⟩
      · cases created_id op ra <;> simp
      · intro a ha b hb
        simp only [Option.mem_toList, Option.mem_def] at ha
        have := i2 a ha
        have := j3 b hb
        omega
    · intro id h0 hlt hst
      exact j5 id h0 (by omega) (i3 id h0 hlt hst)

theorem port_step_active_closed (N : Nat) (s s1 : port_state) (op : port_op) (r : retval)
    (h : port_step N s op = some (s1, r)) :
    s1.ports_active = s.ports_active ∧
      ∀ i, (s.ports i).closed = true → (s1.ports i).closed = true := by
  rcases port_step_cases N s s1 op r h with
    ⟨⟨-, hact, hf⟩, -⟩ | ⟨i, -, -, -, -, -, hact, -, hcl, hoth⟩
  · exact ⟨hact, fun i => (hf i).2⟩
  · refine ⟨hact, fun j hj => ?_⟩
    by_cases hji : j = i
    · subst hji; exact hcl hj
    · rw [hoth j hji]; exact hj

theorem port_run_active_closed (N : Nat) (s s1 : port_state) (ops : List port_op)
    (rs : List retval) (h : port_run N s ops = some (s1, rs)) :
    s1.ports_active = s.ports_active ∧
      ∀ i, (s.ports i).closed = true → (s1.ports i).closed = true := by
  induction ops generalizing s rs with
  | nil =>
    simp only [port_run, Option.some.injEq, Prod.mk.injEq] at h
    obtain ⟨rfl, rfl⟩ := h
    exact ⟨rfl, fun _ h => h⟩
  | cons op ops ih =>
    obtain ⟨sa, ra, rb, hs, hr, rfl⟩ := port_run_cons N s s1 op ops rs h
    obtain ⟨a1, a2⟩ := port_step_active_closed N s sa op ra hs
    obtain ⟨b1, b2⟩ := ih sa rb hr
    exact ⟨b1.trans a1, fun i hi => b2 i (a2 i hi)⟩

/-- What a successful `port_close`, `port_delete` or `port_set_owner` tells
about its argument. -/
theorem port_close_ok (s : port_state) (id : Int) (h : (port_close s id).2 = NO_ERROR) :
    s.ports_active = true ∧ 0 ≤ id ∧ (s.ports (slot_of id)).id = id ∧
      (port_close s id).1 =
        { s with
          ports := Function.update s.ports (slot_of id)
                     { s.ports (slot_of id) with closed := true } } := by
  unfold port_close at h ⊢
  dsimp only at h ⊢
  by_cases h1 : s.ports_active = false
  · rw [if_pos h1] at h; cases h
  rw [if_neg h1] at h ⊢
  by_cases h2 : id < 0
  · rw [if_pos h2] at h; cases h
  rw [if_neg h2] at h ⊢
  by_cases h3 : (s.ports (slot_of id)).id ≠ id
  · rw [if_pos h3] at h; cases h
  rw [if_neg h3]
  exact ⟨by simpa using h1, by omega, not_not.mp h3, rfl⟩

theorem port_delete_ok (s : port_state) (id : Int) (h : (port_delete s id).2 = NO_ERROR) :
    s.ports_active = true ∧ 0 ≤ id ∧ (s.ports (slot_of id)).id = id ∧
      (port_delete s id).1 =
        { s with
          ports := Function.update s.ports (slot_of id)
                     { s.ports (slot_of id) with id := -1, name := none }
          sems := sem_delete (sem_delete s.sems (s.ports (slot_of id)).read_sem)
                    (s.ports (slot_of id)).write_sem } := by
  unfold port_delete at h ⊢
  dsimp only at h ⊢
  by_cases h1 : s.ports_active = false
  · rw [if_pos h1] at h; cases h
  rw [if_neg h1] at h ⊢
  by_cases h2 : id < 0
  · rw [if_pos h2] at h; cases h
  rw [if_neg h2] at h ⊢
  by_cases h3 : (s.ports (slot_of id)).id ≠ id
  · rw [if_pos h3] at h; cases h
  rw [if_neg h3]
  exact ⟨by simpa using h1, by omega, not_not.mp h3, rfl⟩

/-- On an active table a handle that is negative or stale is rejected by
`port_write_etc` (for a valid size), `port_read_etc` (for valid arguments)
and `port_buffer_size_etc`, which leave everything unchanged. -/
theorem invalid_handle_msg_ops (s : port_state) (id : Int)
    (hact : s.ports_active = true) (hid : id < 0 ∨ (s.ports (slot_of id)).id ≠ id) :
    (∀ (msg_code : Int) (msg : List Nat) (flags : port_flags) (timeout : Int) (env : write_env),
      msg.length ≤ PORT_MAX_MESSAGE_SIZE →
      port_write_etc s id msg_code msg flags timeout env
        = some (s, retval.err errcode.ERR_INVALID_HANDLE)) ∧
    (∀ (code0 : Int) (msg_buffer : Option (List Nat)) (buffer_size : Nat) (flags : port_flags)
        (timeout : Int) (env : read_env),
      (msg_buffer = none → buffer_size = 0) → 0 ≤ timeout →
      port_read_etc s id (some code0) msg_buffer buffer_size flags timeout env
        = some ⟨s, retval.err errcode.ERR_INVALID_HANDLE, some code0, msg_buffer⟩) ∧
    (∀ (flags : port_flags) (timeout : Int) (wait : errcode),
      port_buffer_size_etc s id flags timeout wait
        = some (s, retval.err errcode.ERR_INVALID_HANDLE)) := by
  have hact2 : ¬ s.ports_active = false := by simp [hact]
  refine ⟨?_, ?_, ?_⟩
  · intro msg_code msg flags timeout env hlen
    unfold port_write_etc
    dsimp only
    rw [if_neg hact2]
    by_cases h0 : id < 0
    · rw [if_pos h0]
    · rw [if_neg h0, if_neg (by omega), if_pos (by rcases hid with h | h; exact absurd h h0; exact h)]
  · intro code0 msg_buffer buffer_size flags timeout env hbuf ht
    unfold port_read_etc
    dsimp only
    rw [if_neg hact2]
    by_cases h0 : id < 0
    · rw [if_pos h0]
    · have hb : ¬ (msg_buffer = none ∧ buffer_size > 0) := by
        rintro ⟨h1, h2⟩; have := hbuf h1; omega
      rw [if_neg h0, if_neg (by simp), if_neg hb, if_neg (by omega),
        if_pos (by rcases hid with h | h; exact absurd h h0; exact h)]
  · intro flags timeout wait
    unfold port_buffer_size_etc
    dsimp only
    rw [if_neg hact2]
    by_cases h0 : id < 0
    · rw [if_pos h0]
    · rw [if_neg h0, if_pos (by rcases hid with h | h; exact absurd h h0; exact h)]

theorem port_read_dequeue_with_closed (s : port_state) (k : Nat)
    (msg_buffer : Option (List Nat)) (buffer_size : Nat) (flags : port_flags) (env : read_env) :
    port_read_dequeue (with_closed s k) k msg_buffer buffer_size flags env =
      (port_read_dequeue s k msg_buffer buffer_size flags env).map
        (fun r => { r with state := with_closed r.state k }) := by
  unfold port_read_dequeue with_closed
  simp only [Function.update_same, Function.update_idem]
  repeat' split
  all_goals simp_all

theorem port_read_etc_with_closed (s : port_state) (id : Int) (msg_code : Option Int)
    (msg_buffer : Option (List Nat)) (buffer_size : Nat) (flags : port_flags)
    (timeout : Int) (env : read_env) (h0 : 0 ≤ id) (hlive : (s.ports (slot_of id)).id = id) :
    port_read_etc (with_closed s (slot_of id)) id msg_code msg_buffer buffer_size flags
        timeout env =
      (port_read_etc s id msg_code msg_buffer buffer_size flags timeout env).map
        (fun r => { r with state := with_closed r.state (slot_of id) }) := by
  have hd := fun t => port_read_dequeue_with_closed { s with sems := t } (slot_of id)
    msg_buffer buffer_size flags env
  unfold port_read_etc
  unfold with_closed at hd ⊢
  simp only [Function.update_same] at hd ⊢
  by_cases h1 : s.ports_active = false
  · simp [h1]
  simp only [if_neg h1]
  have h2 : ¬ id < 0 := by omega
  simp only [if_neg h2]
  by_cases h3 : msg_code = none
  · simp [h3]
  simp only [if_neg h3]
  by_cases h4 : msg_buffer = none ∧ buffer_size > 0
  · simp [h4]
  simp only [if_neg h4]
  by_cases h5 : timeout < 0
  · simp [h5]
  simp only [if_neg h5]
  have h6 : ¬ (s.ports (slot_of id)).id ≠ id := by simp [hlive]
  simp only [if_neg h6]
  by_cases g1 : (sem_acquire_etc s.sems (s.ports (slot_of id)).read_sem env.wait).2
      = retval.err errcode.ERR_SEM_DELETED
  · simp [g1]
  simp only [if_neg g1]
  by_cases g2 : (sem_acquire_etc s.sems (s.ports (slot_of id)).read_sem env.wait).2
      = retval.err errcode.ERR_INTERRUPTED
  · simp [g2]
  simp only [if_neg g2]
  by_cases g3 : (sem_acquire_etc s.sems (s.ports (slot_of id)).read_sem env.wait).2
      = retval.err errcode.ERR_SEM_TIMED_OUT
  · simp [g3]
  simp only [if_neg g3]
  by_cases g4 : (sem_acquire_etc s.sems (s.ports (slot_of id)).read_sem env.wait).2 ≠ NO_ERROR
  · simp [g4]
  simp only [if_neg g4]
  exact hd _

theorem sem_acquire_etc_ok (t : sem_table) (id : Int) (w : errcode) (c : Int)
    (hc : t.count id = some c) (h1 : 1 ≤ c) :
    sem_acquire_etc t id w = (sem_taken t id c, NO_ERROR) := by
  unfold sem_acquire_etc
  rw [hc]
  dsimp only
  rw [if_pos h1]
  rfl

/-- With a token available on `read_sem` and valid arguments, `port_read_etc`
takes the token and goes on to dequeue. -/
theorem port_read_etc_token (s : port_state) (id c0 : Int) (msg_buffer : Option (List Nat))
    (buffer_size : Nat) (flags : port_flags) (timeout : Int) (env : read_env) (c : Int)
    (hact : s.ports_active = true) (h0 : 0 ≤ id) (hlive : (s.ports (slot_of id)).id = id)
    (hbuf : msg_buffer = none → buffer_size = 0) (ht : 0 ≤ timeout)
    (hc : s.sems.count (s.ports (slot_of id)).read_sem = some c) (h1 : 1 ≤ c) :
    port_read_etc s id (some c0) msg_buffer buffer_size flags timeout env =
      port_read_dequeue { s with sems := sem_taken s.sems (s.ports (slot_of id)).read_sem c }
        (slot_of id) msg_buffer buffer_size flags env := by
  have hb : ¬ (msg_buffer = none ∧ buffer_size > 0) := by
    rintro ⟨h1, h2⟩; have := hbuf h1; omega
  unfold port_read_etc
  dsimp only
  rw [if_neg (by simp [hact]), if_neg (by omega), if_neg (by simp), if_neg hb, if_neg (by omega),
    if_neg (by simp [hlive]), sem_acquire_etc_ok _ _ _ c hc h1]
  dsimp only
  rw [if_neg (by decide), if_neg (by decide), if_neg (by decide), if_neg (by decide)]

/-- Dequeuing the cell `m` at `tail` when the copy to the caller does not
fail. -/
theorem port_read_dequeue_ok (s : port_state) (slot : Nat) (msg_buffer : List Nat)
    (buffer_size : Nat) (flags : port_flags) (env : read_env) (m : port_msg) (chain : cbuf)
    (ht0 : 0 ≤ (s.ports slot).tail) (ht1 : (s.ports slot).tail ≤ (s.ports slot).capacity)
    (hm : (s.ports slot).msg_queue.get? (s.ports slot).tail.toNat = some m)
    (hcopy : flags.use_user_memcpy = true → env.copy.neg = false)
    (hchain : 0 < min buffer_size m.data_len → m.data_cbuf = some chain) :
    port_read_dequeue s slot (some msg_buffer) buffer_size flags env =
      some ⟨{ s with ports := Function.update s.ports slot (dequeued (s.ports slot) m),
                     sems := sem_release s.sems (s.ports slot).write_sem 1 },
        retval.val (min buffer_size m.data_len : Nat), some m.msg_code,
        some (if 0 < min buffer_size m.data_len then
                memcpy_from_chain msg_buffer chain (min buffer_size m.data_len)
              else msg_buffer)⟩ := by
  unfold port_read_dequeue
  dsimp only
  rw [if_neg (by omega), if_neg (by omega), hm]
  dsimp only
  by_cases h3 : min buffer_size m.data_len > 0
  · rw [if_pos h3, hchain h3, if_pos h3]
    by_cases h4 : flags.use_user_memcpy = true
    · rw [if_pos h4]
      simp only [hcopy h4]
      rw [if_neg (by decide)]
      rfl
    · rw [if_neg h4]
      rfl
  · rw [if_neg h3, if_neg h3]
    rfl

theorem ring_index_ne (t cap j l : Int) (h0 : 0 ≤ j) (h1 : j < l) (h2 : l < cap) :
    ((t + j) % cap).toNat ≠ ((t + l) % cap).toNat := by
  intro h
  have hc : 0 < cap := by omega
  have e1 : 0 ≤ (t + j) % cap := Int.emod_nonneg _ (by omega)
  have e2 : 0 ≤ (t + l) % cap := Int.emod_nonneg _ (by omega)
  have h' : (t + j) % cap = (t + l) % cap := by
    have := congrArg (fun n : Nat => (n : Int)) h
    simp only [Int.toNat_of_nonneg e1, Int.toNat_of_nonneg e2] at this
    exact this
  have h3 := (Int.emod_eq_emod_iff_emod_sub_eq_zero).1 h'.symm
  have h4 : cap ∣ (t + l - (t + j)) := Int.dvd_of_emod_eq_zero h3
  have h5 := Int.le_of_dvd (by omega) h4
  omega

theorem ring_next (x cap : Int) (h0 : 0 ≤ x) (h1 : x < cap) (h2 : cap ≤ MAX_QUEUE_LENGTH) :
    Int.tmod (wrap32 (x + 1)) cap = (x + 1) % cap := by
  have : cap ≤ 4096 := h2
  rw [wrap32_eq_self _ (by omega) (by omega), Int.tmod_eq_emod (by omega) (by omega)]

/-- What a `port_write_etc` that returns `NO_ERROR` tells about the state it
started from. -/
theorem port_write_etc_ok_pre (s s1 : port_state) (id msg_code : Int) (msg : List Nat)
    (flags : port_flags) (timeout : Int) (env : write_env)
    (hw : port_write_etc s id msg_code msg flags timeout env = some (s1, NO_ERROR)) :
    s.ports_active = true ∧ 0 ≤ id ∧ (s.ports (slot_of id)).id = id ∧
      (s.ports (slot_of id)).closed = false ∧ msg.length ≤ PORT_MAX_MESSAGE_SIZE ∧
      (∃ w, s.sems.count (s.ports (slot_of id)).write_sem = some w ∧ 1 ≤ w) ∧
      0 ≤ (s.ports (slot_of id)).head ∧
      (s.ports (slot_of id)).head < (s.ports (slot_of id)).capacity := by
  rcases port_write_etc_cases _ _ _ _ _ _ _ _ hw with
    ⟨e, he⟩ | ⟨c, hact, h0, hlive, hlen, hcl, hc, hc1, ⟨-, -, hbad, -⟩ | ⟨-, ha⟩⟩
  · cases he
  · exact absurd rfl hbad
  · obtain ⟨a0, a1, -, -⟩ := port_write_attach_cases _ _ _ _ _ _ ha
    exact ⟨hact, h0, hlive, hcl, hlen, ⟨c, hc, hc1⟩, a0, a1⟩

/-- On a live, non-closed port with a token on `write_sem` and `head` inside
the ring, a write of a valid size whose payload allocation and copy do not
fail attaches the message and returns `NO_ERROR`. -/
theorem port_write_etc_ok (s : port_state) (id msg_code : Int) (msg : List Nat)
    (flags : port_flags) (timeout : Int) (env : write_env) (c : Int)
    (hact : s.ports_active = true) (h0 : 0 ≤ id) (hlive : (s.ports (slot_of id)).id = id)
    (hopen : (s.ports (slot_of id)).closed = false)
    (hlen : msg.length ≤ PORT_MAX_MESSAGE_SIZE)
    (hc : s.sems.count (s.ports (slot_of id)).write_sem = some c) (hc1 : 1 ≤ c)
    (hh0 : 0 ≤ (s.ports (slot_of id)).head)
    (hh1 : (s.ports (slot_of id)).head < (s.ports (slot_of id)).capacity)
    (hq : (s.ports (slot_of id)).head.toNat < (s.ports (slot_of id)).msg_queue.length)
    (henv : msg.length = 0 ∨ (env.chain_mem = true ∧ env.copy.neg = false)) :
    ∃ s1, port_write_etc s id msg_code msg flags timeout env = some (s1, NO_ERROR) := by
  unfold port_write_etc
  dsimp only
  rw [if_neg (by simp [hact]), if_neg (by omega), if_neg (by omega), if_neg (by simp [hlive]),
    if_neg (by simp [hopen]), sem_acquire_etc_ok _ _ _ c hc hc1]
  dsimp only
  rw [if_neg (by decide), if_neg (by decide), if_neg (by decide)]
  have e1 : ¬ (msg.length > 0 ∧ env.chain_mem = false) := by
    rintro ⟨g1, g2⟩
    rcases henv with h | ⟨h, -⟩
    · omega
    · rw [h] at g2; cases g2
  have e2 : ¬ (msg.length > 0 ∧ env.copy.neg = true) := by
    rintro ⟨g1, g2⟩
    rcases henv with h | ⟨-, h⟩
    · omega
    · rw [h] at g2; cases g2
  rw [if_neg e1, if_neg e2]
  unfold port_write_attach
  dsimp only
  rw [if_neg (by omega), if_neg (by omega), if_neg (by omega)]
  exact ⟨_, rfl⟩

/-- A successful write to a ring that is not full appends its message. -/
theorem ring_write (s s1 : port_state) (id code : Int) (bytes : List Nat) (flags : port_flags)
    (timeout : Int) (env : write_env) (pend : List (Int × List Nat))
    (hr : ring_holds s (slot_of id) pend)
    (hlen : (pend.length : Int) < (s.ports (slot_of id)).capacity)
    (hw : port_write_etc s id code bytes flags timeout env = some (s1, NO_ERROR)) :
    ring_holds s1 (slot_of id) (pend ++ [(code, bytes)]) ∧ s1.ports_active = true ∧
      0 ≤ id ∧ (s1.ports (slot_of id)).id = id ∧
      (s1.ports (slot_of id)).capacity = (s.ports (slot_of id)).capacity := by
  obtain ⟨c2, t0, t1, hh, hne, hrc, -, hcells⟩ := hr
  rcases port_write_etc_cases _ _ _ _ _ _ _ _ hw with
    ⟨e, he⟩ | ⟨c, hact, h0, hlive, -, -, hc, hc1, ⟨-, -, hbad, -⟩ | ⟨-, ha⟩⟩
  · cases he
  · exact absurd rfl hbad
  · obtain ⟨a0, a1, a2, hst⟩ := port_write_attach_cases _ _ _ _ _ _ ha
    simp only [Prod.mk.injEq, and_true] at hst
    dsimp only at a0 a1 a2
    rw [hst]
    refine ⟨?_, hact, h0, by simp [enqueued, hlive], by simp [enqueued]⟩
    unfold ring_holds
    simp only [Function.update_same, enqueued, List.length_set, List.length_append,
      List.length_singleton]
    refine ⟨c2, t0, t1, ?_, hne, ?_, by push_cast; omega, ?_⟩
    · rw [ring_next _ _ a0 a1 c2, hh, Int.emod_add_emod]
      push_cast
      rw [add_assoc]
    · unfold sem_release sem_taken
      simp only [Function.update_noteq hne, hrc]
      simp
    · intro j x hj
      rw [List.get?_eq_getElem?] at hj ⊢
      by_cases hjl : j < pend.length
      · rw [List.getElem?_append_left hjl] at hj
        rw [List.getElem?_set_ne]
        · have := hcells j x (by rw [List.get?_eq_getElem?]; exact hj)
          rw [List.get?_eq_getElem?] at this
          exact this
        · rw [hh]
          exact Ne.symm (ring_index_ne _ _ _ _ (by omega) (by exact_mod_cast hjl) hlen)
      · have hj2 : j = pend.length := by
          have := (List.getElem?_eq_some.1 hj).1
          simp at this
          omega
        subst hj2
        rw [List.getElem?_append_right (le_refl _)] at hj
        simp at hj
        subst hj
        rw [← hh, List.getElem?_set_self (by omega)]
        rfl

/-- A read from a ring that holds `(code, bytes) :: pend` delivers that
message and leaves `pend`. -/
theorem ring_read (s : port_state) (id c0 : Int) (buf : List Nat) (n : Nat)
    (flags : port_flags) (timeout : Int) (env : read_env) (code : Int) (bytes : List Nat)
    (pend : List (Int × List Nat))
    (hact : s.ports_active = true) (h0 : 0 ≤ id) (hlive : (s.ports (slot_of id)).id = id)
    (ht : 0 ≤ timeout) (hcopy : flags.use_user_memcpy = true → env.copy.neg = false)
    (hr : ring_holds s (slot_of id) ((code, bytes) :: pend)) :
    ∃ s1, port_read_etc s id (some c0) (some buf) n flags timeout env =
        some ⟨s1, retval.val (min n bytes.length : Nat), some code,
          some (bytes.take (min n bytes.length) ++ buf.drop (min n bytes.length))⟩ ∧
      ring_holds s1 (slot_of id) pend ∧ s1.ports_active = true ∧
      (s1.ports (slot_of id)).id = id := by
  obtain ⟨c2, t0, t1, hh, hne, hrc, hle, hcells⟩ := hr
  simp only [List.length_cons] at hrc hle hh
  push_cast at hrc hle hh
  have hcell0 := hcells 0 (code, bytes) rfl
  simp only [Nat.cast_zero, add_zero, Int.emod_eq_of_lt t0 t1] at hcell0
  rw [port_read_etc_token s id c0 (some buf) n flags timeout env _ hact h0 hlive (by simp) ht
    hrc (by omega)]
  rw [port_read_dequeue_ok
    { s with sems := sem_taken s.sems (s.ports (slot_of id)).read_sem ((pend.length : Int) + 1) }
    (slot_of id) buf n flags env (msg_cell code bytes) bytes
    t0 (le_of_lt t1) hcell0 hcopy (by
      intro hpos
      simp only [msg_cell] at hpos ⊢
      rw [if_pos (by omega)])]
  have hb : (if 0 < min n (msg_cell code bytes).data_len then
        memcpy_from_chain buf bytes (min n (msg_cell code bytes).data_len) else buf)
      = bytes.take (min n bytes.length) ++ buf.drop (min n bytes.length) := by
    simp only [msg_cell]
    by_cases hpos : 0 < min n bytes.length
    · rw [if_pos hpos]; rfl
    · rw [if_neg hpos]
      have : min n bytes.length = 0 := by omega
      rw [this]; simp
  rw [hb]
  refine ⟨_, rfl, ?_, hact, by simp [dequeued, hlive]⟩
  · have hcap : 0 < (s.ports (slot_of id)).capacity := by omega
    unfold ring_holds
    simp only [Function.update_same, dequeued, List.length_set]
    rw [ring_next _ _ t0 t1 c2]
    refine ⟨c2, Int.emod_nonneg _ (by omega), Int.emod_lt_of_pos _ hcap, ?_, hne, ?_,
      by omega, ?_⟩
    · rw [hh, Int.emod_add_emod]
      congr 1
      omega
    · have hrel : (sem_release
          (sem_taken s.sems (s.ports (slot_of id)).read_sem ((pend.length : Int) + 1))
          (s.ports (slot_of id)).write_sem 1).count (s.ports (slot_of id)).read_sem
          = some (pend.length : Int) := by
        unfold sem_release
        split
        · simp [sem_taken]
        · simp [sem_taken, Function.update_noteq hne]
      exact hrel
    · intro j x hj
      have hjl : j < pend.length := by
        rw [List.get?_eq_getElem?] at hj
        exact (List.getElem?_eq_some.1 hj).1
      have := hcells (j + 1) x (by simpa using hj)
      rw [List.get?_eq_getElem?] at this ⊢
      rw [Int.emod_add_emod, List.getElem?_set_ne]
      · rw [← this]
        congr 3
        push_cast
        omega
      · have hx := ring_index_ne (s.ports (slot_of id)).tail (s.ports (slot_of id)).capacity
          0 ((j : Int) + 1) (le_refl _) (by omega) (by omega)
        simp only [add_zero, Int.emod_eq_of_lt t0 t1] at hx
        rw [show (s.ports (slot_of id)).tail + 1 + (j : Int)
            = (s.ports (slot_of id)).tail + ((j : Int) + 1) by omega]
        exact hx

theorem ring_write_all (s s1 : port_state) (id : Int) (ws : List write_call)
    (pend : List (Int × List Nat))
    (hact : s.ports_active = true) (h0 : 0 ≤ id) (hlive : (s.ports (slot_of id)).id = id)
    (hr : ring_holds s (slot_of id) pend)
    (hk : (pend.length : Int) + ws.length ≤ (s.ports (slot_of id)).capacity)
    (hw : port_write_all s id ws = some s1) :
    ring_holds s1 (slot_of id) (pend ++ ws.map (fun w => (w.msg_code, w.msg))) ∧
      s1.ports_active = true ∧ (s1.ports (slot_of id)).id = id := by
  induction ws generalizing s pend with
  | nil =>
    simp only [port_write_all, Option.some.injEq] at hw
    subst hw
    simpa using ⟨hr, hact, hlive⟩
  | cons w ws ih =>
    unfold port_write_all at hw
    simp only [List.length_cons] at hk
    push_cast at hk
    cases hp : port_write s id w.msg_code w.msg w.env with
    | none => rw [hp] at hw; cases hw
    | some x =>
      obtain ⟨sa, ra⟩ := x
      rw [hp] at hw
      dsimp only at hw
      by_cases hra : ra = NO_ERROR
      · rw [if_pos hra] at hw
        subst hra
        obtain ⟨g1, g2, -, g4, g5⟩ := ring_write s sa id w.msg_code w.msg _ _ w.env pend hr
          (by omega) hp
        have := ih sa (pend ++ [(w.msg_code, w.msg)]) g2 g4 g1
          (by rw [g5]; simp only [List.length_append, List.length_singleton]; push_cast; omega) hw
        simpa using this
      · rw [if_neg hra] at hw; cases hw

/-- On a live, non-closed port with a well-formed ring and at least as many
`write_sem` tokens as there are writes, writes of valid size whose payload
allocation and copy do not fail all return `NO_ERROR`. -/
theorem port_write_all_ok (s : port_state) (id : Int) (ws : List write_call) (c : Int)
    (hact : s.ports_active = true) (h0 : 0 ≤ id) (hlive : (s.ports (slot_of id)).id = id)
    (hopen : (s.ports (slot_of id)).closed = false)
    (hring : 0 ≤ (s.ports (slot_of id)).head ∧
      (s.ports (slot_of id)).head < (s.ports (slot_of id)).capacity ∧
      (s.ports (slot_of id)).capacity ≤ MAX_QUEUE_LENGTH ∧
      (s.ports (slot_of id)).msg_queue.length = (s.ports (slot_of id)).capacity.toNat)
    (hsem : (s.ports (slot_of id)).read_sem ≠ (s.ports (slot_of id)).write_sem)
    (hc : s.sems.count (s.ports (slot_of id)).write_sem = some c)
    (hk : (ws.length : Int) ≤ c)
    (henv : ∀ w ∈ ws, w.msg.length ≤ PORT_MAX_MESSAGE_SIZE ∧
      (w.msg.length = 0 ∨ (w.env.chain_mem = true ∧ w.env.copy.neg = false))) :
    ∃ s1, port_write_all s id ws = some s1 := by
  induction ws generalizing s c with
  | nil => exact ⟨s, rfl⟩
  | cons w ws ih =>
    obtain ⟨r1, r2, r3, r4⟩ := hring
    simp only [List.length_cons] at hk
    push_cast at hk
    have hw := henv w (List.mem_cons_self _ _)
    obtain ⟨sa, hsa⟩ := port_write_etc_ok s id w.msg_code w.msg ⟨false, false, false⟩ 0 w.env c
      hact h0 hlive hopen hw.1 hc (by omega) r1 r2 (by rw [r4]; omega) hw.2
    rcases port_write_etc_cases _ _ _ _ _ _ _ _ hsa with
      ⟨e, he⟩ | ⟨c2, -, -, -, -, -, hc2, -, ⟨-, -, hbad, -⟩ | ⟨-, ha⟩⟩
    · cases he
    · exact absurd rfl hbad
    · obtain ⟨-, -, -, hst⟩ := port_write_attach_cases _ _ _ _ _ _ ha
      simp only [Prod.mk.injEq, and_true] at hst
      have hcc : c2 = c := by rw [hc] at hc2; cases hc2; rfl
      subst hcc
      have hcap : 0 < (s.ports (slot_of id)).capacity := by omega
      have hnext := ring_next _ _ r1 r2 r3
      obtain ⟨s1, hs1⟩ := ih sa (c2 - 1)
        (by rw [hst]; exact hact)
        (by rw [hst]; simp [enqueued, hlive])
        (by rw [hst]; simp [enqueued, hopen])
        (by
          rw [hst]
          simp only [Function.update_same, enqueued, List.length_set]
          rw [hnext]
          exact ⟨Int.emod_nonneg _ (by omega), Int.emod_lt_of_pos _ hcap, r3, r4⟩)
        (by rw [hst]; simpa [enqueued] using hsem)
        (by
          rw [hst]
          simp only [Function.update_same, enqueued]
          unfold sem_release
          split
          · simp [sem_taken]
          · simp [sem_taken, Function.update_noteq (Ne.symm hsem)])
        (by omega)
        (fun x hx => henv x (List.mem_cons_of_mem _ hx))
      refine ⟨s1, ?_⟩
      unfold port_write_all port_write
      rw [hsa]
      dsimp only
      rw [if_pos rfl]
      exact hs1

theorem ring_read_all (s : port_state) (id : Int) (ws : List write_call) (cs : List read_call)
    (rest : List (Int × List Nat))
    (hact : s.ports_active = true) (h0 : 0 ≤ id) (hlive : (s.ports (slot_of id)).id = id)
    (hr : ring_holds s (slot_of id) (ws.map (fun w => (w.msg_code, w.msg)) ++ rest))
    (hlen : cs.length = ws.length) :
    ∃ s2, port_read_all s id cs = some (s2, List.zipWith delivered ws cs) ∧
      ring_holds s2 (slot_of id) rest := by
  induction ws generalizing s cs with
  | nil =>
    cases cs with
    | nil => exact ⟨s, rfl, by simpa using hr⟩
    | cons c cs => simp at hlen
  | cons w ws ih =>
    cases cs with
    | nil => simp at hlen
    | cons c cs =>
      simp only [List.length_cons, add_left_inj] at hlen
      simp only [List.map_cons, List.cons_append] at hr
      obtain ⟨sa, g1, g2, g3, g4⟩ := ring_read s id c.msg_code c.msg_buffer c.buffer_size
        ⟨false, false, false⟩ 0 c.env w.msg_code w.msg _ hact h0 hlive (le_refl _)
        (by simp) hr
      obtain ⟨s2, k1, k2⟩ := ih sa cs g3 g4 g2 hlen
      refine ⟨s2, ?_, k2⟩
      unfold port_read_all port_read
      rw [g1]
      dsimp only
      rw [k1]
      rfl

theorem cons_inv_init (sems : sem_table) (h : sems_fresh sems) :
    cons_inv (port_init (port_statics sems)) :=
  ⟨h, fun _ _ hl => absurd rfl hl, fun _ _ _ _ _ hl => absurd rfl hl⟩

theorem entry_ok_congr (t t1 : sem_table) (p : port_entry) (h : entry_ok t p)
    (hn : t.next_sem ≤ t1.next_sem)
    (hr : t1.count p.read_sem = t.count p.read_sem)
    (hw : t1.count p.write_sem = t.count p.write_sem) : entry_ok t1 p := by
  obtain ⟨a1, a2, a3, a4, a5, a6, a7, a8, a9, a10, r, w, b1, b2, b3⟩ := h
  exact ⟨by omega, by omega, a3, a4, a5, a6, a7, a8, a9, a10, r, w, by rw [hr]; exact b1,
    by rw [hw]; exact b2, b3⟩

/-- Replacing the entry of the live slot `k` by an entry with the same
semaphores, and changing the counts of these two semaphores only, keeps the
invariant, provided the new entry is consistent (or free). -/
theorem cons_inv_update (s : port_state) (k : Nat) (e : port_entry) (t : sem_table)
    (hinv : cons_inv s) (hk : k < MAX_PORTS) (hlive : (s.ports k).id ≠ -1)
    (hr : e.read_sem = (s.ports k).read_sem) (hw : e.write_sem = (s.ports k).write_sem)
    (hn : t.next_sem = s.sems.next_sem)
    (hc : ∀ h, h ≠ (s.ports k).read_sem → h ≠ (s.ports k).write_sem →
      t.count h = s.sems.count h)
    (he : e.id ≠ -1 → entry_ok t e) :
    cons_inv { s with ports := Function.update s.ports k e, sems := t } := by
  obtain ⟨⟨f1, f2⟩, hok, hdis⟩ := hinv
  have hkok := hok k hk hlive
  refine ⟨⟨by simp only; omega, ?_⟩, ?_, ?_⟩
  · intro h hh
    simp only at hh ⊢
    rw [hc h (by have := hkok.1; omega) (by have := hkok.2.1; omega)]
    exact f2 h (by omega)
  · intro i hi hl
    by_cases hik : i = k
    · subst hik
      simp only [Function.update_same] at hl ⊢
      exact he hl
    · simp only [Function.update_noteq hik] at hl ⊢
      obtain ⟨d1, d2, d3, d4⟩ := hdis i k hi hk hik hl hlive
      exact entry_ok_congr _ _ _ (hok i hi hl) (le_of_eq hn.symm) (hc _ d1 d2) (hc _ d3 d4)
  · intro i j hi hj hij hli hlj
    by_cases hik : i = k
    · subst hik
      have hjk : j ≠ i := Ne.symm hij
      simp only [Function.update_same, Function.update_noteq hjk] at hlj ⊢
      rw [hr, hw]
      exact hdis i j hi hj hij hlive hlj
    · by_cases hjk : j = k
      · subst hjk
        simp only [Function.update_same, Function.update_noteq hik] at hli ⊢
        rw [hr, hw]
        exact hdis i j hi hj hij hli hlive
      · simp only [Function.update_noteq hik, Function.update_noteq hjk] at hli hlj ⊢
        exact hdis i j hi hj hij hli hlj

theorem occ_write (h t r cap : Int) (h0 : (h - t) % cap = r % cap) :
    ((h + 1) % cap - t) % cap = (r + 1) % cap := by
  have e1 : ((h + 1) % cap - t) % cap = ((h - t) + 1) % cap := by
    rw [Int.sub_emod, Int.emod_emod_of_dvd _ (dvd_refl _), ← Int.sub_emod]
    congr 1; omega
  rw [e1, ← Int.emod_add_emod, h0, Int.emod_add_emod]

theorem occ_read (h t r cap : Int) (h0 : (h - t) % cap = r % cap) :
    (h - (t + 1) % cap) % cap = (r - 1) % cap := by
  have e1 : (h - (t + 1) % cap) % cap = ((h - t) + (-1)) % cap := by
    rw [Int.sub_emod, Int.emod_emod_of_dvd _ (dvd_refl _), ← Int.sub_emod]
    congr 1; omega
  rw [e1, ← Int.emod_add_emod, h0, Int.emod_add_emod]
  congr 1

theorem sem_table_ext (t t1 : sem_table) (hn : t1.next_sem = t.next_sem)
    (hc : ∀ h, t1.count h = t.count h) : t1 = t := by
  cases t; cases t1
  simp only at hn hc
  simp only [sem_table.mk.injEq]
  exact ⟨funext hc, hn⟩

theorem sem_release_of_some (t : sem_table) (id n c : Int) (h : t.count id = some c) :
    sem_release t id n = { t with count := Function.update t.count id (some (c + n)) } := by
  unfold sem_release
  rw [h]

theorem slot_live_of_id (s : port_state) (id : Int) (h0 : 0 ≤ id)
    (hlive : (s.ports (slot_of id)).id = id) : (s.ports (slot_of id)).id ≠ -1 := by
  rw [hlive]; omega

theorem cons_inv_close (s : port_state) (id : Int) (hinv : cons_inv s) :
    cons_inv (port_close s id).1 := by
  by_cases hc : (port_close s id).2 = NO_ERROR
  · obtain ⟨-, h0, hlive, hst⟩ := port_close_ok s id hc
    rw [hst]
    have hl := slot_live_of_id s id h0 hlive
    exact cons_inv_update s _ _ s.sems hinv (slot_of_lt id h0) hl rfl rfl rfl
      (fun _ _ _ => rfl) (fun _ => hinv.2.1 _ (slot_of_lt id h0) hl)
  · unfold port_close at hc ⊢
    dsimp only at hc ⊢
    split_ifs at hc ⊢ <;> first | exact hinv | exact absurd rfl hc

theorem cons_inv_set_owner (s : port_state) (id proc : Int) (hinv : cons_inv s) :
    cons_inv (port_set_owner s id proc).1 := by
  unfold port_set_owner
  dsimp only
  split_ifs with h1 h2 h3
  · exact hinv
  · exact hinv
  · exact hinv
  · have h0 : 0 ≤ id := by omega
    have hlive : (s.ports (slot_of id)).id = id := not_not.mp h3
    have hl := slot_live_of_id s id h0 hlive
    exact cons_inv_update s _ _ s.sems hinv (slot_of_lt id h0) hl rfl rfl rfl
      (fun _ _ _ => rfl) (fun _ => hinv.2.1 _ (slot_of_lt id h0) hl)

theorem cons_inv_delete (s : port_state) (id : Int) (hinv : cons_inv s) :
    cons_inv (port_delete s id).1 := by
  by_cases hc : (port_delete s id).2 = NO_ERROR
  · obtain ⟨-, h0, hlive, hst⟩ := port_delete_ok s id hc
    rw [hst]
    have hl := slot_live_of_id s id h0 hlive
    refine cons_inv_update s _ _ _ hinv (slot_of_lt id h0) hl rfl rfl rfl ?_
      (fun h => absurd rfl h)
    intro h hr hw
    simp only [sem_delete, Function.update_noteq hr, Function.update_noteq hw]
  · unfold port_delete at hc ⊢
    dsimp only at hc ⊢
    split_ifs at hc ⊢ <;> first | exact hinv | exact absurd rfl hc

theorem cons_inv_delete_owned_loop (owner : Int) (fuel i : Nat) (s : port_state) (count : Int)
    (hinv : cons_inv s) : cons_inv (port_delete_owned_loop owner fuel i s count).1 := by
  induction fuel generalizing i s count with
  | zero => exact hinv
  | succ n ih =>
    unfold port_delete_owned_loop
    split_ifs
    · exact ih _ _ _ (cons_inv_delete s _ hinv)
    · exact ih _ _ _ hinv

theorem cons_inv_delete_owned_ports (s : port_state) (owner : Int) (hinv : cons_inv s) :
    cons_inv (port_delete_owned_ports s owner).1 := by
  unfold port_delete_owned_ports
  split_ifs
  · exact hinv
  · exact cons_inv_delete_owned_loop _ _ _ _ _ hinv

theorem cons_inv_read (s : port_state) (id : Int) (msg_code : Option Int)
    (msg_buffer : Option (List Nat)) (buffer_size : Nat) (flags : port_flags)
    (timeout : Int) (env : read_env) (r : read_result) (hinv : cons_inv s)
    (h : port_read_etc s id msg_code msg_buffer buffer_size flags timeout env = some r) :
    cons_inv r.state := by
  rcases port_read_etc_cases _ _ _ _ _ _ _ _ _ h with
    ⟨e, rfl⟩ | ⟨c, -, h0, hlive, -, -, -, hc, hc1, hd⟩
  · exact hinv
  · obtain ⟨m, -, -, -, hst, -⟩ := port_read_dequeue_cases _ _ _ _ _ _ _ hd
    rw [hst]
    have hl := slot_live_of_id s id h0 hlive
    have hk := slot_of_lt id h0
    obtain ⟨a1, a2, a3, a4, a5, a6, a7, a8, a9, a10, rr, w, b1, b2, b3, b4, b5, b6⟩ :=
      hinv.2.1 _ hk hl
    have hrc : rr = c := by rw [b1] at hc; cases hc; rfl
    subst hrc
    have hcap : 0 < (s.ports (slot_of id)).capacity := by omega
    dsimp only
    rw [sem_release_of_some _ _ 1 w (by
      simp only [sem_taken, Function.update_noteq (Ne.symm a3)]; exact b2)]
    refine cons_inv_update s _ _ _ hinv hk hl rfl rfl rfl ?_ ?_
    · intro h hr hw
      simp only [sem_taken, Function.update_noteq hr, Function.update_noteq hw]
    · intro _
      unfold entry_ok
      dsimp only [dequeued]
      rw [ring_next _ _ a9 a10 a5]
      refine ⟨a1, a2, a3, a4, a5, by simp only [List.length_set]; exact a6, a7, a8,
        Int.emod_nonneg _ (by omega), Int.emod_lt_of_pos _ hcap, rr - 1, w + 1, ?_, ?_,
        by omega, by omega, by omega, occ_read _ _ _ _ b6⟩
      · simp only [sem_taken, Function.update_noteq a3, Function.update_same]
      · simp only [sem_taken, Function.update_same]

theorem cons_inv_write (s : port_state) (id : Int) (msg_code : Int) (msg : List Nat)
    (flags : port_flags) (timeout : Int) (env : write_env) (r : port_state × retval)
    (hinv : cons_inv s)
    (hok : step_conserving s (port_op.write id msg_code msg flags timeout env) r.1 r.2 = true)
    (h : port_write_etc s id msg_code msg flags timeout env = some r) :
    cons_inv r.1 := by
  rcases port_write_etc_cases _ _ _ _ _ _ _ _ h with
    ⟨e, rfl⟩ | ⟨c, -, h0, hlive, -, -, hc, hc1, ⟨-, -, hbad, hst⟩ | ⟨-, ha⟩⟩
  · exact hinv
  · exfalso
    simp only [step_conserving, Bool.or_eq_true, decide_eq_true_eq] at hok
    rcases hok with hok | hok
    · exact hbad hok
    · rw [hst, hc] at hok
      simp only [sem_taken, Function.update_same, Option.some.injEq] at hok
      omega
  · obtain ⟨-, -, -, rfl⟩ := port_write_attach_cases _ _ _ _ _ _ ha
    have hl := slot_live_of_id s id h0 hlive
    have hk := slot_of_lt id h0
    obtain ⟨a1, a2, a3, a4, a5, a6, a7, a8, a9, a10, rr, w, b1, b2, b3, b4, b5, b6⟩ :=
      hinv.2.1 _ hk hl
    have hwc : w = c := by rw [b2] at hc; cases hc; rfl
    subst hwc
    have hcap : 0 < (s.ports (slot_of id)).capacity := by omega
    dsimp only
    rw [sem_release_of_some _ _ 1 rr (by
      simp only [enqueued, sem_taken, Function.update_noteq a3]; exact b1)]
    refine cons_inv_update s _ _ _ hinv hk hl rfl rfl rfl ?_ ?_
    · intro h hr hw
      simp only [enqueued, sem_taken, Function.update_noteq hr, Function.update_noteq hw]
    · intro _
      unfold entry_ok
      dsimp only [enqueued]
      rw [ring_next _ _ a7 a8 a5]
      refine ⟨a1, a2, a3, a4, a5, by simp only [List.length_set]; exact a6,
        Int.emod_nonneg _ (by omega), Int.emod_lt_of_pos _ hcap, a9, a10, rr + 1, w - 1, ?_, ?_,
        by omega, by omega, by omega, occ_write _ _ _ _ b6⟩
      · simp only [sem_taken, Function.update_same]
      · simp only [sem_taken, Function.update_noteq (Ne.symm a3), Function.update_same]

theorem cons_inv_buffer_size (s : port_state) (id : Int) (flags : port_flags)
    (timeout : Int) (wait : errcode) (r : port_state × retval) (hinv : cons_inv s)
    (hok : step_conserving s (port_op.buffer_size id flags timeout wait) r.1 r.2 = true)
    (h : port_buffer_size_etc s id flags timeout wait = some r) :
    cons_inv r.1 := by
  rcases port_buffer_size_etc_cases _ _ _ _ _ _ h with
    ⟨e, rfl⟩ | ⟨-, -, -, ⟨c, hc, -, hp⟩ | ⟨-, -, -, hp⟩⟩
  · exact hinv
  · obtain ⟨m, -, -, -, rfl⟩ := port_buffer_size_peek_cases _ _ _ hp
    have : sem_release (sem_taken s.sems (s.ports (slot_of id)).read_sem c)
        (s.ports (slot_of id)).read_sem 1 = s.sems := by
      rw [sem_release_of_some _ _ 1 (c - 1) (by simp only [sem_taken, Function.update_same])]
      apply sem_table_ext
      · rfl
      · intro h
        simp only [sem_taken, Function.update_idem]
        by_cases hh : h = (s.ports (slot_of id)).read_sem
        · subst hh; simp [hc]
        · simp [Function.update_noteq hh]
    simp only [this]
    exact hinv
  · obtain ⟨m, -, -, -, rfl⟩ := port_buffer_size_peek_cases _ _ _ hp
    simp only [step_conserving, decide_eq_true_eq] at hok
    cases hcnt : s.sems.count (s.ports (slot_of id)).read_sem with
    | none =>
      have : sem_release s.sems (s.ports (slot_of id)).read_sem 1 = s.sems := by
        unfold sem_release; rw [hcnt]
      simp only [this]
      exact hinv
    | some c =>
      exfalso
      rw [sem_release_of_some _ _ 1 c hcnt, hcnt] at hok
      simp only [Function.update_same, Option.some.injEq] at hok
      omega

theorem cons_inv_create (N : Nat) (s : port_state) (ql : Int) (name : Option (List Char))
    (env : create_env) (hinv : cons_inv s) : cons_inv (port_create N s ql name env).1 := by
  obtain ⟨⟨f1, f2⟩, hok, hdis⟩ := hinv
  rcases port_create_cases N s ql name env with
    ⟨sems1, h1, ⟨g1, g2⟩, -⟩ | ⟨i, tn, mem, hi, hfree, -, -, q1, q2, -, hn, hc⟩
  · rw [h1]
    refine ⟨⟨by simp only; omega, ?_⟩, ?_, hdis⟩
    · intro h hh
      simp only at hh ⊢
      rw [g2 h (Or.inr hh)]
      exact f2 h (by omega)
    · intro j hj hl
      have := hok j hj hl
      exact entry_ok_congr _ _ _ this g1 (g2 _ (Or.inl this.1)) (g2 _ (Or.inl this.2.1))
  · rw [hc, port_create_at_eq]
    dsimp only
    have hcnt : ∀ h, h < s.sems.next_sem → (sems_created s.sems ql).count h = s.sems.count h := by
      intro h hh
      simp only [sems_created]
      rw [Function.update_noteq (by omega), Function.update_noteq (by omega)]
    refine ⟨⟨by simp only [sems_created]; omega, ?_⟩, ?_, ?_⟩
    · intro h hh
      simp only [sems_created] at hh ⊢
      rw [Function.update_noteq (by omega), Function.update_noteq (by omega)]
      exact f2 h (by omega)
    · intro j hj hl
      by_cases hji : j = i
      · subst hji
        simp only [Function.update_same]
        unfold entry_ok
        dsimp only
        refine ⟨by simp only [sems_created]; omega, by simp only [sems_created]; omega,
          by omega, q1, q2, by simp, le_refl _, by omega, le_refl _, by omega, 0, ql, ?_, ?_,
          le_refl _, by omega, by omega, by simp⟩
        · simp only [sems_created]
          rw [Function.update_noteq (by omega), Function.update_same]
        · simp only [sems_created]
          rw [Function.update_same]
      · simp only [Function.update_noteq hji] at hl ⊢
        have := hok j hj hl
        exact entry_ok_congr _ _ _ this (by simp only [sems_created]; omega)
          (hcnt _ this.1) (hcnt _ this.2.1)
    · intro j k hj hk hjk hlj hlk
      by_cases hji : j = i
      · subst hji
        have hkj : k ≠ j := Ne.symm hjk
        simp only [Function.update_same, Function.update_noteq hkj] at hlk ⊢
        have := hok k hk hlk
        have b1 := this.1
        have b2 := this.2.1
        exact ⟨by omega, by omega, by omega, by omega⟩
      · by_cases hki : k = i
        · subst hki
          simp only [Function.update_same, Function.update_noteq hji] at hlj ⊢
          have := hok j hj hlj
          have b1 := this.1
          have b2 := this.2.1
          exact ⟨by omega, by omega, by omega, by omega⟩
        · simp only [Function.update_noteq hji, Function.update_noteq hki] at hlj hlk ⊢
          exact hdis j k hj hk hjk hlj hlk

theorem cons_inv_step (N : Nat) (s s1 : port_state) (op : port_op) (r : retval)
    (hinv : cons_inv s) (hok : step_conserving s op s1 r = true)
    (h : port_step N s op = some (s1, r)) : cons_inv s1 := by
  cases op with
  | create ql nm env =>
    simp only [port_step, Option.some.injEq] at h
    have := cons_inv_create N s ql nm env hinv
    rw [h] at this; exact this
  | close id =>
    simp only [port_step, Option.some.injEq] at h
    have := cons_inv_close s id hinv
    rw [h] at this; exact this
  | delete id =>
    simp only [port_step, Option.some.injEq] at h
    have := cons_inv_delete s id hinv
    rw [h] at this; exact this
  | set_owner id proc =>
    simp only [port_step, Option.some.injEq] at h
    have := cons_inv_set_owner s id proc hinv
    rw [h] at this; exact this
  | read id mc mb bs fl tmo env =>
    simp only [port_step, Option.map_eq_some'] at h
    obtain ⟨rr, h1, h2⟩ := h
    have := cons_inv_read _ _ _ _ _ _ _ _ _ hinv h1
    simp only [Prod.mk.injEq] at h2
    rw [h2.1] at this
    exact this
  | write id mc msg fl tmo env =>
    simp only [port_step] at h
    exact cons_inv_write _ _ _ _ _ _ _ (s1, r) hinv hok h
  | buffer_size id fl tmo w =>
    simp only [port_step] at h
    exact cons_inv_buffer_size _ _ _ _ _ (s1, r) hinv hok h
  | delete_owned_ports owner =>
    simp only [port_step, Option.some.injEq] at h
    have := cons_inv_delete_owned_ports s owner hinv
    rw [h] at this; exact this

theorem cons_inv_run (N : Nat) (s s1 : port_state) (ops : List port_op) (rs : List retval)
    (hinv : cons_inv s) (hok : port_run_conserving N s ops = true)
    (h : port_run N s ops = some (s1, rs)) : cons_inv s1 := by
  induction ops generalizing s rs with
  | nil =>
    simp only [port_run, Option.some.injEq, Prod.mk.injEq] at h
    obtain ⟨rfl, rfl⟩ := h
    exact hinv
  | cons op ops ih =>
    obtain ⟨sa, ra, rb, hs, hr, rfl⟩ := port_run_cons N s s1 op ops rs h
    unfold port_run_conserving at hok
    rw [hs] at hok
    simp only [Bool.and_eq_true] at hok
    exact ih sa rb (cons_inv_step N s sa op ra hinv hok.1 hs) hok.2 hr

theorem port_buffer_size_etc_locks_live (s : port_state) (id : Int) (wait : errcode)
    (hact : s.ports_active = true) (h0 : 0 ≤ id) (hlive : (s.ports (slot_of id)).id = id) :
    locks_disciplined false 0 (port_buffer_size_etc_locks s id wait) = false := by
  unfold port_buffer_size_etc_locks
  dsimp only
  rw [if_neg (by simp [hact]), if_neg (by omega), if_neg (by simp [hlive])]
  by_cases h1 : (sem_acquire_etc s.sems (s.ports (slot_of id)).read_sem wait).2
      = retval.err errcode.ERR_SEM_DELETED
  · rw [if_pos h1]; rfl
  · rw [if_neg h1]
    by_cases h2 : (sem_acquire_etc s.sems (s.ports (slot_of id)).read_sem wait).2
        = retval.err errcode.ERR_SEM_TIMED_OUT
    · rw [if_pos h2]; rfl
    · rw [if_neg h2]
      by_cases h3 : (s.ports (slot_of id)).head < 0 ∨
          (s.ports (slot_of id)).head > (s.ports (slot_of id)).capacity
      · rw [if_pos h3]; rfl
      · rw [if_neg h3]; rfl

theorem strcmp_eq_zero (a b : List Char) : strcmp a b = 0 ↔ a = b := by
  induction a generalizing b with
  | nil => cases b <;> simp [strcmp]
  | cons x xs ih =>
    cases b with
    | nil => simp [strcmp]
    | cons y ys =>
      unfold strcmp
      by_cases hxy : x = y
      · rw [if_pos hxy, ih ys]
        simp [hxy]
      · rw [if_neg hxy]
        constructor
        · intro h
          split_ifs at h
          omega
        · intro h
          exact absurd (List.cons.inj h).1 hxy

theorem port_find_loop_spec (s : port_state) (name : List Char) (fuel i0 : Nat)
    (hnames : ∀ j, i0 ≤ j → j < i0 + fuel → 0 ≤ (s.ports j).id → (s.ports j).name ≠ none) :
    (∃ k, i0 ≤ k ∧ k < i0 + fuel ∧ 0 ≤ (s.ports k).id ∧ (s.ports k).name = some name ∧
      (∀ j, i0 ≤ j → j < k → ¬ (0 ≤ (s.ports j).id ∧ (s.ports j).name = some name)) ∧
      port_find_loop s name fuel i0 = some (retval.val (s.ports k).id)) ∨
    ((∀ j, i0 ≤ j → j < i0 + fuel →
        ¬ (0 ≤ (s.ports j).id ∧ (s.ports j).name = some name)) ∧
      port_find_loop s name fuel i0 = some (retval.err errcode.ERR_INVALID_HANDLE)) := by
  induction fuel generalizing i0 with
  | zero =>
    right
    exact ⟨fun j h1 h2 => by omega, rfl⟩
  | succ n ih =>
    have hrec := ih (i0 + 1) (fun j h1 h2 => hnames j (by omega) (by omega))
    unfold port_find_loop
    by_cases hl : (s.ports i0).id ≥ 0
    · rw [if_pos hl]
      cases hn : (s.ports i0).name with
      | none => exact absurd hn (hnames i0 (le_refl _) (by omega) hl)
      | some nm =>
        dsimp only
        by_cases he : strcmp name nm = 0
        · rw [if_pos he]
          left
          have hnm : name = nm := (strcmp_eq_zero _ _).mp he
          exact ⟨i0, le_refl _, by omega, hl, by rw [hn, hnm],
            fun j h1 h2 => by omega, rfl⟩
        · rw [if_neg he]
          have hne : ¬ (0 ≤ (s.ports i0).id ∧ (s.ports i0).name = some name) := by
            rintro ⟨_, h2⟩
            rw [hn] at h2
            exact he ((strcmp_eq_zero _ _).mpr (Option.some.inj h2).symm)
          rcases hrec with ⟨k, h1, h2, h3, h4, h5, h6⟩ | ⟨h1, h2⟩
          · left
            refine ⟨k, by omega, by omega, h3, h4, ?_, h6⟩
            intro j hj1 hj2
            by_cases hj : j = i0
            · subst hj; exact hne
            · exact h5 j (by omega) hj2
          · right
            refine ⟨?_, h2⟩
            intro j hj1 hj2
            by_cases hj : j = i0
            · subst hj; exact hne
            · exact h1 j (by omega) (by omega)
    · rw [if_neg hl]
      have hne : ¬ (0 ≤ (s.ports i0).id ∧ (s.ports i0).name = some name) :=
        fun h => hl h.1
      rcases hrec with ⟨k, h1, h2, h3, h4, h5, h6⟩ | ⟨h1, h2⟩
      · left
        refine ⟨k, by omega, by omega, h3, h4, ?_, h6⟩
        intro j hj1 hj2
        by_cases hj : j = i0
        · subst hj; exact hne
        · exact h5 j (by omega) hj2
      · right
        refine ⟨?_, h2⟩
        intro j hj1 hj2
        by_cases hj : j = i0
        · subst hj; exact hne
        · exact h1 j (by omega) (by omega)

theorem port_find_first (s : port_state) (name : List Char) (k : Nat)
    (hact : s.ports_active = true)
    (hnames : ∀ i, i < MAX_PORTS → 0 ≤ (s.ports i).id → (s.ports i).name ≠ none)
    (hk : k < MAX_PORTS) (hlive : 0 ≤ (s.ports k).id) (hname : (s.ports k).name = some name)
    (hfirst : ∀ j, j < k → ¬ (0 ≤ (s.ports j).id ∧ (s.ports j).name = some name)) :
    port_find s (some name) = some (retval.val (s.ports k).id) := by
  unfold port_find
  rw [if_neg (by simp [hact])]
  dsimp only
  rcases port_find_loop_spec s name MAX_PORTS 0 (fun j _ h2 => hnames j (by omega))
    with ⟨k1, h1, h2, h3, h4, h5, h6⟩ | ⟨h1, h2⟩
  · have hkk : k1 = k := by
      rcases Nat.lt_trichotomy k1 k with h | h | h
      · exact absurd ⟨h3, h4⟩ (hfirst k1 h)
      · exact h
      · exact absurd ⟨hlive, hname⟩ (h5 k (Nat.zero_le _) h)
    rw [h6, hkk]
  · exact absurd ⟨hlive, hname⟩ (h1 k (Nat.zero_le _) (by omega))

theorem port_find_none (s : port_state) (name : List Char)
    (hact : s.ports_active = true)
    (hnames : ∀ i, i < MAX_PORTS → 0 ≤ (s.ports i).id → (s.ports i).name ≠ none)
    (hno : ∀ j, j < MAX_PORTS → ¬ (0 ≤ (s.ports j).id ∧ (s.ports j).name = some name)) :
    port_find s (some name) = some (retval.err errcode.ERR_INVALID_HANDLE) := by
  unfold port_find
  rw [if_neg (by simp [hact])]
  dsimp only
  rcases port_find_loop_spec s name MAX_PORTS 0 (fun j _ h2 => hnames j (by omega))
    with ⟨k1, h1, h2, h3, h4, h5, h6⟩ | ⟨h1, h2⟩
  · exact absurd ⟨h3, h4⟩ (hno k1 (by omega))
  · exact h2

theorem port_find_some (s : port_state) (name : List Char) (k : Nat)
    (hact : s.ports_active = true)
    (hnames : ∀ i, i < MAX_PORTS → 0 ≤ (s.ports i).id → (s.ports i).name ≠ none)
    (hk : k < MAX_PORTS) (hlive : 0 ≤ (s.ports k).id) (hname : (s.ports k).name = some name) :
    ∃ k0, k0 ≤ k ∧ 0 ≤ (s.ports k0).id ∧ (s.ports k0).name = some name ∧
      (∀ j, j < k0 → ¬ (0 ≤ (s.ports j).id ∧ (s.ports j).name = some name)) ∧
      port_find s (some name) = some (retval.val (s.ports k0).id) := by
  have hex : ∃ i, 0 ≤ (s.ports i).id ∧ (s.ports i).name = some name := ⟨k, hlive, hname⟩
  have hspec := Nat.find_spec hex
  have hle : Nat.find hex ≤ k := Nat.find_min' hex ⟨hlive, hname⟩
  have hmin : ∀ j, j < Nat.find hex → ¬ (0 ≤ (s.ports j).id ∧ (s.ports j).name = some name) :=
    fun j hj => Nat.find_min hex hj
  exact ⟨Nat.find hex, hle, hspec.1, hspec.2, hmin,
    port_find_first s name _ hact hnames (by omega) hspec.1 hspec.2 hmin⟩

theorem st_long_ports :
    st_long.ports = Function.update (fun _ => free_entry) 0 (st_long.ports 0) := by
  rfl

theorem port_create_named (N : Nat) (s s1 : port_state) (d id : Int) (name : List Char)
    (env : create_env)
    (hc : port_create N s d (some name) env = (s1, retval.val id)) (h0 : 0 ≤ id)
    (hlen : name.length < N) :
    ∃ k, k < MAX_PORTS ∧ (s1.ports k).id = id ∧ (s1.ports k).name = some name ∧
      s1.ports_active = true ∧ ∀ j, j ≠ k → s1.ports j = s.ports j := by
  rcases port_create_cases_name N s d (some name) env with
    ⟨_, _, _, h⟩ | ⟨i, mem, h1, _, _, h4, _, _, _, _, h9⟩
  · rw [hc] at h
    have := h id rfl
    omega
  · rw [hc, port_create_at_eq] at h9
    have hs : s1 = _ := (Prod.mk.inj h9).1
    have hid : id = fresh_id s.next_port i := retval.val.inj (Prod.mk.inj h9).2
    have hname : strlcpy ((some name).getD "unnamed port".toList)
        (min (((some name).getD "unnamed port".toList).length + 1) N) = name := by
      simp only [Option.getD_some, strlcpy]
      rw [min_eq_left (by omega)]
      simp
    rw [hname] at hs
    refine ⟨i, h1, ?_, ?_, ?_, ?_⟩
    · rw [hs, hid]; simp
    · rw [hs]; simp
    · rw [hs]; exact h4
    · intro j hj
      rw [hs]
      simp [Function.update_noteq hj]

theorem port_get_next_loop_hit (N : Nat) (s : port_state) (proc : Int) (fuel slot : Nat)
    (info : port_info)
    (h : (s.ports slot).id ≠ -1 ∧ (s.ports slot).owner = proc) :
    port_get_next_loop N s proc (fuel + 1) slot info
      = (slot + 1, fill_port_info N s.sems (s.ports slot) info) := by
  simp only [port_get_next_loop]
  rw [if_pos h]

theorem st_full_next (k : Nat) (hk : k < MAX_PORTS) (info : port_info) :
    (port_get_next_port_info 32 st_full 7 (some k) (some info)).map
        (fun r => (r.ret, r.cookie, r.info.map port_info.id))
      = some (NO_ERROR, some (k + 1), some (k : Int)) := by
  have hk1 : k < 4096 := hk
  have hw : wrap32 (k : Int) = k := wrap32_eq_self _ (by omega) (by omega)
  have hslot : (if k = 0 then (0 : Int) else wrap32 (k : Int)) = (k : Int) := by
    by_cases h0 : k = 0
    · simp [h0]
    · rw [if_neg h0, hw]
  obtain ⟨n, hn⟩ : ∃ n, MAX_PORTS - k = n + 1 := ⟨MAX_PORTS - k - 1, by omega⟩
  have hlive : (st_full.ports k).id ≠ -1 ∧ (st_full.ports k).owner = 7 := by
    simp only [st_full, if_pos hk]
    constructor
    · omega
    · trivial
  unfold port_get_next_port_info
  dsimp only
  rw [hslot, if_neg (by simp [st_full]), if_neg (by omega), if_neg (by omega)]
  rw [Int.toNat_ofNat, hn, port_get_next_loop_hit _ _ _ _ _ _ hlive]
  have hid : (fill_port_info 32 st_full.sems (st_full.ports k) { info with id := -1 }).id
      = (k : Int) := by
    simp only [fill_port_info, st_full, if_pos hk]
  rw [if_neg (by rw [hid]; omega)]
  simp only [Option.map, hid]

theorem port_delete_live (s : port_state) (id : Int)
    (hact : s.ports_active = true) (h0 : 0 ≤ id) (hlive : (s.ports (slot_of id)).id = id) :
    port_delete s id =
      ({ s with ports := Function.update s.ports (slot_of id) (freed (s.ports (slot_of id))),
                sems := sem_delete (sem_delete s.sems (s.ports (slot_of id)).read_sem)
                          (s.ports (slot_of id)).write_sem }, NO_ERROR) := by
  unfold port_delete freed
  dsimp only
  rw [if_neg (by simp [hact]), if_neg (by omega), if_neg (by simp [hlive])]

theorem slot_of_eq (id : Int) (j : Nat) (h0 : 0 ≤ id) (h : id % (MAX_PORTS : Int) = (j : Int)) :
    slot_of id = j := by
  have := slot_of_cast id h0
  simp only [MAX_PORTS] at h
  omega

theorem port_delete_owned_loop_spec (T : Int) (fuel : Nat) :
    ∀ (i : Nat) (s : port_state) (count : Int), s.ports_active = true →
    (∀ j, i ≤ j → j < i + fuel →
      (s.ports j).id = -1 ∨
        (0 ≤ (s.ports j).id ∧ (s.ports j).id % (MAX_PORTS : Int) = (j : Int))) →
    (port_delete_owned_loop T fuel i s count).2
        = count + ((List.range' i fuel).countP (owned_by s T) : Nat) ∧
      (port_delete_owned_loop T fuel i s count).1.ports_active = true ∧
      (port_delete_owned_loop T fuel i s count).1.next_port = s.next_port ∧
      (∀ j, (port_delete_owned_loop T fuel i s count).1.ports j =
        if i ≤ j ∧ j < i + fuel ∧ owned_by s T j = true then freed (s.ports j)
        else s.ports j) ∧
      (port_delete_owned_loop T fuel i s count).1.sems.next_sem = s.sems.next_sem ∧
      (∀ h, (∀ j, i ≤ j → j < i + fuel → owned_by s T j = true →
          h ≠ (s.ports j).read_sem ∧ h ≠ (s.ports j).write_sem) →
        (port_delete_owned_loop T fuel i s count).1.sems.count h = s.sems.count h) := by
  induction fuel with
  | zero =>
    intro i s count hact hid
    refine ⟨by simp [port_delete_owned_loop], hact, rfl, ?_, rfl, fun h _ => rfl⟩
    intro j
    rw [if_neg (by omega)]
    rfl
  | succ n ih =>
    intro i s count hact hid
    unfold port_delete_owned_loop
    by_cases ho : (s.ports i).id ≠ -1 ∧ (s.ports i).owner = T
    · rw [if_pos ho]
      dsimp only
      have hown : owned_by s T i = true := by simp [owned_by, ho]
      have hwf := hid i (le_refl _) (by omega)
      have h0 : 0 ≤ (s.ports i).id := by
        rcases hwf with h | h
        · exact absurd h ho.1
        · exact h.1
      have hslot : slot_of (s.ports i).id = i := by
        rcases hwf with h | h
        · exact absurd h ho.1
        · exact slot_of_eq _ _ h.1 h.2
      have hdel := port_delete_live s (s.ports i).id hact h0 (by rw [hslot])
      rw [hslot] at hdel
      rw [hdel]
      dsimp only
      have hp1 : ∀ j, j ≠ i →
          (Function.update s.ports i (freed (s.ports i))) j = s.ports j :=
        fun j hj => Function.update_noteq hj _ _
      have hown1 : ∀ j, j ≠ i →
          owned_by
            { s with ports := Function.update s.ports i (freed (s.ports i)),
                     sems := sem_delete (sem_delete s.sems (s.ports i).read_sem)
                               (s.ports i).write_sem } T j = owned_by s T j := by
        intro j hj
        simp only [owned_by, hp1 j hj]
      obtain ⟨r1, r2, r3, r4, r5, r6⟩ := ih (i + 1)
        { s with ports := Function.update s.ports i (freed (s.ports i)),
                 sems := sem_delete (sem_delete s.sems (s.ports i).read_sem)
                           (s.ports i).write_sem } (count + 1) hact
        (fun j h1 h2 => by
          dsimp only
          rw [hp1 j (by omega)]
          exact hid j (by omega) (by omega))
      refine ⟨?_, r2, r3, ?_, r5, ?_⟩
      · rw [r1, List.range'_succ, List.countP_cons_of_pos _ _ hown]
        have hc : (List.range' (i + 1) n).countP
            (owned_by
              { s with ports := Function.update s.ports i (freed (s.ports i)),
                       sems := sem_delete (sem_delete s.sems (s.ports i).read_sem)
                                 (s.ports i).write_sem } T)
            = (List.range' (i + 1) n).countP (owned_by s T) := by
          apply List.countP_congr
          intro j hj
          have := (List.mem_range'_1.mp hj).1
          rw [hown1 j (by omega)]
        rw [hc]
        push_cast
        omega
      · intro j
        rw [r4 j]
        by_cases hj : j = i
        · subst hj
          rw [if_neg (by omega), if_pos ⟨le_refl _, by omega, hown⟩]
          simp
        · dsimp only
          rw [hown1 j hj, hp1 j hj]
          by_cases hc : i + 1 ≤ j ∧ j < i + 1 + n ∧ owned_by s T j = true
          · rw [if_pos hc, if_pos ⟨by omega, by omega, hc.2.2⟩]
          · rw [if_neg hc, if_neg (fun h => hc ⟨by omega, by omega, h.2.2⟩)]
      · intro h hh
        rw [r6 h (fun j h1 h2 h3 => by
          dsimp only
          rw [hp1 j (by omega)]
          exact hh j (by omega) (by omega) (by rw [← hown1 j (by omega)]; exact h3))]
        have hi := hh i (le_refl _) (by omega) hown
        simp only [sem_delete]
        rw [Function.update_noteq hi.2, Function.update_noteq hi.1]
    · rw [if_neg ho]
      have hown : ¬ owned_by s T i = true := by simp [owned_by]; exact fun h => (not_and.mp ho) h
      obtain ⟨r1, r2, r3, r4, r5, r6⟩ := ih (i + 1) s count hact
        (fun j h1 h2 => hid j (by omega) (by omega))
      refine ⟨?_, r2, r3, ?_, r5, ?_⟩
      · rw [r1, List.range'_succ, List.countP_cons_of_neg _ _ hown]
      · intro j
        rw [r4 j]
        by_cases hc : i + 1 ≤ j ∧ j < i + 1 + n ∧ owned_by s T j = true
        · rw [if_pos hc, if_pos ⟨by omega, by omega, hc.2.2⟩]
        · rw [if_neg hc, if_neg]
          rintro ⟨h1, h2, h3⟩
          by_cases hj : j = i
          · subst hj; exact hown h3
          · exact hc ⟨by omega, by omega, h3⟩
      · intro h hh
        exact r6 h (fun j h1 h2 h3 => hh j (by omega) (by omega) h3)

theorem st_abc_ports :
    ∃ e0 e1 e2 e3, st_abc.ports =
      Function.update (Function.update (Function.update (Function.update
        (fun _ => free_entry) 0 e0) 1 e1) 2 e2) 1 e3 :=
  ⟨_, _, _, _, rfl⟩

theorem st_abc_owned : (List.range MAX_PORTS).countP (owned_by st_abc 7) = 2 := by
  have hfree : ∀ j, 3 ≤ j → owned_by st_abc 7 j = false := by
    intro j hj
    obtain ⟨e0, e1, e2, e3, h⟩ := st_abc_ports
    simp only [owned_by, h]
    rw [Function.update_noteq (by omega), Function.update_noteq (by omega),
      Function.update_noteq (by omega), Function.update_noteq (by omega)]
    decide
  have hsplit : List.range MAX_PORTS = List.range' 0 3 ++ List.range' 3 4093 := by
    rw [List.range_eq_range', List.range'_append_1]
  rw [hsplit, List.countP_append]
  have h2 : (List.range' 3 4093).countP (owned_by st_abc 7) = 0 := by
    rw [List.countP_eq_zero]
    intro j hj
    rw [hfree j (List.mem_range'_1.mp hj).1]
    simp
  rw [h2]
  decide

theorem st_abc_run :
    port_run 32 st_init ops_abc
      = some (st_abc, [retval.val 0, retval.val 1, retval.val 2, NO_ERROR]) := by
  rfl

theorem st_abc_id_inv : id_inv st_abc :=
  (port_run_id_inv 32 st_init st_abc ops_abc _ (id_inv_init sem_empty) st_abc_run
    (by decide)).1

theorem port_create_loop_full (s : port_state) (ql : Int) (tn : List Char) (sr sw : Int)
    (q : List port_msg) (ow : Int) (fuel i0 : Nat)
    (h : ∀ j, i0 ≤ j → j < i0 + fuel → (s.ports j).id ≠ -1) :
    port_create_loop s ql tn sr sw q ow fuel i0 = none := by
  induction fuel generalizing i0 with
  | zero => rfl
  | succ n ih =>
    unfold port_create_loop
    rw [if_neg (h i0 (le_refl _) (by omega))]
    exact ih (i0 + 1) (fun j h1 h2 => h j (by omega) (by omega))

theorem port_create_loop_first (s : port_state) (ql : Int) (tn : List Char) (sr sw : Int)
    (q : List port_msg) (ow : Int) (fuel i0 i : Nat)
    (h1 : i0 ≤ i) (h2 : i < i0 + fuel) (hfree : (s.ports i).id = -1)
    (hfirst : ∀ j, i0 ≤ j → j < i → (s.ports j).id ≠ -1) :
    port_create_loop s ql tn sr sw q ow fuel i0 = some (port_create_at s i ql tn sr sw q ow) := by
  induction fuel generalizing i0 with
  | zero => omega
  | succ n ih =>
    unfold port_create_loop
    by_cases hi : i0 = i
    · subst hi
      rw [if_pos hfree]
    · rw [if_neg (hfirst i0 (le_refl _) (by omega))]
      exact ih (i0 + 1) (by omega) (by omega) (fun j h3 h4 => hfirst j (by omega) h4)

theorem port_create_env_ok (N : Nat) (s : port_state) (ql : Int) (name : Option (List Char))
    (env : create_env) (mem : Nat → port_msg)
    (hact : s.ports_active = true) (hname : env.name_mem = true)
    (hq1 : 1 ≤ ql) (hq2 : ql ≤ MAX_QUEUE_LENGTH) (hmem : env.queue_mem = some mem)
    (hr : env.sem_r_fail = none) (hw : env.sem_w_fail = none) (hs : 0 ≤ s.sems.next_sem) :
    port_create N s ql name env =
      match port_create_loop { s with sems := sems_created s.sems ql } ql
          (strlcpy (name.getD "unnamed port".toList)
            (min ((name.getD "unnamed port".toList).length + 1) N))
          s.sems.next_sem (s.sems.next_sem + 1) ((List.range ql.toNat).map mem) env.owner
          MAX_PORTS 0 with
      | some r => r
      | none =>
        ({ s with sems := sem_delete (sem_delete (sems_created s.sems ql) (s.sems.next_sem + 1))
                    s.sems.next_sem },
         retval.err errcode.ERR_PORT_OUT_OF_SLOTS) := by
  unfold port_create
  rw [if_neg (by simp [hact])]
  simp only [if_neg (show ¬ env.name_mem = false by simp [hname])]
  rw [if_neg (by omega)]
  simp only [hmem, hr, hw, sem_create_etc]
  rw [if_neg (by omega), if_neg (by omega)]
  rfl

theorem fresh_id_nonneg (np : Int) (i : Nat) (h0 : 0 ≤ np) (hi : i < MAX_PORTS)
    (hnw : np + MAX_PORTS ≤ 2147483648) : 0 ≤ fresh_id np i := by
  unfold fresh_id
  rw [Int.tmod_eq_emod h0 (by decide)]
  simp only [MAX_PORTS] at *
  unfold wrap32
  push_cast at *
  split_ifs <;> omega

theorem ring_ok_next (x cap : Int) (h0 : 0 ≤ x) (h1 : x < cap) (h2 : cap ≤ MAX_QUEUE_LENGTH) :
    0 ≤ Int.tmod (wrap32 (x + 1)) cap ∧ Int.tmod (wrap32 (x + 1)) cap < cap := by
  rw [ring_next x cap h0 h1 h2]
  exact ⟨Int.emod_nonneg _ (by omega), Int.emod_lt_of_pos _ (by omega)⟩

theorem slot_inv_init (P : port_entry → Prop) (sems : sem_table) :
    slot_inv P (port_init (port_statics sems)) :=
  fun i _ h => absurd rfl h

theorem slot_inv_update (P : port_entry → Prop) (s s1 : port_state) (k : Nat) (e : port_entry)
    (hp : s1.ports = Function.update s.ports k e)
    (hinv : slot_inv P s) (he : e.id ≠ -1 → P e) : slot_inv P s1 := by
  intro i hi hl
  rw [hp] at hl ⊢
  by_cases hik : i = k
  · subst hik
    rw [Function.update_same] at hl ⊢
    exact he hl
  · rw [Function.update_noteq hik] at hl ⊢
    exact hinv i hi hl

theorem slot_inv_close (P : port_entry → Prop) (hP : entry_stable P) (s : port_state) (id : Int)
    (hinv : slot_inv P s) : slot_inv P (port_close s id).1 := by
  unfold port_close
  by_cases h1 : s.ports_active = false
  · rw [if_pos h1]; exact hinv
  rw [if_neg h1]
  by_cases h2 : id < 0
  · rw [if_pos h2]; exact hinv
  rw [if_neg h2]
  dsimp only
  by_cases h3 : (s.ports (slot_of id)).id ≠ id
  · rw [if_pos h3]; exact hinv
  rw [if_neg h3]
  have hl : (s.ports (slot_of id)).id ≠ -1 := by
    have : (s.ports (slot_of id)).id = id := not_not.mp h3
    omega
  exact slot_inv_update P s _ _ _ rfl hinv
    (fun _ => hP.1 _ (hinv _ (slot_of_lt id (by omega)) hl))

theorem slot_inv_set_owner (P : port_entry → Prop) (hP : entry_stable P) (s : port_state)
    (id proc : Int) (hinv : slot_inv P s) : slot_inv P (port_set_owner s id proc).1 := by
  unfold port_set_owner
  by_cases h1 : s.ports_active = false
  · rw [if_pos h1]; exact hinv
  rw [if_neg h1]
  by_cases h2 : id < 0
  · rw [if_pos h2]; exact hinv
  rw [if_neg h2]
  dsimp only
  by_cases h3 : (s.ports (slot_of id)).id ≠ id
  · rw [if_pos h3]; exact hinv
  rw [if_neg h3]
  have hl : (s.ports (slot_of id)).id ≠ -1 := by
    have : (s.ports (slot_of id)).id = id := not_not.mp h3
    omega
  exact slot_inv_update P s _ _ _ rfl hinv
    (fun _ => hP.2.1 _ _ (hinv _ (slot_of_lt id (by omega)) hl))

theorem slot_inv_delete (P : port_entry → Prop) (s : port_state) (id : Int)
    (hinv : slot_inv P s) : slot_inv P (port_delete s id).1 := by
  unfold port_delete
  by_cases h1 : s.ports_active = false
  · rw [if_pos h1]; exact hinv
  rw [if_neg h1]
  by_cases h2 : id < 0
  · rw [if_pos h2]; exact hinv
  rw [if_neg h2]
  dsimp only
  by_cases h3 : (s.ports (slot_of id)).id ≠ id
  · rw [if_pos h3]; exact hinv
  rw [if_neg h3]
  exact slot_inv_update P s _ _ _ rfl hinv (fun h => absurd rfl h)

theorem slot_inv_delete_owned_loop (P : port_entry → Prop) (owner : Int) (fuel i : Nat)
    (s : port_state) (count : Int) (hinv : slot_inv P s) :
    slot_inv P (port_delete_owned_loop owner fuel i s count).1 := by
  induction fuel generalizing i s count with
  | zero => exact hinv
  | succ n ih =>
    unfold port_delete_owned_loop
    by_cases h : (s.ports i).id ≠ -1 ∧ (s.ports i).owner = owner
    · rw [if_pos h]
      exact ih _ _ _ (slot_inv_delete P s _ hinv)
    · rw [if_neg h]
      exact ih _ _ _ hinv

theorem slot_inv_delete_owned_ports (P : port_entry → Prop) (s : port_state) (owner : Int)
    (hinv : slot_inv P s) : slot_inv P (port_delete_owned_ports s owner).1 := by
  unfold port_delete_owned_ports
  by_cases h1 : s.ports_active = false
  · rw [if_pos h1]; exact hinv
  rw [if_neg h1]
  exact slot_inv_delete_owned_loop P _ _ _ _ _ hinv

theorem slot_inv_create (P : port_entry → Prop) (hP : entry_stable P) (N : Nat)
    (s : port_state) (ql : Int) (name : Option (List Char)) (env : create_env)
    (hinv : slot_inv P s) : slot_inv P (port_create N s ql name env).1 := by
  rcases port_create_cases_name N s ql name env with
    ⟨t, h, _⟩ | ⟨i, mem, h1, _, _, _, h5, h6, _, _, h9⟩
  · rw [h]; exact hinv
  · rw [h9, port_create_at_eq]
    apply slot_inv_update P s _ i _ rfl hinv
    intro _
    exact hP.2.2.2.2 _ _ _ _ _ _ _ _ h5 h6

theorem slot_inv_read (P : port_entry → Prop) (hP : entry_stable P) (s : port_state) (id : Int)
    (msg_code : Option Int) (msg_buffer : Option (List Nat)) (buffer_size : Nat)
    (flags : port_flags) (timeout : Int) (env : read_env) (r : read_result)
    (hinv : slot_inv P s)
    (h : port_read_etc s id msg_code msg_buffer buffer_size flags timeout env = some r) :
    slot_inv P r.state := by
  rcases port_read_etc_cases s id msg_code msg_buffer buffer_size flags timeout env r h with
    ⟨e, he⟩ | ⟨c, _, h0, hlive, _, _, _, _, _, hd⟩
  · rw [he]; exact hinv
  · obtain ⟨m, _, _, _, hst, _⟩ := port_read_dequeue_cases _ _ _ _ _ _ _ hd
    rw [hst]
    have hl : (s.ports (slot_of id)).id ≠ -1 := by omega
    exact slot_inv_update P s _ _ _ rfl hinv
      (fun _ => hP.2.2.1 _ _ (hinv _ (slot_of_lt id h0) hl))

theorem slot_inv_write (P : port_entry → Prop) (hP : entry_stable P) (s : port_state)
    (id : Int) (msg_code : Int) (msg : List Nat) (flags : port_flags) (timeout : Int)
    (env : write_env) (r : port_state × retval) (hinv : slot_inv P s)
    (h : port_write_etc s id msg_code msg flags timeout env = some r) :
    slot_inv P r.1 := by
  rcases port_write_etc_cases s id msg_code msg flags timeout env r h with
    ⟨e, he⟩ | ⟨c, _, h0, hlive, _, _, _, _, ⟨_, _, _, hst⟩ | ⟨_, ha⟩⟩
  · rw [he]; exact hinv
  · rw [hst]; exact hinv
  · obtain ⟨_, _, _, hr⟩ := port_write_attach_cases _ _ _ _ _ _ ha
    rw [hr]
    have hl : (s.ports (slot_of id)).id ≠ -1 := by omega
    exact slot_inv_update P s _ _ _ rfl hinv
      (fun _ => hP.2.2.2.1 _ _ _ _ (hinv _ (slot_of_lt id h0) hl))

theorem slot_inv_buffer_size (P : port_entry → Prop) (s : port_state) (id : Int)
    (flags : port_flags) (timeout : Int) (wait : errcode) (r : port_state × retval)
    (hinv : slot_inv P s)
    (h : port_buffer_size_etc s id flags timeout wait = some r) :
    slot_inv P r.1 := by
  rcases port_buffer_size_etc_cases s id flags timeout wait r h with
    ⟨e, he⟩ | ⟨_, _, _, ⟨c, _, _, hp⟩ | ⟨_, _, _, hp⟩⟩
  · rw [he]; exact hinv
  · obtain ⟨m, _, _, _, hr⟩ := port_buffer_size_peek_cases _ _ _ hp
    rw [hr]; exact hinv
  · obtain ⟨m, _, _, _, hr⟩ := port_buffer_size_peek_cases _ _ _ hp
    rw [hr]; exact hinv

theorem slot_inv_step (P : port_entry → Prop) (hP : entry_stable P) (N : Nat)
    (s s1 : port_state) (op : port_op) (r : retval)
    (hinv : slot_inv P s) (h : port_step N s op = some (s1, r)) : slot_inv P s1 := by
  cases op with
  | create ql name env =>
    simp only [port_step, Option.some.injEq] at h
    have e : s1 = (port_create N s ql name env).1 := by rw [h]
    rw [e]; exact slot_inv_create P hP N s ql name env hinv
  | close id =>
    simp only [port_step, Option.some.injEq] at h
    have e : s1 = (port_close s id).1 := by rw [h]
    rw [e]; exact slot_inv_close P hP s id hinv
  | delete id =>
    simp only [port_step, Option.some.injEq] at h
    have e : s1 = (port_delete s id).1 := by rw [h]
    rw [e]; exact slot_inv_delete P s id hinv
  | set_owner id proc =>
    simp only [port_step, Option.some.injEq] at h
    have e : s1 = (port_set_owner s id proc).1 := by rw [h]
    rw [e]; exact slot_inv_set_owner P hP s id proc hinv
  | read id msg_code msg_buffer buffer_size flags timeout env =>
    simp only [port_step, Option.map_eq_some'] at h
    obtain ⟨rr, hr, he⟩ := h
    have := slot_inv_read P hP s id msg_code msg_buffer buffer_size flags timeout env rr hinv hr
    rw [← (Prod.mk.inj he).1]; exact this
  | write id msg_code msg flags timeout env =>
    simp only [port_step] at h
    exact slot_inv_write P hP s id msg_code msg flags timeout env (s1, r) hinv h
  | buffer_size id flags timeout wait =>
    simp only [port_step] at h
    exact slot_inv_buffer_size P s id flags timeout wait (s1, r) hinv h
  | delete_owned_ports owner =>
    simp only [port_step, Option.some.injEq] at h
    have e : s1 = (port_delete_owned_ports s owner).1 := by rw [h]
    rw [e]; exact slot_inv_delete_owned_ports P s owner hinv

theorem slot_inv_run (P : port_entry → Prop) (hP : entry_stable P) (N : Nat)
    (s s1 : port_state) (ops : List port_op) (rs : List retval)
    (hinv : slot_inv P s) (h : port_run N s ops = some (s1, rs)) : slot_inv P s1 := by
  induction ops generalizing s rs with
  | nil =>
    simp only [port_run, Option.some.injEq] at h
    rw [← (Prod.mk.inj h).1]; exact hinv
  | cons op ops ih =>
    obtain ⟨s0, r, rs1, hs, hr, _⟩ := port_run_cons N s s1 op ops rs h
    exact ih s0 rs1 (slot_inv_step P hP N s s0 op r hinv hs) hr

theorem ring_ok_stable : entry_stable ring_ok := by
  refine ⟨fun p h => h, fun p proc h => h, ?_, ?_, ?_⟩
  · rintro p m ⟨r1, r2, r3, r4, r5, r6, r7⟩
    have hn := ring_ok_next _ _ r6 r7 r2
    exact ⟨r1, r2, by simp [dequeued, r3], r4, r5, hn.1, hn.2⟩
  · rintro p c st n ⟨r1, r2, r3, r4, r5, r6, r7⟩
    have hn := ring_ok_next _ _ r4 r5 r2
    exact ⟨r1, r2, by simp [enqueued, r3], hn.1, hn.2, r6, r7⟩
  · intro p id ql tn sr sw mem ow h5 h6
    unfold ring_ok
    dsimp only
    exact ⟨h5, h6, by simp, le_refl _, by omega, le_refl _, by omega⟩

theorem ring_inv_run (N : Nat) (sems : sem_table) (s1 : port_state) (ops : List port_op)
    (rs : List retval) (h : port_run N (port_init (port_statics sems)) ops = some (s1, rs)) :
    ring_inv s1 :=
  slot_inv_run ring_ok ring_ok_stable N _ s1 ops rs (slot_inv_init ring_ok sems) h

theorem names_stable : entry_stable (fun p => p.name ≠ none) := by
  refine ⟨fun p h => h, fun p proc h => h, fun p m h => h, fun p c st n h => h, ?_⟩
  intro p id ql tn sr sw mem ow _ _
  simp

theorem names_inv_run (N : Nat) (sems : sem_table) (s1 : port_state) (ops : List port_op)
    (rs : List retval) (h : port_run N (port_init (port_statics sems)) ops = some (s1, rs)) :
    names_inv s1 :=
  slot_inv_run (fun p => p.name ≠ none) names_stable N _ s1 ops rs
    (slot_inv_init _ sems) h

theorem st_p1_run :
    port_run 32 (port_init (port_statics sem_empty))
        [port_op.create 1 (some "test port #1".toList) env_ok]
      = some (st_p1, [retval.val 0]) := by
  rfl

theorem port_write_attach_some (s : port_state) (slot : Nat) (msg_code : Int)
    (msg_store : Option cbuf) (buffer_size : Nat) (h : ring_ok (s.ports slot)) :
    (port_write_attach s slot msg_code msg_store buffer_size).isSome = true := by
  obtain ⟨r1, r2, r3, r4, r5, r6, r7⟩ := h
  unfold port_write_attach
  dsimp only
  rw [if_neg (by omega), if_neg (by omega), if_neg (by omega)]
  rfl

theorem port_buffer_size_peek_some (s : port_state) (slot : Nat) (h : ring_ok (s.ports slot)) :
    (port_buffer_size_peek s slot).isSome = true := by
  obtain ⟨r1, r2, r3, r4, r5, r6, r7⟩ := h
  have hlt : (s.ports slot).head.toNat < (s.ports slot).msg_queue.length := by omega
  unfold port_buffer_size_peek
  dsimp only
  rw [if_neg (by omega), if_neg (by omega), List.get?_eq_get hlt]
  rfl

theorem port_write_etc_some (s : port_state) (id : Int) (msg_code : Int) (msg : List Nat)
    (flags : port_flags) (timeout : Int) (env : write_env) (hinv : ring_inv s) :
    (port_write_etc s id msg_code msg flags timeout env).isSome = true := by
  unfold port_write_etc
  dsimp only
  by_cases h1 : s.ports_active = false
  · rw [if_pos h1]; rfl
  rw [if_neg h1]
  by_cases h2 : id < 0
  · rw [if_pos h2]; rfl
  rw [if_neg h2]
  by_cases h3 : msg.length > PORT_MAX_MESSAGE_SIZE
  · rw [if_pos h3]; rfl
  rw [if_neg h3]
  by_cases h4 : (s.ports (slot_of id)).id ≠ id
  · rw [if_pos h4]; rfl
  rw [if_neg h4]
  by_cases h5 : (s.ports (slot_of id)).closed = true
  · rw [if_pos h5]; rfl
  rw [if_neg h5]
  by_cases h6 : (sem_acquire_etc s.sems (s.ports (slot_of id)).write_sem env.wait).2
      = retval.err errcode.ERR_SEM_DELETED
  · rw [if_pos h6]; rfl
  rw [if_neg h6]
  by_cases h7 : (sem_acquire_etc s.sems (s.ports (slot_of id)).write_sem env.wait).2
      = retval.err errcode.ERR_SEM_TIMED_OUT
  · rw [if_pos h7]; rfl
  rw [if_neg h7]
  by_cases h8 : (sem_acquire_etc s.sems (s.ports (slot_of id)).write_sem env.wait).2 ≠ NO_ERROR
  · rw [if_pos h8]; rfl
  rw [if_neg h8]
  by_cases h9 : msg.length > 0 ∧ env.chain_mem = false
  · rw [if_pos h9]; rfl
  rw [if_neg h9]
  by_cases h10 : msg.length > 0 ∧ env.copy.neg = true
  · rw [if_pos h10]; rfl
  rw [if_neg h10]
  have hl : (s.ports (slot_of id)).id ≠ -1 := by
    have : (s.ports (slot_of id)).id = id := not_not.mp h4
    omega
  exact port_write_attach_some _ _ _ _ _ (hinv _ (slot_of_lt id (by omega)) hl)

theorem port_buffer_size_etc_some (s : port_state) (id : Int) (flags : port_flags)
    (timeout : Int) (wait : errcode) (hinv : ring_inv s) :
    (port_buffer_size_etc s id flags timeout wait).isSome = true := by
  unfold port_buffer_size_etc
  dsimp only
  by_cases h1 : s.ports_active = false
  · rw [if_pos h1]; rfl
  rw [if_neg h1]
  by_cases h2 : id < 0
  · rw [if_pos h2]; rfl
  rw [if_neg h2]
  by_cases h4 : (s.ports (slot_of id)).id ≠ id
  · rw [if_pos h4]; rfl
  rw [if_neg h4]
  by_cases h6 : (sem_acquire_etc s.sems (s.ports (slot_of id)).read_sem wait).2
      = retval.err errcode.ERR_SEM_DELETED
  · rw [if_pos h6]; rfl
  rw [if_neg h6]
  by_cases h7 : (sem_acquire_etc s.sems (s.ports (slot_of id)).read_sem wait).2
      = retval.err errcode.ERR_SEM_TIMED_OUT
  · rw [if_pos h7]; rfl
  rw [if_neg h7]
  have hl : (s.ports (slot_of id)).id ≠ -1 := by
    have : (s.ports (slot_of id)).id = id := not_not.mp h4
    omega
  exact port_buffer_size_peek_some _ _ (hinv _ (slot_of_lt id (by omega)) hl)

theorem port_read_dequeue_none (s : port_state) (slot : Nat) (msg_buffer : Option (List Nat))
    (buffer_size : Nat) (flags : port_flags) (env : read_env) (hok : ring_ok (s.ports slot))
    (h : port_read_dequeue s slot msg_buffer buffer_size flags env = none) :
    ∃ m, (s.ports slot).msg_queue.get? (s.ports slot).tail.toNat = some m ∧
      m.data_cbuf = none ∧ 0 < min buffer_size m.data_len := by
  obtain ⟨r1, r2, r3, r4, r5, r6, r7⟩ := hok
  have hlt : (s.ports slot).tail.toNat < (s.ports slot).msg_queue.length := by omega
  unfold port_read_dequeue at h
  dsimp only at h
  rw [if_neg (by omega), if_neg (by omega), List.get?_eq_get hlt] at h
  dsimp only at h
  refine ⟨(s.ports slot).msg_queue.get ⟨(s.ports slot).tail.toNat, hlt⟩,
    List.get?_eq_get hlt, ?_⟩
  generalize (s.ports slot).msg_queue.get ⟨(s.ports slot).tail.toNat, hlt⟩ = m at h ⊢
  by_cases hsiz : min buffer_size m.data_len > 0
  · rw [if_pos hsiz] at h
    refine ⟨?_, hsiz⟩
    cases hc : m.data_cbuf with
    | none => rfl
    | some chain =>
      rw [hc] at h
      by_cases hu : flags.use_user_memcpy = true
      · rw [if_pos hu] at h
        by_cases he : (if env.copy.neg = true then (1 : Int) else 0) ≠ 0
        · rw [if_pos he] at h
          exact absurd h (by simp)
        · rw [if_neg he] at h
          exact absurd h (by simp)
      · rw [if_neg hu] at h
        exact absurd h (by simp)
  · rw [if_neg hsiz] at h
    exact absurd h (by simp)

theorem port_read_etc_none (s : port_state) (id : Int) (msg_code : Option Int)
    (msg_buffer : Option (List Nat)) (buffer_size : Nat) (flags : port_flags)
    (timeout : Int) (env : read_env) (hinv : ring_inv s)
    (h : port_read_etc s id msg_code msg_buffer buffer_size flags timeout env = none) :
    ∃ m, (s.ports (slot_of id)).msg_queue.get? (s.ports (slot_of id)).tail.toNat = some m ∧
      m.data_cbuf = none ∧ 0 < min buffer_size m.data_len := by
  unfold port_read_etc at h
  dsimp only at h
  by_cases h1 : s.ports_active = false
  · rw [if_pos h1] at h; exact absurd h (by simp)
  rw [if_neg h1] at h
  by_cases h2 : id < 0
  · rw [if_pos h2] at h; exact absurd h (by simp)
  rw [if_neg h2] at h
  by_cases h3 : msg_code = none
  · rw [if_pos h3] at h; exact absurd h (by simp)
  rw [if_neg h3] at h
  by_cases h3b : msg_buffer = none ∧ buffer_size > 0
  · rw [if_pos h3b] at h; exact absurd h (by simp)
  rw [if_neg h3b] at h
  by_cases h3c : timeout < 0
  · rw [if_pos h3c] at h; exact absurd h (by simp)
  rw [if_neg h3c] at h
  by_cases h4 : (s.ports (slot_of id)).id ≠ id
  · rw [if_pos h4] at h; exact absurd h (by simp)
  rw [if_neg h4] at h
  by_cases h6 : (sem_acquire_etc s.sems (s.ports (slot_of id)).read_sem env.wait).2
      = retval.err errcode.ERR_SEM_DELETED
  · rw [if_pos h6] at h; exact absurd h (by simp)
  rw [if_neg h6] at h
  by_cases h6b : (sem_acquire_etc s.sems (s.ports (slot_of id)).read_sem env.wait).2
      = retval.err errcode.ERR_INTERRUPTED
  · rw [if_pos h6b] at h; exact absurd h (by simp)
  rw [if_neg h6b] at h
  by_cases h7 : (sem_acquire_etc s.sems (s.ports (slot_of id)).read_sem env.wait).2
      = retval.err errcode.ERR_SEM_TIMED_OUT
  · rw [if_pos h7] at h; exact absurd h (by simp)
  rw [if_neg h7] at h
  by_cases h8 : (sem_acquire_etc s.sems (s.ports (slot_of id)).read_sem env.wait).2 ≠ NO_ERROR
  · rw [if_pos h8] at h; exact absurd h (by simp)
  rw [if_neg h8] at h
  have hl : (s.ports (slot_of id)).id ≠ -1 := by
    have : (s.ports (slot_of id)).id = id := not_not.mp h4
    omega
  exact port_read_dequeue_none
    { s with sems := (sem_acquire_etc s.sems (s.ports (slot_of id)).read_sem env.wait).1 }
    _ _ _ _ _ (hinv _ (slot_of_lt id (by omega)) hl) h

theorem st_peek_run :
    port_run 32 (port_init (port_statics sem_empty)) ops_peek
      = some (st_peek, [retval.val 0, NO_ERROR, NO_ERROR, retval.val 5]) := by
  rfl

theorem port_state_ext (a b : port_state) (h1 : a.ports = b.ports)
    (h2 : a.ports_active = b.ports_active) (h3 : a.next_port = b.next_port)
    (h4 : a.sems = b.sems) : a = b := by
  cases a
  cases b
  simp only [port_state.mk.injEq]
  exact ⟨h1, h2, h3, h4⟩

theorem st_filled_zero : st_filled 0 = st_init := by
  unfold st_filled st_init port_init port_statics sem_empty
  congr 1
  congr 1
  funext h
  rw [if_neg (by omega)]

theorem st_filled_full : st_filled MAX_PORTS = st_full := by
  rfl

theorem fresh_id_self (k : Nat) (hk : k < MAX_PORTS) : fresh_id (k : Int) k = k := by
  unfold fresh_id
  rw [Int.tmod_eq_emod (by omega) (by decide)]
  simp only [MAX_PORTS] at *
  unfold wrap32
  push_cast
  split_ifs <;> omega

theorem st_filled_create (k : Nat) (hk : k < MAX_PORTS) :
    port_create 32 (st_filled k) 1 none env_ok = (st_filled (k + 1), retval.val k) := by
  have hc := port_create_env_ok 32 (st_filled k) 1 none env_ok (fun _ => ⟨0, none, 0⟩)
    rfl rfl (by decide) (by decide) rfl rfl rfl
    (by simp only [st_filled]; omega)
  have hl := port_create_loop_first
    { st_filled k with sems := sems_created (st_filled k).sems 1 } 1
    (strlcpy ((none : Option (List Char)).getD "unnamed port".toList)
      (min (((none : Option (List Char)).getD "unnamed port".toList).length + 1) 32))
    (st_filled k).sems.next_sem ((st_filled k).sems.next_sem + 1)
    ((List.range (1 : Int).toNat).map (fun _ => (⟨0, none, 0⟩ : port_msg))) env_ok.owner
    MAX_PORTS 0 k (Nat.zero_le _) (by omega)
    (by simp only [st_filled, if_neg (Nat.lt_irrefl k)]; rfl)
    (fun j _ hj => by simp only [st_filled, if_pos hj]; omega)
  rw [hc, hl]
  dsimp only
  rw [port_create_at_eq]
  dsimp only
  have hnp : (st_filled k).next_port = (k : Int) := rfl
  have hns : (st_filled k).sems.next_sem = 2 * (k : Int) := rfl
  have hpk : (st_filled k).ports k = free_entry := by
    simp only [st_filled, if_neg (Nat.lt_irrefl k)]
  rw [hnp, hns, hpk, fresh_id_self k hk]
  have hw : wrap32 ((k : Int) + 1) = ((k + 1 : Nat) : Int) := by
    have hk1 : k < 4096 := hk
    rw [wrap32_eq_self _ (by omega) (by omega)]
    push_cast
    rfl
  rw [hw]
  refine Prod.ext (port_state_ext _ _ ?_ rfl rfl ?_) rfl
  · funext i
    show Function.update (st_filled k).ports k _ i = (st_filled (k + 1)).ports i
    by_cases hi : i = k
    · subst hi
      rw [Function.update_same]
      simp only [st_filled, if_pos (Nat.lt_succ_self i)]
      rfl
    · rw [Function.update_noteq hi]
      simp only [st_filled]
      by_cases hik : i < k
      · rw [if_pos hik, if_pos (by omega)]
      · rw [if_neg hik, if_neg (by omega)]
  · show sems_created (st_filled k).sems 1 = (st_filled (k + 1)).sems
    apply sem_table_ext
    · show 2 * (k : Int) + 1 + 1 = (2 * ((k + 1 : Nat) : Int))
      push_cast
      omega
    · intro h
      show Function.update (Function.update (st_filled k).sems.count (2 * (k : Int)) (some 0))
            (2 * (k : Int) + 1) (some 1) h
        = (if 0 ≤ h ∧ h < 2 * ((k + 1 : Nat) : Int) then some (if h % 2 = 0 then (0 : Int) else 1)
          else none)
      by_cases h1 : h = 2 * (k : Int) + 1
      · subst h1
        rw [Function.update_same, if_pos (by push_cast; omega), if_neg (by omega)]
      · rw [Function.update_noteq h1]
        by_cases h2 : h = 2 * (k : Int)
        · subst h2
          rw [Function.update_same, if_pos (by push_cast; omega), if_pos (by omega)]
        · rw [Function.update_noteq h2]
          show (if 0 ≤ h ∧ h < 2 * (k : Int) then some (if h % 2 = 0 then (0 : Int) else 1)
            else none) = _
          by_cases h3 : 0 ≤ h ∧ h < 2 * (k : Int)
          · rw [if_pos h3,
              if_pos (show 0 ≤ h ∧ h < 2 * ((k + 1 : Nat) : Int) by push_cast; omega)]
          · rw [if_neg h3,
              if_neg (show ¬ (0 ≤ h ∧ h < 2 * ((k + 1 : Nat) : Int)) by push_cast; omega)]

theorem st_filled_run (n k : Nat) (h : k + n ≤ MAX_PORTS) :
    port_run 32 (st_filled k) (List.replicate n (port_op.create 1 none env_ok))
      = some (st_filled (k + n), (List.range' k n).map (fun (i : Nat) => retval.val i)) := by
  induction n generalizing k with
  | zero => rfl
  | succ m ih =>
    rw [List.replicate_succ, List.range'_succ]
    simp only [port_run, port_step]
    rw [st_filled_create k (by omega)]
    dsimp only
    rw [ih (k + 1) (by omega)]
    simp only [List.map_cons]
    congr 3
    omega

theorem st_full_reachable :
    port_run 32 st_init (List.replicate MAX_PORTS (port_op.create 1 none env_ok))
      = some (st_full, (List.range MAX_PORTS).map (fun (i : Nat) => retval.val i)) := by
  have h := st_filled_run MAX_PORTS 0 (by omega)
  rw [st_filled_zero, Nat.zero_add, st_filled_full] at h
  rw [h, List.range_eq_range']

theorem held_after_append (a b : List port_event) (st : Nat × Nat) :
    held_after (a ++ b) st = (held_after a st).bind (held_after b) := by
  induction a generalizing st with
  | nil => rfl
  | cons e es ih =>
    obtain ⟨l, p⟩ := st
    cases e with
    | lock le =>
      cases le with
      | int_disable_interrupts => simp only [List.cons_append, held_after]; exact ih _
      | int_restore_interrupts => simp only [List.cons_append, held_after]; exact ih _
      | GRAB_PORT_LIST_LOCK =>
        simp only [List.cons_append, held_after]
        by_cases hp : p = 0
        · rw [if_pos hp, if_pos hp]; exact ih _
        · rw [if_neg hp, if_neg hp]; rfl
      | RELEASE_PORT_LIST_LOCK => simp only [List.cons_append, held_after]; exact ih _
      | GRAB_PORT_LOCK slot => simp only [List.cons_append, held_after]; exact ih _
      | RELEASE_PORT_LOCK slot => simp only [List.cons_append, held_after]; exact ih _
    | sem_acquire_etc =>
      simp only [List.cons_append, held_after]
      by_cases hp : l = 0 ∧ p = 0
      · rw [if_pos hp, if_pos hp]; exact ih _
      · rw [if_neg hp, if_neg hp]; rfl
    | kmalloc =>
      simp only [List.cons_append, held_after]
      by_cases hp : l = 0 ∧ p = 0
      · rw [if_pos hp, if_pos hp]; exact ih _
      · rw [if_neg hp, if_neg hp]; rfl
    | cbuf_get_chain =>
      simp only [List.cons_append, held_after]
      by_cases hp : l = 0 ∧ p = 0
      · rw [if_pos hp, if_pos hp]; exact ih _
      · rw [if_neg hp, if_neg hp]; rfl
    | cbuf_memcpy =>
      simp only [List.cons_append, held_after]
      by_cases hp : l = 0 ∧ p = 0
      · rw [if_pos hp, if_pos hp]; exact ih _
      · rw [if_neg hp, if_neg hp]; rfl

theorem port_close_events_ok (s : port_state) (id : Int) :
    release_before_block (port_close_events s id) = true := by
  unfold port_close_events
  by_cases h1 : s.ports_active = false
  · rw [if_pos h1]; rfl
  rw [if_neg h1]
  by_cases h2 : id < 0
  · rw [if_pos h2]; rfl
  rw [if_neg h2]; rfl

theorem port_delete_events_after (s : port_state) (id : Int) :
    held_after (port_delete_events s id) (0, 0) = some (0, 0) := by
  unfold port_delete_events
  by_cases h1 : s.ports_active = false
  · rw [if_pos h1]; rfl
  rw [if_neg h1]
  by_cases h2 : id < 0
  · rw [if_pos h2]; rfl
  rw [if_neg h2]; rfl

theorem port_delete_events_ok (s : port_state) (id : Int) :
    release_before_block (port_delete_events s id) = true := by
  unfold release_before_block
  rw [port_delete_events_after]; rfl

theorem port_get_info_events_ok (s : port_state) (id : Int) (info : Option port_info) :
    release_before_block (port_get_info_events s id info) = true := by
  unfold port_get_info_events
  by_cases h1 : s.ports_active = false
  · rw [if_pos h1]; rfl
  rw [if_neg h1]
  by_cases h3 : info = none
  · rw [if_pos h3]; rfl
  rw [if_neg h3]
  by_cases h2 : id < 0
  · rw [if_pos h2]; rfl
  rw [if_neg h2]; rfl

theorem port_count_events_ok (s : port_state) (id : Int) :
    release_before_block (port_count_events s id) = true := by
  unfold port_count_events
  by_cases h1 : s.ports_active = false
  · rw [if_pos h1]; rfl
  rw [if_neg h1]
  by_cases h2 : id < 0
  · rw [if_pos h2]; rfl
  rw [if_neg h2]; rfl

theorem port_set_owner_events_ok (s : port_state) (id : Int) :
    release_before_block (port_set_owner_events s id) = true := by
  unfold port_set_owner_events
  by_cases h1 : s.ports_active = false
  · rw [if_pos h1]; rfl
  rw [if_neg h1]
  by_cases h2 : id < 0
  · rw [if_pos h2]; rfl
  rw [if_neg h2]; rfl

theorem port_buffer_size_etc_events_ok (s : port_state) (id : Int) (wait : errcode) :
    release_before_block (port_buffer_size_etc_events s id wait) = true := by
  unfold port_buffer_size_etc_events
  dsimp only
  by_cases h1 : s.ports_active = false
  · rw [if_pos h1]; rfl
  rw [if_neg h1]
  by_cases h2 : id < 0
  · rw [if_pos h2]; rfl
  rw [if_neg h2]
  by_cases h3 : (s.ports (slot_of id)).id ≠ id
  · rw [if_pos h3]; rfl
  rw [if_neg h3]
  by_cases h4 : (sem_acquire_etc s.sems (s.ports (slot_of id)).read_sem wait).2
      = retval.err errcode.ERR_SEM_DELETED
  · rw [if_pos h4]; rfl
  rw [if_neg h4]
  by_cases h5 : (sem_acquire_etc s.sems (s.ports (slot_of id)).read_sem wait).2
      = retval.err errcode.ERR_SEM_TIMED_OUT
  · rw [if_pos h5]; rfl
  rw [if_neg h5]
  by_cases h6 : (s.ports (slot_of id)).head < 0 ∨
      (s.ports (slot_of id)).head > (s.ports (slot_of id)).capacity
  · rw [if_pos h6]; rfl
  · rw [if_neg h6]; rfl

theorem port_buffer_size_etc_events_locks (s : port_state) (id : Int) (wait : errcode) :
    lock_events (port_buffer_size_etc_events s id wait) = port_buffer_size_etc_locks s id wait := by
  unfold port_buffer_size_etc_events port_buffer_size_etc_locks
  dsimp only
  by_cases h1 : s.ports_active = false
  · rw [if_pos h1, if_pos h1]; rfl
  rw [if_neg h1, if_neg h1]
  by_cases h2 : id < 0
  · rw [if_pos h2, if_pos h2]; rfl
  rw [if_neg h2, if_neg h2]
  by_cases h3 : (s.ports (slot_of id)).id ≠ id
  · rw [if_pos h3, if_pos h3]; rfl
  rw [if_neg h3, if_neg h3]
  by_cases h4 : (sem_acquire_etc s.sems (s.ports (slot_of id)).read_sem wait).2
      = retval.err errcode.ERR_SEM_DELETED
  · rw [if_pos h4, if_pos h4]; rfl
  rw [if_neg h4, if_neg h4]
  by_cases h5 : (sem_acquire_etc s.sems (s.ports (slot_of id)).read_sem wait).2
      = retval.err errcode.ERR_SEM_TIMED_OUT
  · rw [if_pos h5, if_pos h5]; rfl
  rw [if_neg h5, if_neg h5]
  by_cases h6 : (s.ports (slot_of id)).head < 0 ∨
      (s.ports (slot_of id)).head > (s.ports (slot_of id)).capacity
  · rw [if_pos h6, if_pos h6]; rfl
  · rw [if_neg h6, if_neg h6]; rfl

theorem port_read_etc_events_ok (s : port_state) (id : Int) (msg_code : Option Int)
    (msg_buffer : Option (List Nat)) (buffer_size : Nat) (timeout : Int) (env : read_env) :
    release_before_block
      (port_read_etc_events s id msg_code msg_buffer buffer_size timeout env) = true := by
  unfold port_read_etc_events
  dsimp only
  by_cases h1 : s.ports_active = false
  · rw [if_pos h1]; rfl
  rw [if_neg h1]
  by_cases h2 : id < 0
  · rw [if_pos h2]; rfl
  rw [if_neg h2]
  by_cases h2a : msg_code = none
  · rw [if_pos h2a]; rfl
  rw [if_neg h2a]
  by_cases h2b : msg_buffer = none ∧ buffer_size > 0
  · rw [if_pos h2b]; rfl
  rw [if_neg h2b]
  by_cases h2c : timeout < 0
  · rw [if_pos h2c]; rfl
  rw [if_neg h2c]
  by_cases h3 : (s.ports (slot_of id)).id ≠ id
  · rw [if_pos h3]; rfl
  rw [if_neg h3]
  by_cases h4 : (sem_acquire_etc s.sems (s.ports (slot_of id)).read_sem env.wait).2 ≠ NO_ERROR
  · rw [if_pos h4]; rfl
  rw [if_neg h4]
  by_cases h6 : (s.ports (slot_of id)).tail < 0 ∨
      (s.ports (slot_of id)).tail > (s.ports (slot_of id)).capacity
  · rw [if_pos h6]; rfl
  rw [if_neg h6]
  cases (s.ports (slot_of id)).msg_queue.get? (s.ports (slot_of id)).tail.toNat with
  | none => rfl
  | some m =>
    dsimp only
    by_cases h7 : min buffer_size m.data_len > 0
    · rw [if_pos h7]; rfl
    · rw [if_neg h7]; rfl

theorem port_write_etc_events_ok (s : port_state) (id : Int) (msg : List Nat)
    (env : write_env) :
    release_before_block (port_write_etc_events s id msg env) = true := by
  unfold port_write_etc_events
  dsimp only
  by_cases h1 : s.ports_active = false
  · rw [if_pos h1]; rfl
  rw [if_neg h1]
  by_cases h2 : id < 0
  · rw [if_pos h2]; rfl
  rw [if_neg h2]
  by_cases h2a : msg.length > PORT_MAX_MESSAGE_SIZE
  · rw [if_pos h2a]; rfl
  rw [if_neg h2a]
  by_cases h3 : (s.ports (slot_of id)).id ≠ id
  · rw [if_pos h3]; rfl
  rw [if_neg h3]
  by_cases h3a : (s.ports (slot_of id)).closed = true
  · rw [if_pos h3a]; rfl
  rw [if_neg h3a]
  by_cases h4 : (sem_acquire_etc s.sems (s.ports (slot_of id)).write_sem env.wait).2 ≠ NO_ERROR
  · rw [if_pos h4]; rfl
  rw [if_neg h4]
  by_cases h6 : (s.ports (slot_of id)).head < 0 ∨
      (s.ports (slot_of id)).head ≥ (s.ports (slot_of id)).capacity
  · rw [if_pos h6]
    by_cases h7 : msg.length > 0
    · rw [if_pos h7]
      by_cases h8 : env.chain_mem = false
      · rw [if_pos h8]; rfl
      rw [if_neg h8]
      by_cases h9 : env.copy.neg = true
      · rw [if_pos h9]; rfl
      · rw [if_neg h9]; rfl
    · rw [if_neg h7]; rfl
  · rw [if_neg h6]
    by_cases h7 : msg.length > 0
    · rw [if_pos h7]
      by_cases h8 : env.chain_mem = false
      · rw [if_pos h8]; rfl
      rw [if_neg h8]
      by_cases h9 : env.copy.neg = true
      · rw [if_pos h9]; rfl
      · rw [if_neg h9]; rfl
    · rw [if_neg h7]; rfl

theorem port_create_loop_events_after (s : port_state) (fuel i : Nat) :
    held_after (port_create_loop_events s fuel i) (1, 0) = some (0, 0) := by
  induction fuel generalizing i with
  | zero => rfl
  | succ n ih =>
    unfold port_create_loop_events
    by_cases h : (s.ports i).id = -1
    · rw [if_pos h]; rfl
    · rw [if_neg h]; exact ih (i + 1)

theorem port_create_events_ok (s : port_state) (queue_length : Int) (env : create_env) :
    release_before_block (port_create_events s queue_length env) = true := by
  unfold port_create_events
  by_cases h1 : s.ports_active = false
  · rw [if_pos h1]; rfl
  rw [if_neg h1]
  by_cases h2 : env.name_mem = false
  · rw [if_pos h2]; rfl
  rw [if_neg h2]
  by_cases h3 : queue_length < 1 ∨ queue_length > MAX_QUEUE_LENGTH
  · rw [if_pos h3]; rfl
  rw [if_neg h3]
  cases env.queue_mem with
  | none => rfl
  | some mem =>
    dsimp only
    cases hr : env.sem_r_fail with
    | some e => simp only [sem_create_etc]; rfl
    | none =>
      simp only [sem_create_etc]
      by_cases h4 : s.sems.next_sem < 0
      · rw [if_pos h4]; rfl
      rw [if_neg h4]
      cases hw : env.sem_w_fail with
      | some e => rfl
      | none =>
        dsimp only
        by_cases h5 : s.sems.next_sem + 1 < 0
        · rw [if_pos h5]; rfl
        rw [if_neg h5]
        unfold release_before_block
        rw [held_after_append]
        have hpre : held_after
            [port_event.kmalloc, port_event.kmalloc, ev_int_disable, ev_grab_list] (0, 0)
            = some (1, 0) := rfl
        rw [hpre, Option.some_bind, port_create_loop_events_after]
        rfl

theorem port_find_loop_events_ok (s : port_state) (name : List Char) (fuel i : Nat) :
    (held_after (port_find_loop_events s name fuel i) (1, 0)).isSome = true := by
  induction fuel generalizing i with
  | zero => rfl
  | succ n ih =>
    have hstep : ∀ rest : List port_event,
        held_after (ev_grab i :: ev_release i :: rest) (1, 0) = held_after rest (1, 0) :=
      fun _ => rfl
    unfold port_find_loop_events
    by_cases h : (s.ports i).id ≥ 0
    · rw [if_pos h]
      cases (s.ports i).name with
      | none => rfl
      | some nm =>
        dsimp only
        by_cases he : strcmp name nm = 0
        · rw [if_pos he]; rfl
        · rw [if_neg he, hstep]; exact ih (i + 1)
    · rw [if_neg h, hstep]; exact ih (i + 1)

theorem port_find_events_ok (s : port_state) (port_name : Option (List Char)) :
    release_before_block (port_find_events s port_name) = true := by
  unfold port_find_events
  by_cases h1 : s.ports_active = false
  · rw [if_pos h1]; rfl
  rw [if_neg h1]
  cases port_name with
  | none => rfl
  | some name =>
    dsimp only
    unfold release_before_block
    rw [held_after_append]
    have hpre : held_after [ev_int_disable, ev_grab_list] (0, 0) = some (1, 0) := rfl
    rw [hpre, Option.some_bind]
    exact port_find_loop_events_ok s name MAX_PORTS 0

theorem port_get_next_loop_events_ok (s : port_state) (proc : Int) (fuel slot : Nat) :
    (held_after (port_get_next_loop_events s proc fuel slot) (1, 0)).isSome = true := by
  induction fuel generalizing slot with
  | zero => rfl
  | succ n ih =>
    have hstep : ∀ rest : List port_event,
        held_after (ev_grab slot :: ev_release slot :: rest) (1, 0) = held_after rest (1, 0) :=
      fun _ => rfl
    unfold port_get_next_loop_events
    rw [hstep]
    by_cases h : (s.ports slot).id ≠ -1 ∧ (s.ports slot).owner = proc
    · rw [if_pos h]; rfl
    · rw [if_neg h]; exact ih (slot + 1)

theorem port_get_next_port_info_events_ok (s : port_state) (proc : Int) (cookie : Option Nat)
    (info : Option port_info) :
    release_before_block (port_get_next_port_info_events s proc cookie info) = true := by
  unfold port_get_next_port_info_events
  by_cases h1 : s.ports_active = false
  · rw [if_pos h1]; rfl
  rw [if_neg h1]
  cases cookie with
  | none => rfl
  | some c =>
    dsimp only
    by_cases h2 : c ≠ 0 ∧ (if c = 0 then (0 : Int) else wrap32 c) ≥ MAX_PORTS
    · rw [if_pos h2]; rfl
    rw [if_neg h2]
    unfold release_before_block
    rw [held_after_append]
    have hpre : held_after [ev_int_disable, ev_grab_list] (0, 0) = some (1, 0) := rfl
    rw [hpre, Option.some_bind]
    cases info with
    | none => rfl
    | some i0 =>
      dsimp only
      by_cases h3 : (if c = 0 then (0 : Int) else wrap32 c) < 0
      · rw [if_pos h3]; rfl
      · rw [if_neg h3]
        exact port_get_next_loop_events_ok s proc _ _

theorem port_delete_owned_loop_events_after (owner : Int) (fuel i : Nat) (s : port_state) :
    held_after (port_delete_owned_loop_events owner fuel i s) (1, 0) = some (0, 0) := by
  induction fuel generalizing i s with
  | zero => rfl
  | succ n ih =>
    unfold port_delete_owned_loop_events
    by_cases h : (s.ports i).id ≠ -1 ∧ (s.ports i).owner = owner
    · rw [if_pos h]
      dsimp only
      rw [held_after_append, held_after_append, held_after_append]
      have h1 : held_after [ev_release_list, ev_int_restore] (1, 0) = some (0, 0) := rfl
      have h2 : held_after [ev_int_disable, ev_grab_list] (0, 0) = some (1, 0) := rfl
      rw [h1, Option.some_bind, port_delete_events_after, Option.some_bind, h2,
        Option.some_bind]
      exact ih _ _
    · rw [if_neg h]; exact ih _ _

theorem port_delete_owned_ports_events_ok (s : port_state) (owner : Int) :
    release_before_block (port_delete_owned_ports_events s owner) = true := by
  unfold port_delete_owned_ports_events
  by_cases h1 : s.ports_active = false
  · rw [if_pos h1]; rfl
  rw [if_neg h1]
  unfold release_before_block
  rw [held_after_append]
  have hpre : held_after [ev_int_disable, ev_grab_list] (0, 0) = some (1, 0) := rfl
  rw [hpre, Option.some_bind, port_delete_owned_loop_events_after]
  rfl

/-! ## Claims -/

/-- C1: round trip.  Take a live, non-closed port whose queue is empty
(`read_sem` holds no token and `tail = head`) and has a free slot (`write_sem`
holds a token), a code and a byte string of at most 65536 bytes.  Then
`port_write(id, code, bytes)` returns `NO_ERROR` unless its payload allocation
or copy fails; and whenever it returns `NO_ERROR`, the `port_read(id, &c, buf,
n)` that follows returns `min(n, |bytes|)`, sets `c = code`, and leaves the
first `min(n, |bytes|)` bytes of `buf` equal to those of `bytes` (the rest of
`buf` is untouched). -/
theorem write_read_round_trip (s : port_state) (id code c0 : Int) (bytes buf : List Nat)
    (n : Nat) (wenv : write_env) (renv : read_env)
    (hact : s.ports_active = true) (h0 : 0 ≤ id) (hlive : (s.ports (slot_of id)).id = id)
    (hopen : (s.ports (slot_of id)).closed = false)
    (hring : 0 ≤ (s.ports (slot_of id)).head ∧
      (s.ports (slot_of id)).head < (s.ports (slot_of id)).capacity ∧
      (s.ports (slot_of id)).capacity ≤ MAX_QUEUE_LENGTH ∧
      (s.ports (slot_of id)).msg_queue.length = (s.ports (slot_of id)).capacity.toNat)
    (hsem : (s.ports (slot_of id)).read_sem ≠ (s.ports (slot_of id)).write_sem)
    (hempty : s.sems.count (s.ports (slot_of id)).read_sem = some 0 ∧
      (s.ports (slot_of id)).tail = (s.ports (slot_of id)).head)
    (hfree : ∃ w, s.sems.count (s.ports (slot_of id)).write_sem = some w ∧ 1 ≤ w)
    (hlen : bytes.length ≤ PORT_MAX_MESSAGE_SIZE) :
    ((bytes.length = 0 ∨ (wenv.chain_mem = true ∧ wenv.copy.neg = false)) →
      ∃ s1, port_write s id code bytes wenv = some (s1, NO_ERROR)) ∧
    (∀ s1, port_write s id code bytes wenv = some (s1, NO_ERROR) →
      ∃ s2 b, port_read s1 id (some c0) (some buf) n renv =
          some ⟨s2, retval.val (min n bytes.length : Nat), some code, some b⟩ ∧
        b.take (min n bytes.length) = bytes.take (min n bytes.length) ∧
        b.drop (min n bytes.length) = buf.drop (min n bytes.length)) := by
  obtain ⟨r1, r2, r3, r4⟩ := hring
  obtain ⟨w, hwc, hw1⟩ := hfree
  refine ⟨fun henv => ?_, fun s1 hw => ?_⟩
  · exact port_write_etc_ok s id code bytes _ _ wenv w hact h0 hlive hopen hlen hwc hw1 r1 r2
      (by rw [r4]; omega) henv
  · have hr : ring_holds s (slot_of id) [] := by
      refine ⟨r3, by rw [hempty.2]; exact r1, by rw [hempty.2]; exact r2, ?_, hsem,
        by simpa using hempty.1, by simp; omega, by simp⟩
      rw [hempty.2]
      simp [Int.emod_eq_of_lt r1 r2]
    obtain ⟨g1, g2, -, g4, -⟩ := ring_write s s1 id code bytes _ _ wenv [] hr
      (by simp; omega) hw
    obtain ⟨s2, k1, -⟩ := ring_read s1 id c0 buf n ⟨false, false, false⟩ 0 renv code bytes []
      g2 h0 g4 (le_refl _) (by simp) (by simpa using g1)
    refine ⟨s2, _, k1, ?_, ?_⟩
    · rw [List.take_append_of_le_length (by simp)]
      simp
    · rw [List.drop_append_of_le_length (by simp)]
      simp

/-- Witness for C1: on the fresh port 0 of the scenario, `testdata` is
written with code 1 and read back into a 6-byte buffer with `n = 3`. -/
theorem write_read_round_trip_witness :
    (∃ s1, port_write st_p1 0 1 testdata wenv_ok = some (s1, NO_ERROR)) ∧
    ∃ s2 b, port_read st_p1_full 0 (some 0) (some [7, 7, 7, 7, 7, 7]) 3 renv_ok =
        some ⟨s2, retval.val (min 3 testdata.length : Nat), some 1, some b⟩ ∧
      b.take (min 3 testdata.length) = testdata.take (min 3 testdata.length) ∧
      b.drop (min 3 testdata.length) = [7, 7, 7, 7, 7, 7].drop (min 3 testdata.length) :=
  have h := write_read_round_trip st_p1 0 1 0 testdata [7, 7, 7, 7, 7, 7] 3 wenv_ok renv_ok
    (by decide) (by decide) (by decide) (by decide) (by decide) (by decide) (by decide)
    ⟨1, by decide, by decide⟩ (by decide)
  ⟨h.1 (Or.inr (by decide)), h.2 st_p1_full (by rfl)⟩

/-- C2: FIFO delivery.  Take a live, non-closed port of capacity `C` whose
queue is empty (`read_sem` holds no token, `write_sem` holds `C`, and
`tail = head`) and `k ≤ C` writes with codes `c1..ck` and payloads `p1..pk`.
The writes, issued one after the other with nothing in between, all return
`NO_ERROR` unless a payload is too long or its allocation or copy fails; and
whenever they all return `NO_ERROR`, `k` successive reads return, in that
order, the codes `c1..ck`, and the i-th read delivers payload `pi`: it
returns `min(n_i, |pi|)` and puts that prefix of `pi` at the start of its
buffer. -/
theorem fifo_delivery (s : port_state) (id : Int) (ws : List write_call)
    (cs : List read_call)
    (hact : s.ports_active = true) (h0 : 0 ≤ id) (hlive : (s.ports (slot_of id)).id = id)
    (hopen : (s.ports (slot_of id)).closed = false)
    (hring : 0 ≤ (s.ports (slot_of id)).head ∧
      (s.ports (slot_of id)).head < (s.ports (slot_of id)).capacity ∧
      (s.ports (slot_of id)).capacity ≤ MAX_QUEUE_LENGTH ∧
      (s.ports (slot_of id)).msg_queue.length = (s.ports (slot_of id)).capacity.toNat)
    (hsem : (s.ports (slot_of id)).read_sem ≠ (s.ports (slot_of id)).write_sem)
    (hempty : s.sems.count (s.ports (slot_of id)).read_sem = some 0 ∧
      s.sems.count (s.ports (slot_of id)).write_sem = some (s.ports (slot_of id)).capacity ∧
      (s.ports (slot_of id)).tail = (s.ports (slot_of id)).head)
    (hk : (ws.length : Int) ≤ (s.ports (slot_of id)).capacity)
    (hlen : cs.length = ws.length) :
    ((∀ w ∈ ws, w.msg.length ≤ PORT_MAX_MESSAGE_SIZE ∧
        (w.msg.length = 0 ∨ (w.env.chain_mem = true ∧ w.env.copy.neg = false))) →
      ∃ s1, port_write_all s id ws = some s1) ∧
    (∀ s1, port_write_all s id ws = some s1 →
      ∃ s2, port_read_all s1 id cs = some (s2, List.zipWith delivered ws cs)) := by
  refine ⟨fun henv => ?_, fun s1 hw => ?_⟩
  · exact port_write_all_ok s id ws _ hact h0 hlive hopen hring hsem hempty.2.1 hk henv
  · obtain ⟨r1, r2, r3, -⟩ := hring
    have hr : ring_holds s (slot_of id) [] := by
      refine ⟨r3, by rw [hempty.2.2]; exact r1, by rw [hempty.2.2]; exact r2, ?_, hsem,
        by simpa using hempty.1, by simp; omega, by simp⟩
      rw [hempty.2.2]
      simp [Int.emod_eq_of_lt r1 r2]
    obtain ⟨g1, g2, g3⟩ := ring_write_all s s1 id ws [] hact h0 hlive hr (by simpa using hk) hw
    obtain ⟨s2, k1, -⟩ := ring_read_all s1 id ws cs [] g2 h0 g3 (by simpa using g1) hlen
    exact ⟨s2, k1⟩

/-- Witness for C2: three messages with codes 1, 2, 3 are written to the
ten-cell port 0 and read back in that order. -/
theorem fifo_delivery_witness :
    (∃ s1, port_write_all st_p2 0 three_writes = some s1) ∧
    ∃ s2, port_read_all st_p2_written 0 three_reads =
      some (s2, List.zipWith delivered three_writes three_reads) :=
  have h := fifo_delivery st_p2 0 three_writes three_reads
    (by decide) (by decide) (by decide) (by decide) (by decide) (by decide) (by decide)
    (by decide) (by decide)
  ⟨h.1 (by decide), h.2 st_p2_written (by rfl)⟩

/-- C3: ID congruence is an invariant of the port table.  After `port_init`
and any sequence of port calls (create, close, delete, set_owner, read, write,
buffer-size peek, delete_owned_ports) during which `next_port` has not
wrapped around, every slot `i` is either free (`id = -1`) or holds an
`id ≥ 0` with `id mod MAX_PORTS = i`. -/
theorem id_congruence (N : Nat) (sems : sem_table) (ops : List port_op)
    (s1 : port_state) (rs : List retval)
    (hrun : port_run N (port_init (port_statics sems)) ops = some (s1, rs))
    (hnw : port_run_no_wrap N (port_init (port_statics sems)) ops = true) :
    ∀ i, i < MAX_PORTS →
      (s1.ports i).id = -1 ∨
        (0 ≤ (s1.ports i).id ∧ (s1.ports i).id % (MAX_PORTS : Int) = (i : Int)) := by
  intro i hi
  obtain ⟨⟨-, h⟩, -⟩ := port_run_id_inv N _ s1 ops rs (id_inv_init sems) hrun hnw
  rcases h i hi with h1 | ⟨h1, h2, -⟩
  · exact Or.inl h1
  · exact Or.inr ⟨h1, h2⟩

/-- Witness for C3: the table after the calls `ops_reuse`, in which slot 0 has
been reused by port 4096. -/
theorem id_congruence_witness :
    (st_reuse.ports 0).id = -1 ∨
      (0 ≤ (st_reuse.ports 0).id ∧ (st_reuse.ports 0).id % (MAX_PORTS : Int) = ((0 : Nat) : Int)) :=
  id_congruence 32 sem_empty ops_reuse st_reuse
    [retval.val 0, retval.val 1, NO_ERROR, NO_ERROR, retval.val 4096] (by rfl) (by decide)
    0 (by decide)

/-- C4: ID freshness.  In a run from `port_init` during which `next_port` has
not wrapped around, the ids returned by the successful `port_create` calls are
strictly increasing in the order of the calls; hence no two live slots hold
the same id, and an id that was created and is no longer in the table at
some point of the run (its port has been deleted) is not the id of any port
at any later point. -/
theorem id_freshness (N : Nat) (sems : sem_table) (ops1 ops2 : List port_op)
    (s1 s2 : port_state) (rs1 rs2 : List retval)
    (h1 : port_run N (port_init (port_statics sems)) ops1 = some (s1, rs1))
    (h2 : port_run N s1 ops2 = some (s2, rs2))
    (hnw : port_run_no_wrap N (port_init (port_statics sems)) (ops1 ++ ops2) = true) :
    (created_ids (ops1 ++ ops2) (rs1 ++ rs2)).Pairwise (· < ·) ∧
    (∀ i j, i < MAX_PORTS → j < MAX_PORTS → i ≠ j → (s2.ports i).id ≠ -1 →
      (s2.ports i).id ≠ (s2.ports j).id) ∧
    (∀ id ∈ created_ids ops1 rs1, (∀ i, i < MAX_PORTS → (s1.ports i).id ≠ id) →
      ∀ i, i < MAX_PORTS → (s2.ports i).id ≠ id) := by
  have hrun := port_run_append N _ s1 s2 ops1 ops2 rs1 rs2 h1 h2
  obtain ⟨n1, n2⟩ := port_run_no_wrap_append N _ s1 ops1 ops2 rs1 h1 hnw
  obtain ⟨a1, -, -, a4, -⟩ := port_run_id_inv N _ s2 _ _ (id_inv_init sems) hrun hnw
  obtain ⟨b1, -, b3, -, -⟩ := port_run_id_inv N _ s1 _ _ (id_inv_init sems) h1 n1
  obtain ⟨-, -, -, -, c5⟩ := port_run_id_inv N _ s2 _ _ b1 h2 n2
  refine ⟨a4, ?_, ?_⟩
  · intro i j hi hj hij hlive heq
    rcases a1.2 i hi with g | ⟨-, g2, -⟩
    · exact hlive g
    · rcases a1.2 j hj with g | ⟨-, k2, -⟩
      · rw [heq] at hlive; exact hlive g
      · rw [heq, k2] at g2
        exact hij (by exact_mod_cast g2.symm)
  · intro id hid hst
    have := b3 id hid
    have h0 : (port_init (port_statics sems)).next_port = 0 := rfl
    exact c5 id (by omega) this.2 hst

/-- Witness for C4: the calls `ops_reuse_a` create ports 0 and 1 and delete
port 0; the create of `ops_reuse_b` then returns 4096. -/
theorem id_freshness_witness :
    (created_ids (ops_reuse_a ++ ops_reuse_b)
      ([retval.val 0, retval.val 1, NO_ERROR, NO_ERROR] ++ [retval.val 4096])).Pairwise (· < ·) ∧
    (∀ i j, i < MAX_PORTS → j < MAX_PORTS → i ≠ j → (st_reuse.ports i).id ≠ -1 →
      (st_reuse.ports i).id ≠ (st_reuse.ports j).id) ∧
    (∀ id ∈ created_ids ops_reuse_a [retval.val 0, retval.val 1, NO_ERROR, NO_ERROR],
      (∀ i, i < MAX_PORTS → (st_reuse_a.ports i).id ≠ id) →
      ∀ i, i < MAX_PORTS → (st_reuse.ports i).id ≠ id) :=
  id_freshness 32 sem_empty ops_reuse_a ops_reuse_b st_reuse_a st_reuse
    [retval.val 0, retval.val 1, NO_ERROR, NO_ERROR] [retval.val 4096]
    (by rfl) (by rfl) (by decide)

/-- C5 (as stated, refuted): on the fresh port 0 of capacity 1 a completed
`port_write` whose payload allocation fails returns `ERR_NO_MEMORY` and has
consumed the `write_sem` token: afterwards both counts are 0 and their sum is
not the capacity. -/
theorem conservation_broken_by_failed_write :
    (port_write st_p1 0 1 testdata wenv_no_mem).map Prod.snd
      = some (retval.err errcode.ERR_NO_MEMORY) ∧
    (st_p1_no_mem.ports 0).id = 0 ∧ (st_p1_no_mem.ports 0).capacity = 1 ∧
    st_p1_no_mem.sems.count (st_p1_no_mem.ports 0).read_sem = some 0 ∧
    st_p1_no_mem.sems.count (st_p1_no_mem.ports 0).write_sem = some 0 ∧
    ¬ ∃ r w, st_p1_no_mem.sems.count (st_p1_no_mem.ports 0).read_sem = some r ∧
      st_p1_no_mem.sems.count (st_p1_no_mem.ports 0).write_sem = some w ∧
      r + w = (st_p1_no_mem.ports 0).capacity := by
  have h1 : st_p1_no_mem.sems.count (st_p1_no_mem.ports 0).read_sem = some 0 := by decide
  have h2 : st_p1_no_mem.sems.count (st_p1_no_mem.ports 0).write_sem = some 0 := by decide
  have h3 : (st_p1_no_mem.ports 0).capacity = 1 := by decide
  refine ⟨by decide, by decide, h3, h1, h2, ?_⟩
  rintro ⟨r, w, hr, hw, hsum⟩
  rw [h1] at hr; rw [h2] at hw; rw [h3] at hsum
  cases hr; cases hw
  omega

/-- C5 (amended): conservation.  After `port_init` on a well-formed semaphore
table and any sequence of completed port calls in which no write that failed
has kept its `write_sem` token (no payload allocation or copy failed after
the token was taken) and no buffer-size peek has changed the count of
`read_sem`, every live port has `count(read_sem) + count(write_sem) =
capacity`, and `count(read_sem)` is the ring occupancy `(head - tail) mod
capacity`, where `head = tail` means empty when the count is 0 and full when
the count is the capacity. -/
theorem conservation (N : Nat) (sems : sem_table) (ops : List port_op)
    (s1 : port_state) (rs : List retval)
    (hsems : 0 ≤ sems.next_sem ∧ ∀ h, sems.next_sem ≤ h → sems.count h = none)
    (hok : port_run_conserving N (port_init (port_statics sems)) ops = true)
    (hrun : port_run N (port_init (port_statics sems)) ops = some (s1, rs)) :
    ∀ i, i < MAX_PORTS → (s1.ports i).id ≠ -1 →
      ∃ r w, s1.sems.count (s1.ports i).read_sem = some r ∧
        s1.sems.count (s1.ports i).write_sem = some w ∧
        r + w = (s1.ports i).capacity ∧ 0 ≤ r ∧ 0 ≤ w ∧
        (r = ((s1.ports i).head - (s1.ports i).tail) % (s1.ports i).capacity ∨
          (r = (s1.ports i).capacity ∧ (s1.ports i).head = (s1.ports i).tail)) := by
  intro i hi hl
  have hinv := cons_inv_run N _ s1 ops rs (cons_inv_init sems hsems) hok hrun
  obtain ⟨-, -, -, a4, -, -, a7, a8, a9, a10, r, w, b1, b2, b3, b4, b5, b6⟩ := hinv.2.1 i hi hl
  refine ⟨r, w, b1, b2, b5, b3, b4, ?_⟩
  by_cases hr : r = (s1.ports i).capacity
  · right
    refine ⟨hr, ?_⟩
    rw [hr, Int.emod_self] at b6
    have hd := Int.dvd_of_emod_eq_zero b6
    by_contra hne
    rcases lt_or_gt_of_ne hne with hlt | hgt
    · have := Int.le_of_dvd (by omega) ((Int.dvd_neg).2 hd)
      omega
    · have := Int.le_of_dvd (by omega) hd
      omega
  · left
    rw [b6, Int.emod_eq_of_lt b3 (by omega)]

/-- Witness for C5: after the calls `ops_p1` port 0 holds one message; its
counts add up to the capacity 1 and the ring is full. -/
theorem conservation_witness :
    ∃ r w, st_ops_p1.sems.count (st_ops_p1.ports 0).read_sem = some r ∧
      st_ops_p1.sems.count (st_ops_p1.ports 0).write_sem = some w ∧
      r + w = (st_ops_p1.ports 0).capacity ∧ 0 ≤ r ∧ 0 ≤ w ∧
      (r = ((st_ops_p1.ports 0).head - (st_ops_p1.ports 0).tail) % (st_ops_p1.ports 0).capacity ∨
        (r = (st_ops_p1.ports 0).capacity ∧ (st_ops_p1.ports 0).head = (st_ops_p1.ports 0).tail)) :=
  conservation 32 sem_empty ops_p1 st_ops_p1
    [retval.val 0, NO_ERROR, retval.err errcode.ERR_PORT_TIMED_OUT, retval.val 5,
     retval.val 3, NO_ERROR, NO_ERROR]
    ⟨by decide, fun _ _ => rfl⟩ (by decide) (by rfl) 0 (by decide) (by decide)

/-- C6 (the code departs from the claim): `port_create` never assigns `closed`.
Port 0 is created in slot 0, closed and deleted; the next `port_create`
succeeds with id 4096 in the same slot, the new port is born with
`closed = true` and the first write to it is rejected with `ERR_PORT_CLOSED`
although its queue is empty. -/
theorem reused_slot_is_born_closed :
    (port_create 32 st_init 1 (some "test port #1".toList) env_ok).2 = retval.val 0 ∧
    (port_close st_p1 0).2 = NO_ERROR ∧
    (port_delete st_p1_closed 0).2 = NO_ERROR ∧
    (port_create 32 st_p1_deleted 1 (some "test port #2".toList) env_ok).2 = retval.val 4096 ∧
    (st_p1_again.ports 0).id = 4096 ∧
    (st_p1_again.ports 0).closed = true ∧
    st_p1_again.sems.count (st_p1_again.ports 0).write_sem = some 1 ∧
    port_write st_p1_again 4096 1 testdata wenv_ok
      = some (st_p1_again, retval.err errcode.ERR_PORT_CLOSED) := by
  refine ⟨by decide, by decide, by decide, by decide, by decide, by decide, by decide, ?_⟩
  unfold port_write port_write_etc
  have h1 : st_p1_again.ports_active = true := by decide
  have h2 : (st_p1_again.ports (slot_of 4096)).id = 4096 := by decide
  have h3 : (st_p1_again.ports (slot_of 4096)).closed = true := by decide
  have h4 : testdata.length = 5 := by decide
  have h5 : (5 : Nat) ≤ PORT_MAX_MESSAGE_SIZE := by decide
  simp [h1, h2, h3, h4, h5]

/-- C7: close semantics.  Once `port_close(id)` has succeeded, after any
further calls, as long as slot `id % MAX_PORTS` still holds `id`, every
`port_write_etc` to it with a valid size (any flags, timeout and environment)
returns `ERR_PORT_CLOSED` and leaves the whole state unchanged: no
`write_sem` token is taken and head, tail, total_count and the queue are as
before.  A `port_read_etc` on the closed port does exactly what it does on
the port before the close (same returned word, code and bytes, so it still
delivers the messages queued before the close); the states differ in the
`closed` flag only. -/
theorem closed_port_rejects_writes (N : Nat) (s s2 : port_state) (id : Int)
    (ops : List port_op) (rs : List retval)
    (hclose : (port_close s id).2 = NO_ERROR)
    (hrun : port_run N (port_close s id).1 ops = some (s2, rs))
    (hlive : (s2.ports (slot_of id)).id = id) :
    (∀ (msg_code : Int) (msg : List Nat) (flags : port_flags) (timeout : Int) (env : write_env),
      msg.length ≤ PORT_MAX_MESSAGE_SIZE →
      port_write_etc s2 id msg_code msg flags timeout env
        = some (s2, retval.err errcode.ERR_PORT_CLOSED)) ∧
    (∀ (msg_code : Option Int) (msg_buffer : Option (List Nat)) (buffer_size : Nat)
        (flags : port_flags) (timeout : Int) (env : read_env),
      port_read_etc (port_close s id).1 id msg_code msg_buffer buffer_size flags timeout env =
        (port_read_etc s id msg_code msg_buffer buffer_size flags timeout env).map
          (fun r => { r with state := (port_close r.state id).1 })) := by
  obtain ⟨hact, h0, hl, hst⟩ := port_close_ok s id hclose
  have hcl : ((port_close s id).1.ports (slot_of id)).closed = true := by
    rw [hst]; simp
  obtain ⟨a1, a2⟩ := port_run_active_closed N _ s2 ops rs hrun
  have hact2 : s2.ports_active = true := by rw [a1, hst]; exact hact
  refine ⟨?_, ?_⟩
  · intro msg_code msg flags timeout env hlen
    unfold port_write_etc
    dsimp only
    rw [if_neg (by simp [hact2]), if_neg (by omega), if_neg (by omega),
      if_neg (by simp [hlive]), if_pos (a2 _ hcl)]
  · intro msg_code msg_buffer buffer_size flags timeout env
    have key := port_read_etc_with_closed s id msg_code msg_buffer buffer_size flags timeout
      env h0 hl
    have e1 : (port_close s id).1 = with_closed s (slot_of id) := hst
    rw [e1, key]
    cases hr : port_read_etc s id msg_code msg_buffer buffer_size flags timeout env with
    | none => rfl
    | some r =>
      simp only [Option.map_some', Option.some.injEq]
      have hfr := port_read_etc_frame _ _ _ _ _ _ _ _ _ hr
      have hc2 : (port_close r.state id).2 = NO_ERROR := by
        unfold port_close
        dsimp only
        have i1 : (r.state.ports (slot_of id)).id = id := by
          rcases port_read_etc_cases _ _ _ _ _ _ _ _ _ hr with ⟨e, rfl⟩ | ⟨c, -, -, -, -, -, -, -, -, hd⟩
          · exact hl
          · obtain ⟨m, -, -, -, hs, -⟩ := port_read_dequeue_cases _ _ _ _ _ _ _ hd
            rw [hs]; simp [dequeued, hl]
        rw [if_neg (by rw [hfr.2.1]; simp [hact]), if_neg (by omega), if_neg (by simp [i1])]
      rw [(port_close_ok r.state id hc2).2.2.2]
      rfl

/-- Witness for C7: port 0 of the scenario holds `testdata`, is closed, and a
second port is created; a write to port 0 is then rejected, and a read on the
closed port still delivers `testdata` with code 1. -/
theorem closed_port_rejects_writes_witness :
    ((∀ (msg_code : Int) (msg : List Nat) (flags : port_flags) (timeout : Int) (env : write_env),
      msg.length ≤ PORT_MAX_MESSAGE_SIZE →
      port_write_etc (port_create 32 (port_close st_p1_full 0).1 10 none env_ok).1 0
          msg_code msg flags timeout env
        = some ((port_create 32 (port_close st_p1_full 0).1 10 none env_ok).1,
            retval.err errcode.ERR_PORT_CLOSED)) ∧
    (∀ (msg_code : Option Int) (msg_buffer : Option (List Nat)) (buffer_size : Nat)
        (flags : port_flags) (timeout : Int) (env : read_env),
      port_read_etc (port_close st_p1_full 0).1 0 msg_code msg_buffer buffer_size flags
          timeout env =
        (port_read_etc st_p1_full 0 msg_code msg_buffer buffer_size flags timeout env).map
          (fun r => { r with state := (port_close r.state 0).1 }))) ∧
    (port_read (port_close st_p1_full 0).1 0 (some 0) (some [0, 0, 0, 0, 0, 0]) 6 renv_ok).map
        (fun r => (r.ret, r.msg_code, r.msg_buffer))
      = some (retval.val 5, some 1, some [97, 98, 99, 100, 0, 0]) :=
  ⟨closed_port_rejects_writes 32 st_p1_full
      (port_create 32 (port_close st_p1_full 0).1 10 none env_ok).1 0
      [port_op.create 10 none env_ok] [retval.val 1] (by decide) (by rfl) (by decide),
   by decide⟩

/-- C8 (as stated, refuted): port 0 of the scenario is deleted successfully;
the `port_write_etc`, `port_read_etc` and `port_buffer_size_etc` that follow
return `ERR_INVALID_HANDLE`, not `ERR_PORT_DELETED`. -/
theorem deleted_port_not_reported_deleted :
    (port_delete st_p1_closed 0).2 = NO_ERROR ∧
    (port_write_etc st_p1_deleted 0 1 testdata ⟨false, false, false⟩ 0 wenv_ok).map Prod.snd
      = some (retval.err errcode.ERR_INVALID_HANDLE) ∧
    (port_write_etc st_p1_deleted 0 1 testdata ⟨false, false, false⟩ 0 wenv_ok).map Prod.snd
      ≠ some (retval.err errcode.ERR_PORT_DELETED) ∧
    (port_read_etc st_p1_deleted 0 (some 0) (some [0, 0]) 2 ⟨false, false, false⟩ 0
        renv_ok).map read_result.ret
      ≠ some (retval.err errcode.ERR_PORT_DELETED) ∧
    (port_buffer_size_etc st_p1_deleted 0 ⟨false, false, false⟩ 0
        errcode.ERR_SEM_TIMED_OUT).map Prod.snd
      ≠ some (retval.err errcode.ERR_PORT_DELETED) := by
  refine ⟨by decide, by decide, by decide, by decide, by decide⟩

/-- C8 (amended): once `port_delete(id)` has succeeded, in a run from
`port_init` during which `next_port` has not wrapped around, every later
`port_write_etc` (valid size), `port_read_etc` (valid arguments) and
`port_buffer_size_etc` naming that id returns `ERR_INVALID_HANDLE` and
changes nothing. -/
theorem deleted_port_invalid_handle (N : Nat) (sems : sem_table) (ops1 ops2 : List port_op)
    (s1 s2 : port_state) (rs1 rs2 : List retval) (id : Int)
    (h1 : port_run N (port_init (port_statics sems)) ops1 = some (s1, rs1))
    (hnw1 : port_run_no_wrap N (port_init (port_statics sems)) ops1 = true)
    (hdel : (port_delete s1 id).2 = NO_ERROR)
    (h2 : port_run N (port_delete s1 id).1 ops2 = some (s2, rs2))
    (hnw2 : port_run_no_wrap N (port_delete s1 id).1 ops2 = true) :
    (∀ (msg_code : Int) (msg : List Nat) (flags : port_flags) (timeout : Int) (env : write_env),
      msg.length ≤ PORT_MAX_MESSAGE_SIZE →
      port_write_etc s2 id msg_code msg flags timeout env
        = some (s2, retval.err errcode.ERR_INVALID_HANDLE)) ∧
    (∀ (code0 : Int) (msg_buffer : Option (List Nat)) (buffer_size : Nat) (flags : port_flags)
        (timeout : Int) (env : read_env),
      (msg_buffer = none → buffer_size = 0) → 0 ≤ timeout →
      port_read_etc s2 id (some code0) msg_buffer buffer_size flags timeout env
        = some ⟨s2, retval.err errcode.ERR_INVALID_HANDLE, some code0, msg_buffer⟩) ∧
    (∀ (flags : port_flags) (timeout : Int) (wait : errcode),
      port_buffer_size_etc s2 id flags timeout wait
        = some (s2, retval.err errcode.ERR_INVALID_HANDLE)) := by
  obtain ⟨hact, h0, hlive, hst⟩ := port_delete_ok s1 id hdel
  obtain ⟨a1, -⟩ := port_run_id_inv N _ s1 _ _ (id_inv_init sems) h1 hnw1
  have hslot := slot_of_lt id h0
  have hcast := slot_of_cast id h0
  -- the deleted id is below the counter and in no slot
  have hlt : id < s1.next_port := by
    rcases a1.2 (slot_of id) hslot with g | ⟨-, -, g⟩
    · rw [hlive] at g; omega
    · rw [hlive] at g; exact g
  have hinv : id_inv (port_delete s1 id).1 := by
    rw [hst]
    refine ⟨a1.1, fun i hi => ?_⟩
    by_cases hi2 : i = slot_of id
    · subst hi2; left; simp
    · simp only [Function.update_noteq hi2]; exact a1.2 i hi
  have hstale : stale (port_delete s1 id).1 id := by
    rw [hst]
    intro i hi
    by_cases hi2 : i = slot_of id
    · subst hi2; simp; omega
    · simp only [Function.update_noteq hi2]
      rcases a1.2 i hi with g | ⟨-, g, -⟩
      · rw [g]; omega
      · intro heq
        rw [heq] at g
        apply hi2
        have : ((slot_of id : Nat) : Int) = (i : Int) := by
          rw [hcast]; simpa [MAX_PORTS] using g
        exact_mod_cast this.symm
  have hnp : (port_delete s1 id).1.next_port = s1.next_port := by rw [hst]
  obtain ⟨-, -, -, -, c5⟩ := port_run_id_inv N _ s2 _ _ hinv h2 hnw2
  have hs2 := c5 id h0 (by rw [hnp]; exact hlt) hstale (slot_of id) hslot
  have hact2 : s2.ports_active = true := by
    rw [(port_run_active_closed N _ s2 ops2 rs2 h2).1, hst]; exact hact
  exact invalid_handle_msg_ops s2 id hact2 (Or.inr hs2)

/-- Witness for C8: port 0 of the scenario is created, closed and deleted,
then its slot is reused by port 4096; handle 0 stays invalid. -/
theorem deleted_port_invalid_handle_witness :
    (∀ (msg_code : Int) (msg : List Nat) (flags : port_flags) (timeout : Int) (env : write_env),
      msg.length ≤ PORT_MAX_MESSAGE_SIZE →
      port_write_etc st_p1_again 0 msg_code msg flags timeout env
        = some (st_p1_again, retval.err errcode.ERR_INVALID_HANDLE)) ∧
    (∀ (code0 : Int) (msg_buffer : Option (List Nat)) (buffer_size : Nat) (flags : port_flags)
        (timeout : Int) (env : read_env),
      (msg_buffer = none → buffer_size = 0) → 0 ≤ timeout →
      port_read_etc st_p1_again 0 (some code0) msg_buffer buffer_size flags timeout env
        = some ⟨st_p1_again, retval.err errcode.ERR_INVALID_HANDLE, some code0, msg_buffer⟩) ∧
    (∀ (flags : port_flags) (timeout : Int) (wait : errcode),
      port_buffer_size_etc st_p1_again 0 flags timeout wait
        = some (st_p1_again, retval.err errcode.ERR_INVALID_HANDLE)) :=
  deleted_port_invalid_handle 32 sem_empty
    [port_op.create 1 (some "test port #1".toList) env_ok, port_op.close 0]
    [port_op.create 1 (some "test port #2".toList) env_ok]
    st_p1_closed st_p1_again [retval.val 0, NO_ERROR] [retval.val 4096] 0
    (by rfl) (by decide) (by decide) (by rfl) (by decide)

/-- C9: on an active table, for an id that is negative or that is not the id
stored in slot `id % MAX_PORTS` (a stale handle, for instance of a deleted
port), `port_close`, `port_delete`, `port_get_info` (called with a non-null
`info`), `port_count` and `port_set_owner` return `ERR_INVALID_HANDLE` and
leave the whole state, and the caller's `info`, unchanged. -/
theorem stale_handle_rejected (N : Nat) (s : port_state) (id proc : Int) (info : port_info)
    (hact : s.ports_active = true)
    (hid : id < 0 ∨ (s.ports (slot_of id)).id ≠ id) :
    port_close s id = (s, retval.err errcode.ERR_INVALID_HANDLE) ∧
    port_delete s id = (s, retval.err errcode.ERR_INVALID_HANDLE) ∧
    port_get_info N s id (some info) = (s, retval.err errcode.ERR_INVALID_HANDLE, some info) ∧
    port_count s id = some (s, retval.err errcode.ERR_INVALID_HANDLE) ∧
    port_set_owner s id proc = (s, retval.err errcode.ERR_INVALID_HANDLE) := by
  rcases hid with h | h
  · simp [port_close, port_delete, port_get_info, port_count, port_set_owner, hact, h]
  · by_cases h0 : id < 0
    · simp [port_close, port_delete, port_get_info, port_count, port_set_owner, hact, h0]
    · simp [port_close, port_delete, port_get_info, port_count, port_set_owner, hact, h0, h]

/-- Witness for C9: the handle 0 of the deleted port of the scenario, on the
table in which slot 0 is free again. -/
theorem stale_handle_rejected_witness :
    port_close st_p1_deleted 0 = (st_p1_deleted, retval.err errcode.ERR_INVALID_HANDLE) ∧
    port_delete st_p1_deleted 0 = (st_p1_deleted, retval.err errcode.ERR_INVALID_HANDLE) ∧
    port_get_info 32 st_p1_deleted 0 (some ⟨0, 0, [], 0, 0, 0⟩)
      = (st_p1_deleted, retval.err errcode.ERR_INVALID_HANDLE, some ⟨0, 0, [], 0, 0, 0⟩) ∧
    port_count st_p1_deleted 0 = some (st_p1_deleted, retval.err errcode.ERR_INVALID_HANDLE) ∧
    port_set_owner st_p1_deleted 0 9 = (st_p1_deleted, retval.err errcode.ERR_INVALID_HANDLE) :=
  stale_handle_rejected 32 st_p1_deleted 0 9 ⟨0, 0, [], 0, 0, 0⟩ (by decide) (by decide)

/-- C10: on a live port, when the semaphore acquire inside `port_read_etc`
(on `read_sem`) or inside `port_write_etc` (on `write_sem`, reached when the
port is not closed and the size is valid) reports `ERR_SEM_DELETED`,
`ERR_SEM_TIMED_OUT` or `ERR_INTERRUPTED`, the call returns `ERR_PORT_DELETED`,
`ERR_PORT_TIMED_OUT` or `ERR_INTERRUPTED` respectively and leaves the whole
state unchanged: both semaphore counts, head, tail, total_count and every
queue cell; the reader's `*msg_code` and buffer are untouched as well. -/
theorem failed_acquire_translated :
    (∀ (s : port_state) (id code0 : Int) (msg_buffer : Option (List Nat)) (buffer_size : Nat)
        (flags : port_flags) (timeout : Int) (env : read_env) (e pe : errcode),
      s.ports_active = true → 0 ≤ id → (s.ports (slot_of id)).id = id →
      (msg_buffer = none → buffer_size = 0) → 0 ≤ timeout →
      (e, pe) ∈ [(errcode.ERR_SEM_DELETED, errcode.ERR_PORT_DELETED),
                 (errcode.ERR_SEM_TIMED_OUT, errcode.ERR_PORT_TIMED_OUT),
                 (errcode.ERR_INTERRUPTED, errcode.ERR_INTERRUPTED)] →
      (sem_acquire_etc s.sems (s.ports (slot_of id)).read_sem env.wait).2 = retval.err e →
      port_read_etc s id (some code0) msg_buffer buffer_size flags timeout env
        = some ⟨s, retval.err pe, some code0, msg_buffer⟩) ∧
    (∀ (s : port_state) (id msg_code : Int) (msg : List Nat)
        (flags : port_flags) (timeout : Int) (env : write_env) (e pe : errcode),
      s.ports_active = true → 0 ≤ id → (s.ports (slot_of id)).id = id →
      msg.length ≤ PORT_MAX_MESSAGE_SIZE → (s.ports (slot_of id)).closed = false →
      (e, pe) ∈ [(errcode.ERR_SEM_DELETED, errcode.ERR_PORT_DELETED),
                 (errcode.ERR_SEM_TIMED_OUT, errcode.ERR_PORT_TIMED_OUT),
                 (errcode.ERR_INTERRUPTED, errcode.ERR_INTERRUPTED)] →
      (sem_acquire_etc s.sems (s.ports (slot_of id)).write_sem env.wait).2 = retval.err e →
      port_write_etc s id msg_code msg flags timeout env = some (s, retval.err pe)) := by
  constructor
  · intro s id code0 msg_buffer buffer_size flags timeout env e pe hact h0 hlive hbuf ht he hacq
    have hacq2 := sem_acquire_etc_err _ _ _ _ hacq
    have hbuf2 : ¬ (msg_buffer = none ∧ buffer_size > 0) := by
      rintro ⟨h1, h2⟩; have := hbuf h1; omega
    simp only [List.mem_cons, Prod.mk.injEq, List.mem_singleton, List.not_mem_nil, or_false] at he
    unfold port_read_etc
    rcases he with ⟨rfl, rfl⟩ | ⟨rfl, rfl⟩ | ⟨rfl, rfl⟩ <;>
      (simp [hact, not_lt.mpr h0, not_lt.mpr ht, hlive, hbuf2, hacq2]; rw [← hact])
  · intro s id msg_code msg flags timeout env e pe hact h0 hlive hlen hcl he hacq
    have hacq2 := sem_acquire_etc_err _ _ _ _ hacq
    simp only [List.mem_cons, Prod.mk.injEq, List.mem_singleton, List.not_mem_nil, or_false] at he
    unfold port_write_etc
    rcases he with ⟨rfl, rfl⟩ | ⟨rfl, rfl⟩ | ⟨rfl, rfl⟩ <;>
      (simp [hact, not_lt.mpr h0, hlive, not_lt.mpr hlen, hcl, hacq2]; rw [← hact])

/-- Witness for C10: a timed read on the empty port 0 and a timed write on the
full port 0 of the scenario both time out and change nothing. -/
theorem failed_acquire_translated_witness :
    port_read_etc st_p1 0 (some 0) (some [0, 0]) 2 ⟨false, false, true⟩ 1000000 renv_ok
      = some ⟨st_p1, retval.err errcode.ERR_PORT_TIMED_OUT, some 0, some [0, 0]⟩ ∧
    port_write_etc st_p1_full 0 1 testdata ⟨false, false, true⟩ 1000000 wenv_ok
      = some (st_p1_full, retval.err errcode.ERR_PORT_TIMED_OUT) :=
  ⟨failed_acquire_translated.1 st_p1 0 0 (some [0, 0]) 2 ⟨false, false, true⟩ 1000000
      renv_ok errcode.ERR_SEM_TIMED_OUT errcode.ERR_PORT_TIMED_OUT
      (by decide) (by decide) (by decide) (by decide) (by decide) (by decide) (by decide),
   failed_acquire_translated.2 st_p1_full 0 1 testdata ⟨false, false, true⟩ 1000000 wenv_ok
      errcode.ERR_SEM_TIMED_OUT errcode.ERR_PORT_TIMED_OUT
      (by decide) (by decide) (by decide) (by decide) (by decide) (by decide) (by decide)⟩

/-- C11 (the code departs from the claim): `port_buffer_size_etc` reads the cell
at `head`, not the cell at `tail`.  On a port with two cells a message of 5
bytes and one of 3 bytes are written and the first is read; the queue then
holds the 3-byte message in cell `tail = 1` and `head = 0` points at the
consumed cell, whose `data_len` is still 5.  The peek returns 5, while the
read that follows dequeues the 3-byte message with code 2.  The peek leaves
head, tail and the queue as they are. -/
theorem peek_reads_cell_at_head :
    (port_run 32 st_init ops_peek).map Prod.snd
      = some [retval.val 0, NO_ERROR, NO_ERROR, retval.val 5] ∧
    (st_peek.ports 0).id = 0 ∧ (st_peek.ports 0).tail = 1 ∧ (st_peek.ports 0).head = 0 ∧
    st_peek.sems.count (st_peek.ports 0).read_sem = some 1 ∧
    (st_peek.ports 0).msg_queue
      = [⟨1, none, 5⟩, ⟨2, some [120, 121, 0], 3⟩] ∧
    (port_buffer_size_etc st_peek 0 ⟨false, false, false⟩ 0 errcode.ERR_SEM_TIMED_OUT).map
        (fun r => (r.2, r.1.ports 0))
      = some (retval.val 5, st_peek.ports 0) ∧
    (port_read st_peek 0 (some 0) (some [0, 0, 0, 0, 0, 0]) 6 renv_ok).map
        (fun r => (r.ret, r.msg_code, r.msg_buffer))
      = some (retval.val 3, some 2, some [120, 121, 0, 0, 0, 0]) := by
  decide

/-- C12 (the code departs from the claim): `port_get_info` and
`port_get_next_port_info` copy `count(read_sem)` into `queue_count` without the
clamp that `port_count` applies.  On the fresh port 0 with one reader parked
(`count(read_sem) = -1`) both report `queue_count = -1`, while `port_count`
returns 0. -/
theorem queue_count_exposed_negative :
    (st_p1_parked.ports 0).id = 0 ∧
    st_p1_parked.sems.count (st_p1_parked.ports 0).read_sem = some (-1) ∧
    (port_get_info 32 st_p1_parked 0 (some ⟨0, 0, [], 0, 0, 0⟩)).2.1 = NO_ERROR ∧
    (port_get_info 32 st_p1_parked 0 (some ⟨0, 0, [], 0, 0, 0⟩)).2.2.map port_info.queue_count
      = some (-1) ∧
    (port_get_next_port_info 32 st_p1_parked 7 (some 0) (some ⟨0, 0, [], 0, 0, 0⟩)).map
        (fun r => (r.ret, r.cookie, r.info.map port_info.queue_count))
      = some (NO_ERROR, some 1, some (-1)) ∧
    (port_count st_p1_parked 0).map Prod.snd = some (retval.val 0) := by
  decide

/-- C13 (as stated, refuted): `port_create` stores at most 31 characters of the
name.  `port_create(1, long_name)` with a name of 40 characters succeeds with id
0 on the fresh table, the stored name is cut after 31 characters, and
`port_find(long_name)` returns `ERR_INVALID_HANDLE`. -/
theorem long_name_not_found :
    long_name.length = 40 ∧
    (port_create 32 st_init 1 (some long_name) env_ok).2 = retval.val 0 ∧
    (st_long.ports 0).id = 0 ∧
    (st_long.ports 0).name = some "a port name that is longer than".toList ∧
    port_find st_long (some long_name) = some (retval.err errcode.ERR_INVALID_HANDLE) := by
  refine ⟨by decide, by decide, by decide, by decide, ?_⟩
  have hports : ∀ j, j ≠ 0 → st_long.ports j = free_entry := by
    intro j hj
    rw [st_long_ports, Function.update_noteq hj]
  apply port_find_none
  · decide
  · intro i _ h
    by_cases hi : i = 0
    · subst hi; decide
    · rw [hports i hi] at h
      exact absurd h (by decide)
  · intro j _ h
    by_cases hj : j = 0
    · subst hj
      exact absurd h.2 (by decide)
    · rw [hports j hj] at h
      exact absurd h.1 (by decide)

/-- C13 (amended): find by name.  On an active table in which every Live slot
has a name, `port_find(name)` returns the id of the lowest-index Live slot
whose stored name equals `name`, and `ERR_INVALID_HANDLE` when no Live slot has
that name.  After `port_create(d, name) = id` has succeeded with a name shorter
than `SYS_MAX_OS_NAME_LEN`, some slot `k` holds the port `id` under the name
`name`, `port_find(name)` returns the id of the lowest-index Live slot named
`name`, which is not above `k`, and it returns `id` itself when no slot below
`k` carries the same name. -/
theorem find_by_name (N : Nat) (s : port_state) (name : List Char)
    (hact : s.ports_active = true)
    (hnames : ∀ i, i < MAX_PORTS → 0 ≤ (s.ports i).id → (s.ports i).name ≠ none) :
    (∀ k, k < MAX_PORTS → 0 ≤ (s.ports k).id → (s.ports k).name = some name →
      (∀ j, j < k → ¬ (0 ≤ (s.ports j).id ∧ (s.ports j).name = some name)) →
      port_find s (some name) = some (retval.val (s.ports k).id)) ∧
    ((∀ j, j < MAX_PORTS → ¬ (0 ≤ (s.ports j).id ∧ (s.ports j).name = some name)) →
      port_find s (some name) = some (retval.err errcode.ERR_INVALID_HANDLE)) ∧
    (∀ (d : Int) (env : create_env) (s1 : port_state) (id : Int),
      port_create N s d (some name) env = (s1, retval.val id) → 0 ≤ id → name.length < N →
      ∃ k, k < MAX_PORTS ∧ (s1.ports k).id = id ∧ (s1.ports k).name = some name ∧
        (∃ k0, k0 ≤ k ∧ 0 ≤ (s1.ports k0).id ∧ (s1.ports k0).name = some name ∧
          (∀ j, j < k0 → ¬ (0 ≤ (s1.ports j).id ∧ (s1.ports j).name = some name)) ∧
          port_find s1 (some name) = some (retval.val (s1.ports k0).id)) ∧
        ((∀ j, j < k → ¬ (0 ≤ (s1.ports j).id ∧ (s1.ports j).name = some name)) →
          port_find s1 (some name) = some (retval.val id))) := by
  refine ⟨fun k hk hl hn hf => port_find_first s name k hact hnames hk hl hn hf,
    fun hno => port_find_none s name hact hnames hno, ?_⟩
  intro d env s1 id hc h0 hlen
  obtain ⟨k, hk, hid, hnm, hact1, hrest⟩ := port_create_named N s s1 d id name env hc h0 hlen
  have hnames1 : ∀ i, i < MAX_PORTS → 0 ≤ (s1.ports i).id → (s1.ports i).name ≠ none := by
    intro i hi hl
    by_cases hik : i = k
    · subst hik; rw [hnm]; simp
    · rw [hrest i hik] at hl ⊢
      exact hnames i hi hl
  have hlive : 0 ≤ (s1.ports k).id := by rw [hid]; exact h0
  refine ⟨k, hk, hid, hnm, port_find_some s1 name k hact1 hnames1 hk hlive hnm, ?_⟩
  intro hf
  rw [← hid]
  exact port_find_first s1 name k hact1 hnames1 hk hlive hnm hf

/-- Witness for C13: on the table that holds port 0 under the name "test port #1",
`port_find("test port #1")` returns 0, `port_find` of any name no slot carries returns
`ERR_INVALID_HANDLE`, and a port created under the name "test port #1" is found
by that name. -/
theorem find_by_name_witness :
    port_find st_p1 (some "test port #1".toList) = some (retval.val (st_p1.ports 0).id) ∧
    ((∀ j, j < MAX_PORTS →
        ¬ (0 ≤ (st_p1.ports j).id ∧ (st_p1.ports j).name = some "test port #1".toList)) →
      port_find st_p1 (some "test port #1".toList)
        = some (retval.err errcode.ERR_INVALID_HANDLE)) ∧
    (∀ (d : Int) (env : create_env) (s1 : port_state) (id : Int),
      port_create 32 st_p1 d (some "test port #1".toList) env = (s1, retval.val id) → 0 ≤ id →
      "test port #1".toList.length < 32 →
      ∃ k, k < MAX_PORTS ∧ (s1.ports k).id = id ∧
        (s1.ports k).name = some "test port #1".toList ∧
        (∃ k0, k0 ≤ k ∧ 0 ≤ (s1.ports k0).id ∧
          (s1.ports k0).name = some "test port #1".toList ∧
          (∀ j, j < k0 →
            ¬ (0 ≤ (s1.ports j).id ∧ (s1.ports j).name = some "test port #1".toList)) ∧
          port_find s1 (some "test port #1".toList) = some (retval.val (s1.ports k0).id)) ∧
        ((∀ j, j < k →
            ¬ (0 ≤ (s1.ports j).id ∧ (s1.ports j).name = some "test port #1".toList)) →
          port_find s1 (some "test port #1".toList) = some (retval.val id))) :=
  ⟨(find_by_name 32 st_p1 "test port #1".toList (by decide)
      (fun i hi h => names_inv_run 32 sem_empty st_p1 _ _ st_p1_run i hi (by omega))).1 0 (by decide) (by decide) (by decide)
      (fun j hj => absurd hj (Nat.not_lt_zero j)),
   (find_by_name 32 st_p1 "test port #1".toList (by decide)
      (fun i hi h => names_inv_run 32 sem_empty st_p1 _ _ st_p1_run i hi (by omega))).2⟩

/-- C14 (the code departs from the claim): the cursor that
`port_get_next_port_info` hands out for a port in the last slot is rejected by
its own range check.  The full table `st_full` is reached from `port_init` by
4096 calls `port_create(1, NULL)` of process 7.  On it the call with cursor `k`
returns port `k` and sets the cursor to `k + 1`, for every slot `k`; the call
with cursor 4095 returns port 4095 and the cursor 4096; the call made after
it, with that cursor, returns `ERR_INVALID_HANDLE`, not `ERR_PORT_NOT_FOUND`, and
leaves `*info` untouched. -/
theorem owner_walk_ends_with_invalid_handle :
    port_run 32 st_init (List.replicate MAX_PORTS (port_op.create 1 none env_ok))
      = some (st_full, (List.range MAX_PORTS).map (fun (i : Nat) => retval.val i)) ∧
    (List.range MAX_PORTS).map (fun (k : Nat) =>
        (port_get_next_port_info 32 st_full 7 (some k) (some ⟨0, 0, [], 0, 0, 0⟩)).map
          (fun r => (r.ret, r.cookie, r.info.map port_info.id)))
      = (List.range MAX_PORTS).map (fun (k : Nat) => some (NO_ERROR, some (k + 1), some (k : Int))) ∧
    port_get_next_port_info 32 st_full 7 (some 4095) (some ⟨0, 0, [], 0, 0, 0⟩)
      = some ⟨NO_ERROR, some 4096, some ⟨4095, 7, "unnamed port".toList, 1, 0, 0⟩⟩ ∧
    port_get_next_port_info 32 st_full 7 (some 4096) (some ⟨0, 0, [], 0, 0, 0⟩)
      = some ⟨retval.err errcode.ERR_INVALID_HANDLE, some 4096, some ⟨0, 0, [], 0, 0, 0⟩⟩ := by
  refine ⟨st_full_reachable, ?_, by decide, by decide⟩
  apply List.map_congr_left
  intro k hk
  exact st_full_next k (List.mem_range.mp hk) _

/-- C15: owner reaping.  On an active table in which every slot is free or
holds an id `≥ 0` congruent to its index, `port_delete_owned_ports(T)` returns
the number of slots that held a port owned by `T`; afterwards no slot holds a
port owned by `T`, `port_get_info` rejects every id that was owned by `T` with
`ERR_INVALID_HANDLE`, every slot that did not hold a port of `T` is unchanged,
and so are the counter and every semaphore that did not belong to a port of
`T`. -/
theorem owner_reaping (N : Nat) (s : port_state) (T : Int)
    (hact : s.ports_active = true)
    (hid : ∀ i, i < MAX_PORTS →
      (s.ports i).id = -1 ∨
        (0 ≤ (s.ports i).id ∧ (s.ports i).id % (MAX_PORTS : Int) = (i : Int))) :
    (port_delete_owned_ports s T).2
      = retval.val ((List.range MAX_PORTS).countP (owned_by s T) : Nat) ∧
    (∀ i, i < MAX_PORTS →
      ¬ (((port_delete_owned_ports s T).1.ports i).id ≠ -1 ∧
          ((port_delete_owned_ports s T).1.ports i).owner = T)) ∧
    (∀ i, i < MAX_PORTS → (s.ports i).id ≠ -1 → (s.ports i).owner = T →
      ∀ info : port_info,
        port_get_info N (port_delete_owned_ports s T).1 (s.ports i).id (some info)
          = ((port_delete_owned_ports s T).1, retval.err errcode.ERR_INVALID_HANDLE,
              some info)) ∧
    (∀ i, ¬ ((s.ports i).id ≠ -1 ∧ (s.ports i).owner = T) →
      (port_delete_owned_ports s T).1.ports i = s.ports i) ∧
    (port_delete_owned_ports s T).1.next_port = s.next_port ∧
    (∀ h, (∀ j, j < MAX_PORTS → (s.ports j).id ≠ -1 → (s.ports j).owner = T →
        h ≠ (s.ports j).read_sem ∧ h ≠ (s.ports j).write_sem) →
      (port_delete_owned_ports s T).1.sems.count h = s.sems.count h) := by
  obtain ⟨r1, r2, r3, r4, r5, r6⟩ := port_delete_owned_loop_spec T MAX_PORTS 0 s 0 hact
    (fun j _ h2 => hid j (by omega))
  have hdef : port_delete_owned_ports s T =
      ((port_delete_owned_loop T MAX_PORTS 0 s 0).1,
       retval.val (port_delete_owned_loop T MAX_PORTS 0 s 0).2) := by
    unfold port_delete_owned_ports
    rw [if_neg (by simp [hact])]
  rw [hdef]
  dsimp only
  have hown : ∀ j, owned_by s T j = true ↔ ((s.ports j).id ≠ -1 ∧ (s.ports j).owner = T) := by
    intro j
    simp [owned_by]
  refine ⟨?_, ?_, ?_, ?_, r3, ?_⟩
  · rw [r1, List.range_eq_range']
    simp
  · intro i hi
    rw [r4 i]
    by_cases hc : 0 ≤ i ∧ i < 0 + MAX_PORTS ∧ owned_by s T i = true
    · rw [if_pos hc]
      simp [freed]
    · rw [if_neg hc]
      intro h
      exact hc ⟨Nat.zero_le _, by omega, (hown i).mpr h⟩
  · intro i hi hl ho info
    have h0 : 0 ≤ (s.ports i).id := by
      rcases hid i hi with h | h
      · exact absurd h hl
      · exact h.1
    have hslot : slot_of (s.ports i).id = i := by
      rcases hid i hi with h | h
      · exact absurd h hl
      · exact slot_of_eq _ _ h.1 h.2
    have hfr : (port_delete_owned_loop T MAX_PORTS 0 s 0).1.ports i = freed (s.ports i) := by
      rw [r4 i, if_pos ⟨Nat.zero_le _, by omega, (hown i).mpr ⟨hl, ho⟩⟩]
    have hne : ((port_delete_owned_loop T MAX_PORTS 0 s 0).1.ports i).id ≠ (s.ports i).id := by
      rw [hfr]
      simp only [freed]
      omega
    unfold port_get_info
    rw [if_neg (by simp [r2])]
    dsimp only
    rw [if_neg (by omega), hslot, if_pos hne]
  · intro i hn
    rw [r4 i, if_neg (fun h => hn ((hown i).mp h.2.2))]
  · intro h hh
    exact r6 h (fun j _ h2 h3 => hh j (by omega) ((hown j).mp h3).1 ((hown j).mp h3).2)

/-- Witness for C15: process 7 has created the ports 0, 1 and 2, and port 1 has
been handed to process 9; `port_delete_owned_ports(7)` reaps the two ports 0 and
2. -/
theorem owner_reaping_witness :
    (List.range MAX_PORTS).countP (owned_by st_abc 7) = 2 ∧
    (port_delete_owned_ports st_abc 7).2
      = retval.val ((List.range MAX_PORTS).countP (owned_by st_abc 7) : Nat) ∧
    (∀ i, i < MAX_PORTS →
      ¬ (((port_delete_owned_ports st_abc 7).1.ports i).id ≠ -1 ∧
          ((port_delete_owned_ports st_abc 7).1.ports i).owner = 7)) ∧
    (∀ i, i < MAX_PORTS → (st_abc.ports i).id ≠ -1 → (st_abc.ports i).owner = 7 →
      ∀ info : port_info,
        port_get_info 32 (port_delete_owned_ports st_abc 7).1 (st_abc.ports i).id (some info)
          = ((port_delete_owned_ports st_abc 7).1, retval.err errcode.ERR_INVALID_HANDLE,
              some info)) ∧
    (∀ i, ¬ ((st_abc.ports i).id ≠ -1 ∧ (st_abc.ports i).owner = 7) →
      (port_delete_owned_ports st_abc 7).1.ports i = st_abc.ports i) ∧
    (port_delete_owned_ports st_abc 7).1.next_port = st_abc.next_port ∧
    (∀ h, (∀ j, j < MAX_PORTS → (st_abc.ports j).id ≠ -1 → (st_abc.ports j).owner = 7 →
        h ≠ (st_abc.ports j).read_sem ∧ h ≠ (st_abc.ports j).write_sem) →
      (port_delete_owned_ports st_abc 7).1.sems.count h = st_abc.sems.count h) :=
  ⟨st_abc_owned, owner_reaping 32 st_abc 7 (by decide)
    (fun i hi => (st_abc_id_inv.2 i hi).imp id (fun h => ⟨h.1, h.2.1⟩))⟩

/-- C16 (as stated, refuted): `port_create` allocates the name before it looks
at `queue_length`, and the queue and the semaphores before it looks for a
slot.  With a failing `kmalloc` of the name, `port_create(0, name)` returns
`ERR_NO_MEMORY`, not `ERR_INVALID_ARGS`; on the full table, with a failing
`kmalloc` of the queue, `port_create(1, NULL)` returns `ERR_NO_MEMORY`, not
`ERR_PORT_OUT_OF_SLOTS`; and on the empty table whose counter stands at
2147479553 the id minted for slot 0 overflows 32 bits and `port_create`
returns a negative word. -/
theorem create_reports_no_memory_first :
    st_init.ports_active = true ∧
    (port_create 32 st_init 0 (some "test port #1".toList) env_no_name).2
      = retval.err errcode.ERR_NO_MEMORY ∧
    st_full.ports_active = true ∧ (∀ i, i < MAX_PORTS → (st_full.ports i).id = i) ∧
    (port_create 32 st_full 1 none env_no_queue).2 = retval.err errcode.ERR_NO_MEMORY ∧
    (st_last_round.ports 0).id = -1 ∧
    (port_create 32 st_last_round 1 none env_ok).2 = retval.val (-2147483648) := by
  refine ⟨by decide, by decide, by decide, ?_, by decide, by decide, by decide⟩
  intro i hi
  simp only [st_full, if_pos hi]

/-- C16 (amended): create fails atomically.  On an active table `port_create`
returns `ERR_INVALID_ARGS` for every `queue_length < 1` or `> 4096` when the
allocation of the name succeeds, and leaves the whole state unchanged.  For a
valid `queue_length`, when the allocations of the name and the queue and the
creation of both semaphores succeed: if no slot is free it returns
`ERR_PORT_OUT_OF_SLOTS` and leaves every slot, `next_port` and every semaphore
that existed before the call unchanged; if a slot is free and the counter is
not within `MAX_PORTS` of the 32-bit limit it returns an id `≥ 0`. -/
theorem create_fails_atomically (N : Nat) (s : port_state) (ql : Int)
    (name : Option (List Char)) (env : create_env)
    (hact : s.ports_active = true) (hname : env.name_mem = true) :
    ((ql < 1 ∨ ql > MAX_QUEUE_LENGTH) →
      port_create N s ql name env = (s, retval.err errcode.ERR_INVALID_ARGS)) ∧
    (1 ≤ ql → ql ≤ MAX_QUEUE_LENGTH → env.queue_mem.isSome = true → env.sem_r_fail = none →
      env.sem_w_fail = none → 0 ≤ s.sems.next_sem →
      ((∀ i, i < MAX_PORTS → (s.ports i).id ≠ -1) →
        (port_create N s ql name env).2 = retval.err errcode.ERR_PORT_OUT_OF_SLOTS ∧
        (port_create N s ql name env).1.ports = s.ports ∧
        (port_create N s ql name env).1.next_port = s.next_port ∧
        (port_create N s ql name env).1.ports_active = s.ports_active ∧
        ∀ h, h < s.sems.next_sem →
          (port_create N s ql name env).1.sems.count h = s.sems.count h) ∧
      ((∃ i, i < MAX_PORTS ∧ (s.ports i).id = -1) → 0 ≤ s.next_port →
        s.next_port + MAX_PORTS ≤ 2147483648 →
        ∃ id, 0 ≤ id ∧ (port_create N s ql name env).2 = retval.val id)) := by
  constructor
  · intro hql
    unfold port_create
    rw [if_neg (by simp [hact])]
    simp only [if_neg (show ¬ env.name_mem = false by simp [hname])]
    rw [if_pos hql]
  · intro hq1 hq2 hmem hr hw hs
    obtain ⟨mem, hmem⟩ := Option.isSome_iff_exists.mp hmem
    have hc := port_create_env_ok N s ql name env mem hact hname hq1 hq2 hmem hr hw hs
    constructor
    · intro hfull
      have hl : port_create_loop { s with sems := sems_created s.sems ql } ql
          (strlcpy (name.getD "unnamed port".toList)
            (min ((name.getD "unnamed port".toList).length + 1) N))
          s.sems.next_sem (s.sems.next_sem + 1) ((List.range ql.toNat).map mem) env.owner
          MAX_PORTS 0 = none :=
        port_create_loop_full _ _ _ _ _ _ _ _ _ (fun j _ h2 => hfull j (by omega))
      rw [hc, hl]
      refine ⟨rfl, rfl, rfl, rfl, ?_⟩
      intro h hh
      simp only [sem_delete, sems_created]
      rw [Function.update_noteq (by omega), Function.update_noteq (by omega),
        Function.update_noteq (by omega), Function.update_noteq (by omega)]
    · intro hfree h0 hnw
      have hf : ∃ i, i < MAX_PORTS ∧ (s.ports i).id = -1 := hfree
      have hspec := Nat.find_spec hf
      have hmin : ∀ j, j < Nat.find hf → (s.ports j).id ≠ -1 := by
        intro j hj hid
        have hj2 : j < MAX_PORTS := by omega
        exact Nat.find_min hf hj ⟨hj2, hid⟩
      have hl : port_create_loop { s with sems := sems_created s.sems ql } ql
          (strlcpy (name.getD "unnamed port".toList)
            (min ((name.getD "unnamed port".toList).length + 1) N))
          s.sems.next_sem (s.sems.next_sem + 1) ((List.range ql.toNat).map mem) env.owner
          MAX_PORTS 0 = some (port_create_at { s with sems := sems_created s.sems ql }
            (Nat.find hf) ql
            (strlcpy (name.getD "unnamed port".toList)
              (min ((name.getD "unnamed port".toList).length + 1) N))
            s.sems.next_sem (s.sems.next_sem + 1) ((List.range ql.toNat).map mem) env.owner) :=
        port_create_loop_first _ _ _ _ _ _ _ _ _ (Nat.find hf) (Nat.zero_le _)
          (by omega) hspec.2 (fun j _ h4 => hmin j h4)
      rw [hc, hl]
      exact ⟨fresh_id s.next_port (Nat.find hf),
        fresh_id_nonneg _ _ h0 hspec.1 hnw, rfl⟩

/-- Witness for C16: `port_create(0, NULL)` on the fresh table, and `port_create(1,
NULL)` on the full table and on the fresh table. -/
theorem create_fails_atomically_witness :
    port_create 32 st_init 0 none env_ok = (st_init, retval.err errcode.ERR_INVALID_ARGS) ∧
    ((port_create 32 st_full 1 none env_ok).2 = retval.err errcode.ERR_PORT_OUT_OF_SLOTS ∧
      (port_create 32 st_full 1 none env_ok).1.ports = st_full.ports ∧
      (port_create 32 st_full 1 none env_ok).1.next_port = st_full.next_port ∧
      (port_create 32 st_full 1 none env_ok).1.ports_active = st_full.ports_active ∧
      ∀ h, h < st_full.sems.next_sem →
        (port_create 32 st_full 1 none env_ok).1.sems.count h = st_full.sems.count h) ∧
    ∃ id, 0 ≤ id ∧ (port_create 32 st_init 1 none env_ok).2 = retval.val id :=
  ⟨(create_fails_atomically 32 st_init 0 none env_ok (by decide) (by decide)).1 (by decide),
   ((create_fails_atomically 32 st_full 1 none env_ok (by decide) (by decide)).2
      (by decide) (by decide) (by decide) (by decide) (by decide) (by decide)).1
      (fun i hi => by simp only [st_full, if_pos hi]; omega),
   ((create_fails_atomically 32 st_init 1 none env_ok (by decide) (by decide)).2
      (by decide) (by decide) (by decide) (by decide) (by decide) (by decide)).2
      ⟨0, by decide, by decide⟩ (by decide) (by decide)⟩

/-- C17: close is idempotent and touches only the closed flag.  On an active
table, for a live port `id`, `port_close` returns `NO_ERROR`; the slot of the
port is the old entry with `closed = true` (id, owner, name, capacity, head,
tail, total_count, the semaphore handles and the queue cells are as before),
every other slot, the semaphore table and the counter are unchanged; and a
second `port_close` returns `NO_ERROR` and leaves the state of the first. -/
theorem close_idempotent (s : port_state) (id : Int)
    (hact : s.ports_active = true) (h0 : 0 ≤ id) (hlive : (s.ports (slot_of id)).id = id) :
    (port_close s id).2 = NO_ERROR ∧
    (port_close s id).1.ports (slot_of id) = { s.ports (slot_of id) with closed := true } ∧
    (∀ j, j ≠ slot_of id → (port_close s id).1.ports j = s.ports j) ∧
    (port_close s id).1.sems = s.sems ∧
    (port_close s id).1.next_port = s.next_port ∧
    (port_close s id).1.ports_active = s.ports_active ∧
    port_close (port_close s id).1 id = ((port_close s id).1, NO_ERROR) := by
  have h1 : port_close s id = (with_closed s (slot_of id), NO_ERROR) := by
    unfold port_close with_closed
    dsimp only
    rw [if_neg (by simp [hact]), if_neg (by omega), if_neg (by simp [hlive])]
  have h2 : port_close (with_closed s (slot_of id)) id
      = (with_closed (with_closed s (slot_of id)) (slot_of id), NO_ERROR) := by
    unfold port_close with_closed
    dsimp only
    rw [if_neg (by simp [hact]), if_neg (by omega), if_neg (by simp [hlive])]
  have h3 : with_closed (with_closed s (slot_of id)) (slot_of id)
      = with_closed s (slot_of id) := by
    unfold with_closed
    simp
  rw [h1]
  refine ⟨rfl, by simp [with_closed], ?_, rfl, rfl, rfl, ?_⟩
  · intro j hj
    simp [with_closed, Function.update_noteq hj]
  · dsimp only
    rw [h2, h3]

/-- Witness for C17: closing port 0 of the scenario, which holds a message. -/
theorem close_idempotent_witness :
    (port_close st_p1_full 0).2 = NO_ERROR ∧
    (port_close st_p1_full 0).1.ports (slot_of 0)
      = { st_p1_full.ports (slot_of 0) with closed := true } ∧
    (∀ j, j ≠ slot_of 0 → (port_close st_p1_full 0).1.ports j = st_p1_full.ports j) ∧
    (port_close st_p1_full 0).1.sems = st_p1_full.sems ∧
    (port_close st_p1_full 0).1.next_port = st_p1_full.next_port ∧
    (port_close st_p1_full 0).1.ports_active = st_p1_full.ports_active ∧
    port_close (port_close st_p1_full 0).1 0 = ((port_close st_p1_full 0).1, NO_ERROR) :=
  close_idempotent st_p1_full 0 (by decide) (by decide) (by decide)

/-- C18: write-side payload failure keeps the token.  On a live, non-closed
port whose `write_sem` holds `w ≥ 1` tokens, a `port_write_etc` of a non-empty
payload of valid size whose `cbuf_get_chain` fails returns `ERR_NO_MEMORY`, and
one whose copy into the chain fails returns the error code of the copy; in
both cases `count(write_sem)` is `w - 1` afterwards, `count(read_sem)` and
every other semaphore are as before, and the port table (head, tail,
total_count and the queue cells of every slot) and the counter are
unchanged. -/
theorem payload_failure_keeps_token (s : port_state) (id msg_code : Int) (msg : List Nat)
    (flags : port_flags) (timeout : Int) (env : write_env) (w : Int)
    (hact : s.ports_active = true) (h0 : 0 ≤ id) (hlive : (s.ports (slot_of id)).id = id)
    (hopen : (s.ports (slot_of id)).closed = false)
    (hlen : msg.length ≤ PORT_MAX_MESSAGE_SIZE) (hpos : 0 < msg.length)
    (hw : s.sems.count (s.ports (slot_of id)).write_sem = some w) (hw1 : 1 ≤ w)
    (hfail : env.chain_mem = false ∨ env.copy.neg = true) :
    ∃ s1, port_write_etc s id msg_code msg flags timeout env
        = some (s1, if env.chain_mem = false then retval.err errcode.ERR_NO_MEMORY
                    else env.copy) ∧
      s1.sems.count (s.ports (slot_of id)).write_sem = some (w - 1) ∧
      (∀ h, h ≠ (s.ports (slot_of id)).write_sem → s1.sems.count h = s.sems.count h) ∧
      ((s.ports (slot_of id)).read_sem ≠ (s.ports (slot_of id)).write_sem →
        s1.sems.count (s.ports (slot_of id)).read_sem
          = s.sems.count (s.ports (slot_of id)).read_sem) ∧
      s1.ports = s.ports ∧ s1.next_port = s.next_port ∧ s1.ports_active = s.ports_active := by
  refine ⟨{ s with sems := sem_taken s.sems (s.ports (slot_of id)).write_sem w }, ?_,
    by simp [sem_taken], ?_, ?_, rfl, rfl, rfl⟩
  · unfold port_write_etc
    dsimp only
    rw [if_neg (by simp [hact]), if_neg (by omega), if_neg (by omega),
      if_neg (by simp [hlive]), if_neg (by simp [hopen]),
      sem_acquire_etc_ok _ _ _ w hw hw1]
    dsimp only
    rw [if_neg (by simp), if_neg (by simp), if_neg (by simp)]
    by_cases hc : env.chain_mem = false
    · rw [if_pos ⟨hpos, hc⟩, if_pos hc]
    · rw [if_neg (by simp [hc]), if_neg hc]
      have hn : env.copy.neg = true := by
        rcases hfail with h | h
        · exact absurd h hc
        · exact h
      rw [if_pos ⟨hpos, hn⟩]
  · intro h hh
    simp [sem_taken, Function.update_noteq hh]
  · intro hne
    simp [sem_taken, Function.update_noteq hne]

/-- Witness for C18: the write of `testdata` to the fresh port 0 of the
scenario, with a failing `cbuf_get_chain`. -/
theorem payload_failure_keeps_token_witness :
    ∃ s1, port_write_etc st_p1 0 1 testdata ⟨false, false, false⟩ 0 wenv_no_mem
        = some (s1, if wenv_no_mem.chain_mem = false then retval.err errcode.ERR_NO_MEMORY
                    else wenv_no_mem.copy) ∧
      s1.sems.count (st_p1.ports (slot_of 0)).write_sem = some (1 - 1) ∧
      (∀ h, h ≠ (st_p1.ports (slot_of 0)).write_sem → s1.sems.count h = st_p1.sems.count h) ∧
      ((st_p1.ports (slot_of 0)).read_sem ≠ (st_p1.ports (slot_of 0)).write_sem →
        s1.sems.count (st_p1.ports (slot_of 0)).read_sem
          = st_p1.sems.count (st_p1.ports (slot_of 0)).read_sem) ∧
      s1.ports = st_p1.ports ∧ s1.next_port = st_p1.next_port ∧
      s1.ports_active = st_p1.ports_active :=
  payload_failure_keeps_token st_p1 0 1 testdata ⟨false, false, false⟩ 0 wenv_no_mem 1
    (by decide) (by decide) (by decide) (by decide) (by decide) (by decide) (by decide)
    (by decide) (by decide)

/-- C19: ring indices stay in range.  After `port_init` and any sequence of
port calls, every live port has `0 ≤ head < capacity`, `0 ≤ tail < capacity`
and a queue of `capacity` cells, so `msg_queue[head]` and `msg_queue[tail]` are
cells of the ring.  Hence no `panic` guarding `head` or `tail` is reached:
`port_write_etc` and `port_buffer_size_etc` always return, and `port_read_etc`
can only fail to return when the cell at `tail` carries no chain although
bytes are to be copied out of it. -/
theorem ring_indices_in_range (N : Nat) (sems : sem_table) (ops : List port_op)
    (s1 : port_state) (rs : List retval)
    (hrun : port_run N (port_init (port_statics sems)) ops = some (s1, rs)) :
    (∀ i, i < MAX_PORTS → (s1.ports i).id ≠ -1 →
      0 ≤ (s1.ports i).head ∧ (s1.ports i).head < (s1.ports i).capacity ∧
      0 ≤ (s1.ports i).tail ∧ (s1.ports i).tail < (s1.ports i).capacity ∧
      (s1.ports i).msg_queue.length = (s1.ports i).capacity.toNat ∧
      (s1.ports i).head.toNat < (s1.ports i).msg_queue.length ∧
      (s1.ports i).tail.toNat < (s1.ports i).msg_queue.length) ∧
    (∀ (id msg_code : Int) (msg : List Nat) (flags : port_flags) (timeout : Int)
        (env : write_env),
      (port_write_etc s1 id msg_code msg flags timeout env).isSome = true) ∧
    (∀ (id : Int) (flags : port_flags) (timeout : Int) (wait : errcode),
      (port_buffer_size_etc s1 id flags timeout wait).isSome = true) ∧
    (∀ (id : Int) (msg_code : Option Int) (msg_buffer : Option (List Nat)) (buffer_size : Nat)
        (flags : port_flags) (timeout : Int) (env : read_env),
      port_read_etc s1 id msg_code msg_buffer buffer_size flags timeout env = none →
      ∃ m, (s1.ports (slot_of id)).msg_queue.get? (s1.ports (slot_of id)).tail.toNat = some m ∧
        m.data_cbuf = none ∧ 0 < min buffer_size m.data_len) := by
  have hinv : ring_inv s1 := ring_inv_run N sems s1 ops rs hrun
  refine ⟨?_, fun id msg_code msg flags timeout env =>
      port_write_etc_some s1 id msg_code msg flags timeout env hinv,
    fun id flags timeout wait => port_buffer_size_etc_some s1 id flags timeout wait hinv,
    fun id msg_code msg_buffer buffer_size flags timeout env h =>
      port_read_etc_none s1 id msg_code msg_buffer buffer_size flags timeout env hinv h⟩
  intro i hi hl
  obtain ⟨r1, r2, r3, r4, r5, r6, r7⟩ := hinv i hi hl
  exact ⟨r4, r5, r6, r7, r3, by omega, by omega⟩

/-- Witness for C19: the two-cell port 0 after the calls `ops_peek`, whose
`head` has wrapped around to 0 and whose `tail` is 1. -/
theorem ring_indices_in_range_witness :
    (0 ≤ (st_peek.ports 0).head ∧ (st_peek.ports 0).head < (st_peek.ports 0).capacity ∧
      0 ≤ (st_peek.ports 0).tail ∧ (st_peek.ports 0).tail < (st_peek.ports 0).capacity ∧
      (st_peek.ports 0).msg_queue.length = (st_peek.ports 0).capacity.toNat ∧
      (st_peek.ports 0).head.toNat < (st_peek.ports 0).msg_queue.length ∧
      (st_peek.ports 0).tail.toNat < (st_peek.ports 0).msg_queue.length) ∧
    (∀ (id msg_code : Int) (msg : List Nat) (flags : port_flags) (timeout : Int)
        (env : write_env),
      (port_write_etc st_peek id msg_code msg flags timeout env).isSome = true) ∧
    (∀ (id : Int) (flags : port_flags) (timeout : Int) (wait : errcode),
      (port_buffer_size_etc st_peek id flags timeout wait).isSome = true) :=
  ⟨(ring_indices_in_range 32 sem_empty ops_peek st_peek _ st_peek_run).1 0
      (by decide) (by decide),
   (ring_indices_in_range 32 sem_empty ops_peek st_peek _ st_peek_run).2.1,
   (ring_indices_in_range 32 sem_empty ops_peek st_peek _ st_peek_run).2.2.1⟩

/-- C20 (the code departs from the claim): after its semaphore acquire
`port_buffer_size_etc` takes the slot lock again without disabling interrupts.
On the full port 0 of the scenario the call disables interrupts, takes and
releases the slot lock, restores interrupts, and then takes and releases the
slot lock with interrupts enabled, whether the acquire succeeds (port 0 holds
a message) or times out (port 0 is empty). -/
theorem peek_holds_lock_with_interrupts_on :
    port_buffer_size_etc_locks st_p1_full 0 errcode.ERR_SEM_TIMED_OUT
      = [lock_event.int_disable_interrupts, lock_event.GRAB_PORT_LOCK 0,
         lock_event.RELEASE_PORT_LOCK 0, lock_event.int_restore_interrupts,
         lock_event.GRAB_PORT_LOCK 0, lock_event.RELEASE_PORT_LOCK 0] ∧
    locks_disciplined false 0
      (port_buffer_size_etc_locks st_p1_full 0 errcode.ERR_SEM_TIMED_OUT) = false ∧
    port_buffer_size_etc_locks st_p1 0 errcode.ERR_SEM_TIMED_OUT
      = [lock_event.int_disable_interrupts, lock_event.GRAB_PORT_LOCK 0,
         lock_event.RELEASE_PORT_LOCK 0, lock_event.int_restore_interrupts,
         lock_event.GRAB_PORT_LOCK 0, lock_event.RELEASE_PORT_LOCK 0] ∧
    locks_disciplined false 0
      (port_buffer_size_etc_locks st_p1 0 errcode.ERR_SEM_TIMED_OUT) = false := by
  decide

/-- C21: release before block.  On every path of every port call, whatever
the state, the arguments and the answers of the environment, no port-list
lock and no port-slot lock is held when `sem_acquire_etc`, `kmalloc`,
`cbuf_get_chain` or a cbuf copy is called, and the port-list lock is never
taken while a port-slot lock is held: the sequence of events of
`port_read_etc`, `port_write_etc`, `port_buffer_size_etc` and `port_create`, and of the
eight other calls, passes `release_before_block`.  A sequence that blocks under
a slot lock, or takes the list lock under a slot lock, does not pass; the
events of a successful `port_write` are spelled out at the end. -/
theorem release_before_block_holds :
    (∀ (s : port_state) (id : Int) (msg_code : Option Int) (msg_buffer : Option (List Nat))
        (buffer_size : Nat) (timeout : Int) (env : read_env),
      release_before_block
        (port_read_etc_events s id msg_code msg_buffer buffer_size timeout env) = true) ∧
    (∀ (s : port_state) (id : Int) (msg : List Nat) (env : write_env),
      release_before_block (port_write_etc_events s id msg env) = true) ∧
    (∀ (s : port_state) (id : Int) (wait : errcode),
      release_before_block (port_buffer_size_etc_events s id wait) = true) ∧
    (∀ (s : port_state) (queue_length : Int) (env : create_env),
      release_before_block (port_create_events s queue_length env) = true) ∧
    (∀ (s : port_state) (port_name : Option (List Char)),
      release_before_block (port_find_events s port_name) = true) ∧
    (∀ (s : port_state) (proc : Int) (cookie : Option Nat) (info : Option port_info),
      release_before_block (port_get_next_port_info_events s proc cookie info) = true) ∧
    (∀ (s : port_state) (owner : Int),
      release_before_block (port_delete_owned_ports_events s owner) = true) ∧
    (∀ (s : port_state) (id : Int), release_before_block (port_close_events s id) = true) ∧
    (∀ (s : port_state) (id : Int), release_before_block (port_delete_events s id) = true) ∧
    (∀ (s : port_state) (id : Int) (info : Option port_info),
      release_before_block (port_get_info_events s id info) = true) ∧
    (∀ (s : port_state) (id : Int), release_before_block (port_count_events s id) = true) ∧
    (∀ (s : port_state) (id : Int),
      release_before_block (port_set_owner_events s id) = true) ∧
    release_before_block [ev_int_disable, ev_grab 0, port_event.sem_acquire_etc, ev_release 0,
      ev_int_restore] = false ∧
    release_before_block [ev_int_disable, ev_grab 0, ev_grab_list, ev_release_list,
      ev_release 0, ev_int_restore] = false ∧
    port_write_etc_events st_p1 0 testdata wenv_ok
      = [ev_int_disable, ev_grab 0, ev_release 0, ev_int_restore, port_event.sem_acquire_etc,
         port_event.cbuf_get_chain, port_event.cbuf_memcpy, ev_int_disable, ev_grab 0,
         ev_release 0, ev_int_restore] := by
  refine ⟨port_read_etc_events_ok, port_write_etc_events_ok, port_buffer_size_etc_events_ok,
    port_create_events_ok, port_find_events_ok, port_get_next_port_info_events_ok,
    port_delete_owned_ports_events_ok, port_close_events_ok, port_delete_events_ok,
    port_get_info_events_ok, port_count_events_ok, port_set_owner_events_ok,
    by decide, by decide, by decide⟩

/-- C22 (the code departs from the claim): `strncpy(info->name, name,
min(strlen(name), SYS_MAX_OS_NAME_LEN-1))` copies the characters of the name
without a terminating NUL.  Port 0 is named "a longer port name" and port 1
"short".  `port_get_info(0, &info)` on a zeroed struct leaves the name of port 0
in `info.name`; `port_get_info(1, &info)` on the same struct then succeeds and
sets id, owner, capacity and total_count to the fields of slot 1, but
`info.name` reads "shortger port name", not "short".  The same happens when
`port_get_next_port_info` fills the struct, and on a buffer that holds no NUL
the name is not terminated at all. -/
theorem info_name_not_terminated :
    (port_run 32 st_init ops_names).map Prod.snd = some [retval.val 0, retval.val 1] ∧
    (st_names.ports 0).name = some "a longer port name".toList ∧
    (st_names.ports 1).name = some "short".toList ∧
    (port_get_info 32 st_names 0 (some info_zero)).2.1 = NO_ERROR ∧
    cstring info_first.name = some "a longer port name".toList ∧
    (port_get_info 32 st_names 1 (some info_first)).2.1 = NO_ERROR ∧
    (port_get_info 32 st_names 1 (some info_first)).2.2.map
        (fun i => (i.id, i.owner, i.capacity, i.total_count))
      = some ((st_names.ports 1).id, (st_names.ports 1).owner, (st_names.ports 1).capacity,
          (st_names.ports 1).total_count) ∧
    (port_get_info 32 st_names 1 (some info_first)).2.2.map (fun i => cstring i.name)
      = some (some "shortger port name".toList) ∧
    (port_get_next_port_info 32 st_names 7 (some 1) (some info_first)).map
        (fun r => (r.ret, r.cookie, r.info.map (fun i => cstring i.name)))
      = some (NO_ERROR, some 2, some (some "shortger port name".toList)) ∧
    (port_get_info 32 st_names 1
        (some { info_zero with name := List.replicate 32 'X' })).2.2.map
        (fun i => cstring i.name)
      = some none := by
  decide

/-- C23 (the code departs from the claim): in `(err = cbuf_user_memcpy_from_chain(...)
< 0)` the comparison is evaluated first, so `err` is 1 when the copy fails.
Port 0 of the scenario holds one message of 5 bytes with code 1.  A
`port_read_etc` with `PORT_FLAG_USE_USER_MEMCPY` and a buffer of 5 bytes whose copy
faults returns 1: not a negative word, and not `min(5, 5)`; the message is
consumed and the buffer untouched.  The same call with a copy that succeeds
returns 5. -/
theorem failed_copy_out_returns_one :
    (st_p1_full.ports 0).id = 0 ∧ (st_p1_full.ports 0).tail = 0 ∧
    (st_p1_full.ports 0).msg_queue = [⟨1, some testdata, 5⟩] ∧
    st_p1_full.sems.count (st_p1_full.ports 0).read_sem = some 1 ∧
    renv_fault.copy.neg = true ∧
    (port_read_etc st_p1_full 0 (some 0) (some [0, 0, 0, 0, 0]) 5 ⟨true, false, false⟩ 0
        renv_fault).map (fun r => (r.ret, r.ret.neg, r.msg_code, r.msg_buffer))
      = some (retval.val 1, false, some 1, some [0, 0, 0, 0, 0]) ∧
    (port_read_etc st_p1_full 0 (some 0) (some [0, 0, 0, 0, 0]) 5 ⟨true, false, false⟩ 0
        renv_fault).map
        (fun r => (r.state.sems.count (st_p1_full.ports 0).read_sem,
          (r.state.ports 0).msg_queue))
      = some (some 0, [⟨1, none, 5⟩]) ∧
    (port_read_etc st_p1_full 0 (some 0) (some [0, 0, 0, 0, 0]) 5 ⟨true, false, false⟩ 0
        renv_ok).map (fun r => (r.ret, r.msg_code, r.msg_buffer))
      = some (retval.val 5, some 1, some testdata) := by
  refine ⟨by decide, by decide, by decide, by decide, by decide, by decide, by decide,
    by decide⟩

/-- C24 (the code departs from the claim): `port_buffer_size_etc` only returns
early when the acquire reports `ERR_SEM_DELETED` or `ERR_SEM_TIMED_OUT`.  On the
empty port 0 of the scenario (`count(read_sem) = 0`) an interrupted acquire
takes no token, yet the call goes on to `sem_release(read_sem, 1)` and returns
a length: afterwards `count(read_sem) = 1`.  A `port_read` on the still empty
queue then returns 0 bytes of a message that was never written, and
`count(write_sem)` exceeds the capacity. -/
theorem interrupted_peek_releases_token :
    (st_p1.ports 0).id = 0 ∧ (st_p1.ports 0).capacity = 1 ∧
    st_p1.sems.count (st_p1.ports 0).read_sem = some 0 ∧
    (sem_acquire_etc st_p1.sems (st_p1.ports 0).read_sem errcode.ERR_INTERRUPTED).2
      = retval.err errcode.ERR_INTERRUPTED ∧
    (port_buffer_size_etc st_p1 0 ⟨false, true, false⟩ 0 errcode.ERR_INTERRUPTED).map
        (fun r => (r.2, r.1.sems.count (st_p1.ports 0).read_sem, r.1.ports 0))
      = some (retval.val 0, some 1, st_p1.ports 0) ∧
    (port_read st_p1_peeked 0 (some 9) (some [7, 7]) 2 renv_ok).map
        (fun r => (r.ret, r.msg_code, r.msg_buffer,
          r.state.sems.count (st_p1.ports 0).write_sem))
      = some (retval.val 0, some 0, some [7, 7], some 2) := by
  decide

/-- C25 (the code departs from the claim): `user_port_get_next_port_info` copies
the first word of `info`, the id of the port, to `*ucookie`, not `cookie`.  On
the table that holds port 0 of process 7 in slot 0, `port_get_next_port_info`
with cursor 0 returns port 0 and the cursor 1, while the user-level call
writes 0 back, so that the next call returns port 0 again.  When slot 0
holds port 4096 the user-level call writes 4096 back, which the next call
rejects with `ERR_INVALID_HANDLE`. -/
theorem user_cursor_is_port_id :
    (port_get_next_port_info 32 st_p1 7 (some 0) (some info_zero)).map
        (fun r => (r.ret, r.cookie, r.info.map port_info.id))
      = some (NO_ERROR, some 1, some 0) ∧
    (user_port_get_next_port_info 32 st_p1 7 (some 0) (some info_zero) uenv_ok).map
        (fun r => (r.ret, r.cookie, r.info.map port_info.id))
      = some (NO_ERROR, some 0, some 0) ∧
    (port_get_next_port_info 32 st_p1_again 7 (some 0) (some info_zero)).map
        (fun r => (r.ret, r.cookie, r.info.map port_info.id))
      = some (NO_ERROR, some 1, some 4096) ∧
    (user_port_get_next_port_info 32 st_p1_again 7 (some 0) (some info_zero) uenv_ok).map
        (fun r => (r.ret, r.cookie, r.info.map port_info.id))
      = some (NO_ERROR, some 4096, some 4096) ∧
    (user_port_get_next_port_info 32 st_p1_again 7 (some 4096) (some info_zero) uenv_ok).map
        (fun r => (r.ret, r.cookie))
      = some (retval.err errcode.ERR_INVALID_HANDLE, some 0) := by
  refine ⟨by decide, by decide, by decide, by decide, by decide⟩

end NewOS
